import Mathlib

/-!
# Astra hand-point processor: shallow embedding of `hnd_point_processor.cpp`

The definitions below follow `src/src/plugins/orbbec_hand/hnd_point_processor.cpp`
function by function.  Floating-point scalars are idealised as exact rationals,
except in the clamp of the second-chance seed, where the rounding of the `float`
width and height is modelled.
The collaborators that are not part of the file (the seed-growing primitive, the
in-range test, the coordinate mappers, `cv::norm`, the trajectory analyzer and
the `tracked_point` constructor) are taken as parameters, bundled in `externals`.
-/

namespace astra

/-! ## Data model -/

namespace cv

/-- The OpenCV integer pixel `cv::Point`. -/
structure Point where
  x : Int
  y : Int
deriving DecidableEq, Repr

/-- The OpenCV `cv::Point3f`, with exact rational coordinates. -/
structure Point3f where
  x : ℚ
  y : ℚ
  z : ℚ
deriving DecidableEq, Repr

/-- Component-wise difference `a - b` of two `cv::Point3f`. -/
def Point3f.sub (a b : Point3f) : Point3f := ⟨a.x - b.x, a.y - b.y, a.z - b.z⟩

/-- Component-wise sum `a + b` of two `cv::Point3f`. -/
def Point3f.add (a b : Point3f) : Point3f := ⟨a.x + b.x, a.y + b.y, a.z + b.z⟩

/-- Scaling `a * k` of a `cv::Point3f` by a scalar. -/
def Point3f.scale (a : Point3f) (k : ℚ) : Point3f := ⟨a.x * k, a.y * k, a.z * k⟩

/-- The default-constructed `cv::Point3f()`. -/
def Point3f.zero : Point3f := ⟨0, 0, 0⟩

end cv

/-- The C++ conversion of a floating value to `int`: truncation toward zero. -/
def static_cast_int (q : ℚ) : Int := if 0 ≤ q then ⌊q⌋ else ⌈q⌉

/-- Modelled from the spec: `tracked_point_type` of the absent `hnd_tracked_point.hpp`
(spec §3: `pointType`: candidate_point, active_point). -/
inductive tracked_point_type where
  | candidate_point
  | active_point
deriving DecidableEq, Repr

/-- Modelled from the spec: `tracking_status` of the absent `hnd_tracked_point.hpp`
(spec §3: `trackingStatus`: not_tracking, tracking, lost, dead). -/
inductive tracking_status where
  | not_tracking
  | tracking
  | lost
  | dead
deriving DecidableEq, Repr

/-- Modelled from the spec: the record `tracked_point` of the absent
`hnd_tracked_point.hpp`, with the fields of spec §3.  The three frame counters are
counts of frames (they are only ever reset to 0, incremented, or set to the minimum
of two counters by the code) and are natural numbers; `trackingId` is an integer. -/
structure tracked_point where
  position : cv.Point
  worldPosition : cv.Point3f
  worldDeltaPosition : cv.Point3f
  fullSizePosition : cv.Point
  fullSizeWorldPosition : cv.Point3f
  fullSizeWorldDeltaPosition : cv.Point3f
  steadyWorldPosition : cv.Point3f
  trackingId : Int
  inactiveFrameCount : Nat
  failedTestCount : Nat
  probationFrameCount : Nat
  referenceAreaSqrt : ℚ
  isInProbation : Bool
  pointType : tracked_point_type
  trackingStatus : tracking_status
deriving DecidableEq, Repr

/-- Modelled from the spec: `segmentation_settings` (only the field the processor reads). -/
structure segmentation_settings where
  maxSegmentationDist : ℚ
deriving DecidableEq, Repr

/-- Modelled from the spec: `point_processor_settings`, the thresholds read by
`hnd_point_processor.cpp` (distances and factors rational, counts integer). -/
structure point_processor_settings where
  segmentationSettings : segmentation_settings
  maxhandpointUpdatesPerFrame : Int
  secondChanceMinDistance : ℚ
  pointSmoothingFactor : ℚ
  pointSmoothingDeadZone : ℚ
  pointDeadBandSmoothingFactor : ℚ
  steadyDeadBandRadius : ℚ
  maxFailedTestsInProbationActivePoints : Int
  maxFailedTestsInProbation : Int
  probationFrameCount : Int
  mergePointDistance : ℚ
  maxInactiveFramesForCandidatePoints : Int
  maxInactiveFramesForLostPoints : Int
  maxInactiveFramesForActivePoints : Int
  maxMatchDistDefault : ℚ
  maxMatchDistLostActive : ℚ
deriving DecidableEq, Repr

/-- The velocity policy argument of `tracking_data`. -/
inductive velocity_policy where
  | VELOCITY_POLICY_IGNORE
  | VELOCITY_POLICY_RESET_TTL
deriving DecidableEq, Repr

/-- The test phase argument of `tracking_data`. -/
inductive test_phase where
  | TEST_PHASE_CREATE
  | TEST_PHASE_UPDATE
deriving DecidableEq, Repr

/-- The per-call arguments of the `tracking_data` constructor, in the order the
processor passes them (after the matrices; the segmentation settings come from
`settings_`). -/
structure tracking_data where
  seedPosition : cv.Point
  referenceWorldPosition : cv.Point3f
  referenceAreaSqrt : ℚ
  velocityPolicy : velocity_policy
  phase : test_phase
deriving DecidableEq, Repr

/-- The per-frame buffers the processor reads: `matrices.depth.cols`,
`matrices.depth.rows`, `matrices.depthFullSize.cols`, `matrices.depth.at<float>(p)` and
`matrices.areaSqrt.at<float>(p)`. -/
structure tracking_matrices where
  cols : Int
  rows : Int
  fullSizeCols : Int
  depth : cv.Point → ℚ
  areaSqrt : cv.Point → ℚ

/-- Modelled from the spec: the trajectory record of one tracking id (spec §3): the
history of tracked-point samples handed to `trajectory_analyzer::update`. -/
structure trajectory_analyzer where
  trackingId : Int
  samples : List tracked_point
deriving DecidableEq, Repr

/-- Modelled from the spec: `trajectory_analyzer::update` appends the latest sample. -/
def trajectory_analyzer.update (a : trajectory_analyzer) (p : tracked_point) :
    trajectory_analyzer :=
  { a with samples := a.samples ++ [p] }

/-- The collaborators of the point processor whose code is outside the file:
`segmentation::INVALID_POINT`, `segmentation::track_point_from_seed` and
`segmentation::test_point_in_range`; `cv::norm`; the conversions of the scaling mapper
returned by `get_scaling_mapper(matrices)`; `cv_convert_world_to_depth` on
`matrices.depthToWorldData`; `get_resize_factor`; `trajectory_analyzer::is_wave_gesture`;
and the three-argument `tracked_point` constructor. -/
structure externals where
  INVALID_POINT : cv.Point
  track_point_from_seed : tracking_matrices → tracking_data → cv.Point
  test_point_in_range : tracking_matrices → cv.Point → Bool
  norm : cv.Point3f → ℚ
  convert_depth_to_world : tracking_matrices → Int → Int → ℚ → cv.Point3f
  convert_world_to_depth : tracking_matrices → cv.Point3f → cv.Point3f
  cv_convert_world_to_depth : tracking_matrices → cv.Point3f → cv.Point3f
  get_resize_factor : tracking_matrices → ℚ
  is_wave_gesture : trajectory_analyzer → Bool
  new_tracked_point : cv.Point → cv.Point3f → Int → tracked_point

/-- The mutable members of `point_processor`: `trackedPoints_`, `nextTrackingId_`
and the map `trajectories_` (as an association list keyed by tracking id). -/
structure point_processor where
  trackedPoints_ : List tracked_point
  nextTrackingId_ : Int
  trajectories_ : List (Int × trajectory_analyzer)

/-! ## Probation and validation -/

/-- The function `point_processor::start_probation`. -/
def start_probation (trackedPoint : tracked_point) : tracked_point :=
  if !trackedPoint.isInProbation then
    { trackedPoint with isInProbation := true, probationFrameCount := 0, failedTestCount := 0 }
  else trackedPoint

/-- The function `point_processor::end_probation`. -/
def end_probation (trackedPoint : tracked_point) : tracked_point :=
  { trackedPoint with isInProbation := false, failedTestCount := 0 }

/-- The function `point_processor::update_tracked_point_data`. -/
def update_tracked_point_data (ext : externals) (settings_ : point_processor_settings)
    (matrices : tracking_matrices) (trackedPoint : tracked_point)
    (newTargetPoint : cv.Point) : tracked_point :=
  let depth := matrices.depth newTargetPoint
  let worldPosition := ext.convert_depth_to_world matrices newTargetPoint.x newTargetPoint.y depth
  let deltaPosition := worldPosition.sub trackedPoint.worldPosition
  let p1 : tracked_point :=
    { trackedPoint with
      worldPosition := worldPosition
      worldDeltaPosition := deltaPosition
      position := newTargetPoint
      referenceAreaSqrt := matrices.areaSqrt newTargetPoint }
  let steadyDist := ext.norm (worldPosition.sub p1.steadyWorldPosition)
  if steadyDist > settings_.steadyDeadBandRadius then
    { p1 with steadyWorldPosition := worldPosition, inactiveFrameCount := 0 }
  else p1

/-- The probation block of `validate_and_update_tracked_point` (source lines 443-477);
the pair built first is the point after the status assignment and `probationFailed`. -/
def probation_check (settings_ : point_processor_settings) (trackedPoint : tracked_point) :
    tracked_point :=
  if trackedPoint.isInProbation then
    let r : tracked_point × Bool :=
      if trackedPoint.pointType = tracked_point_type.active_point ∧
          (trackedPoint.failedTestCount : Int) ≥ settings_.maxFailedTestsInProbationActivePoints then
        ({ trackedPoint with trackingStatus := tracking_status.lost }, true)
      else if trackedPoint.pointType = tracked_point_type.candidate_point ∧
          (trackedPoint.failedTestCount : Int) ≥ settings_.maxFailedTestsInProbation then
        ({ trackedPoint with trackingStatus := tracking_status.lost }, true)
      else (trackedPoint, false)
    let p2 : tracked_point := { r.1 with probationFrameCount := r.1.probationFrameCount + 1 }
    if (p2.probationFrameCount : Int) > settings_.probationFrameCount ∨ r.2 = true then
      end_probation p2
    else p2
  else trackedPoint

/-- The function `point_processor::validate_and_update_tracked_point`. -/
def validate_and_update_tracked_point (ext : externals) (settings_ : point_processor_settings)
    (matrices : tracking_matrices) (trackedPoint : tracked_point)
    (newTargetPoint : cv.Point) : tracked_point :=
  if trackedPoint.trackingStatus = tracking_status.dead then trackedPoint
  else
    let validPointInRange := ext.test_point_in_range matrices newTargetPoint
    let p1 : tracked_point :=
      if validPointInRange then
        let q : tracked_point := { trackedPoint with trackingStatus := tracking_status.tracking }
        if q.pointType = tracked_point_type.active_point then { q with failedTestCount := 0 }
        else q
      else
        let q := start_probation trackedPoint
        { q with failedTestCount := q.failedTestCount + 1 }
    let p2 := probation_check settings_ p1
    if validPointInRange then
      update_tracked_point_data ext settings_ matrices p2 newTargetPoint
    else p2

/-! ## Per-point update with second-chance recovery -/

/-- The `tracking_data` built at the start of `update_tracked_point` (source lines 131-137). -/
def update_tracking_data (trackedPoint : tracked_point) : tracking_data :=
  { seedPosition := trackedPoint.position
    referenceWorldPosition := trackedPoint.worldPosition
    referenceAreaSqrt := trackedPoint.referenceAreaSqrt
    velocityPolicy := velocity_policy.VELOCITY_POLICY_IGNORE
    phase := test_phase.TEST_PHASE_UPDATE }

/-- The vector `xyDelta`: the world delta with its `z` set to 0 (source lines 145-146). -/
def xyDelta (trackedPoint : tracked_point) : cv.Point3f :=
  { trackedPoint.worldDeltaPosition with z := 0 }

/-- The search for the spacing of the `float` values around the magnitude `a`: the
smallest power of two `s` with `a < 2 ^ 24 * s` (a `float` has a significand of 24
bits).  The first argument bounds the number of doublings. -/
def float_spacing : Nat → Nat → Nat → Nat
  | 0, s, _ => s
  | fuel + 1, s, a => if a < 2 ^ 24 * s then s else float_spacing fuel (2 * s) a

/-- The value of a non-negative integer converted to `float` (IEEE-754 single
precision, round to nearest, ties to the even significand): the nearest multiple of the
spacing at its magnitude. -/
def float_of_nat (a : Nat) : Nat :=
  let s := float_spacing a 1 a
  let q := a / s
  let r := a % s
  if 2 * r < s then q * s
  else if s < 2 * r then (q + 1) * s
  else if q % 2 = 0 then q * s else (q + 1) * s

/-- The value of an `int` converted to `float`; the value is an integer. -/
def float_of_int (n : Int) : Int :=
  if 0 ≤ n then (float_of_nat n.toNat : Int) else -(float_of_nat (-n).toNat : Int)

/-- The C macro `MAX`. -/
def MAX (a b : ℚ) : ℚ := if a > b then a else b

/-- The C macro `MIN`. -/
def MIN (a b : ℚ) : ℚ := if a < b then a else b

/-- The clamped seed coordinate `MAX(0, MIN(width - 1, static_cast<int>(v)))` stored
into an `int` (source lines 126-127 and 159-160).  The local `width` (or `height`) is a
`const float` initialised from the `int` dimension `bound`, `width - 1` is computed in
`float`, and the `int` operand of `MIN` is converted to `float` for the comparison. -/
def clamp_seed (bound : Int) (v : ℚ) : Int :=
  let width : Int := float_of_int bound
  let widthMinusOne : Int := float_of_int (width - 1)
  static_cast_int
    (MAX 0 (MIN (widthMinusOne : ℚ) ((float_of_int (static_cast_int v) : Int) : ℚ)))

/-- The `tracking_data` of the second-chance retry (source lines 152-168). -/
def recover_tracking_data (ext : externals) (settings_ : point_processor_settings)
    (matrices : tracking_matrices) (trackedPoint : tracked_point) : tracking_data :=
  let xyDeltaNorm := ext.norm (xyDelta trackedPoint)
  let movementDirection := (xyDelta trackedPoint).scale (1 / xyDeltaNorm)
  let maxSegmentationDist := settings_.segmentationSettings.maxSegmentationDist
  let estimatedWorldPosition :=
    trackedPoint.worldPosition.add (movementDirection.scale maxSegmentationDist)
  let estimatedPosition := ext.convert_world_to_depth matrices estimatedWorldPosition
  let seedPosition : cv.Point :=
    ⟨clamp_seed matrices.cols estimatedPosition.x, clamp_seed matrices.rows estimatedPosition.y⟩
  { seedPosition := seedPosition
    referenceWorldPosition := estimatedWorldPosition
    referenceAreaSqrt := trackedPoint.referenceAreaSqrt
    velocityPolicy := velocity_policy.VELOCITY_POLICY_IGNORE
    phase := test_phase.TEST_PHASE_UPDATE }

/-- The function `point_processor::update_tracked_point`. -/
def update_tracked_point (ext : externals) (settings_ : point_processor_settings)
    (matrices : tracking_matrices) (trackedPoint : tracked_point) : tracked_point :=
  let p0 : tracked_point :=
    { trackedPoint with inactiveFrameCount := trackedPoint.inactiveFrameCount + 1 }
  let newTargetPoint := ext.track_point_from_seed matrices (update_tracking_data p0)
  let p1 := validate_and_update_tracked_point ext settings_ matrices p0 newTargetPoint
  let xyDeltaNorm := ext.norm (xyDelta p1)
  if p1.trackingStatus ≠ tracking_status.tracking ∧
      newTargetPoint = ext.INVALID_POINT ∧
      xyDeltaNorm > settings_.secondChanceMinDistance then
    let newTargetPoint2 :=
      ext.track_point_from_seed matrices (recover_tracking_data ext settings_ matrices p1)
    if newTargetPoint2 ≠ ext.INVALID_POINT then
      validate_and_update_tracked_point ext settings_ matrices p1 newTargetPoint2
    else p1
  else p1

/-! ## Updating all tracked points -/

/-- The first loop of `update_tracked_points` (source lines 96-103) from list index `i`
on: the updated points and the indices on which `update_tracked_point` is invoked. -/
def update_active_loop (ext : externals) (settings_ : point_processor_settings)
    (matrices : tracking_matrices) : Nat → List tracked_point → List tracked_point × List Nat
  | _, [] => ([], [])
  | i, trackedPoint :: rest =>
    let r := update_active_loop ext settings_ matrices (i + 1) rest
    if trackedPoint.pointType = tracked_point_type.active_point then
      (update_tracked_point ext settings_ matrices trackedPoint :: r.1, i :: r.2)
    else (trackedPoint :: r.1, r.2)

/-- The second loop of `update_tracked_points` (source lines 105-118) from list index
`i` on, with the current value of `numUpdatedPoints`: the updated points and the
indices on which `update_tracked_point` is invoked. -/
def update_candidate_loop (ext : externals) (settings_ : point_processor_settings)
    (matrices : tracking_matrices) :
    Nat → Int → List tracked_point → List tracked_point × List Nat
  | _, _, [] => ([], [])
  | i, numUpdatedPoints, trackedPoint :: rest =>
    let visited : tracked_point × List Nat :=
      if trackedPoint.pointType ≠ tracked_point_type.active_point then
        (update_tracked_point ext settings_ matrices trackedPoint, [i])
      else (trackedPoint, [])
    let numUpdatedPoints1 := numUpdatedPoints + 1
    if numUpdatedPoints1 > settings_.maxhandpointUpdatesPerFrame then
      (visited.1 :: rest, visited.2)
    else
      let r := update_candidate_loop ext settings_ matrices (i + 1) numUpdatedPoints1 rest
      (visited.1 :: r.1, visited.2 ++ r.2)

/-- The function `point_processor::update_tracked_points`, returning the new list
together with the list indices on which `update_tracked_point` was invoked, in
invocation order. -/
def update_tracked_points_traced (ext : externals) (settings_ : point_processor_settings)
    (matrices : tracking_matrices) (trackedPoints_ : List tracked_point) :
    List tracked_point × List Nat :=
  let a := update_active_loop ext settings_ matrices 0 trackedPoints_
  let c := update_candidate_loop ext settings_ matrices 0 0 a.1
  (c.1, a.2 ++ c.2)

/-- The function `point_processor::update_tracked_points`. -/
def update_tracked_points (ext : externals) (settings_ : point_processor_settings)
    (matrices : tracking_matrices) (pp : point_processor) : point_processor :=
  { pp with
    trackedPoints_ := (update_tracked_points_traced ext settings_ matrices pp.trackedPoints_).1 }

/-- The function `point_processor::reset`. -/
def reset (pp : point_processor) : point_processor :=
  { pp with trackedPoints_ := [], nextTrackingId_ := 0 }

/-! ## Full-resolution refinement -/

/-- The function `point_processor::smooth_world_positions`. -/
def smooth_world_positions (ext : externals) (settings_ : point_processor_settings)
    (oldWorldPosition newWorldPosition : cv.Point3f) : cv.Point3f :=
  let delta := ext.norm (newWorldPosition.sub oldWorldPosition)
  let smoothingFactor : ℚ :=
    if delta < settings_.pointSmoothingDeadZone then
      let factorRamp := delta / settings_.pointSmoothingDeadZone
      settings_.pointSmoothingFactor * factorRamp +
        settings_.pointDeadBandSmoothingFactor * (1 - factorRamp)
    else settings_.pointSmoothingFactor
  (oldWorldPosition.scale (1 - smoothingFactor)).add (newWorldPosition.scale smoothingFactor)

/-- The function `point_processor::update_tracked_point_from_world_position`. -/
def update_tracked_point_from_world_position (ext : externals) (matrices : tracking_matrices)
    (trackedPoint : tracked_point) (newWorldPosition : cv.Point3f) : tracked_point :=
  let fullSizeDepthPosition := ext.cv_convert_world_to_depth matrices newWorldPosition
  let deltaPosition := newWorldPosition.sub trackedPoint.fullSizeWorldPosition
  { trackedPoint with
    fullSizePosition :=
      ⟨static_cast_int fullSizeDepthPosition.x, static_cast_int fullSizeDepthPosition.y⟩
    fullSizeWorldPosition := newWorldPosition
    fullSizeWorldDeltaPosition := deltaPosition }

/-- The loop body of `update_full_resolution_points` for one point.  The local
`processRefinedPosition` is the constant `false`, so `get_refined_high_res_position`
is never called and the refined position is the point's `worldPosition`. -/
def update_full_resolution_point (ext : externals) (settings_ : point_processor_settings)
    (matrices : tracking_matrices) (trackedPoint : tracked_point) : tracked_point :=
  let resizeFactor := ext.get_resize_factor matrices
  let p1 : tracked_point :=
    { trackedPoint with
      fullSizePosition :=
        ⟨static_cast_int (((trackedPoint.position.x : ℚ) + 1 / 2) * resizeFactor),
         static_cast_int (((trackedPoint.position.y : ℚ) + 1 / 2) * resizeFactor)⟩ }
  let resizeNeeded := matrices.fullSizeCols ≠ matrices.cols
  if resizeNeeded ∧ p1.trackingStatus = tracking_status.tracking ∧
      p1.pointType = tracked_point_type.active_point then
    let refinedWorldPosition := p1.worldPosition
    let smoothedWorldPosition :=
      smooth_world_positions ext settings_ p1.fullSizeWorldPosition refinedWorldPosition
    update_tracked_point_from_world_position ext matrices p1 smoothedWorldPosition
  else
    { p1 with
      fullSizeWorldPosition := p1.worldPosition
      fullSizeWorldDeltaPosition := p1.worldDeltaPosition }

/-- The function `point_processor::update_full_resolution_points`. -/
def update_full_resolution_points (ext : externals) (settings_ : point_processor_settings)
    (matrices : tracking_matrices) (pp : point_processor) : point_processor :=
  { pp with
    trackedPoints_ := pp.trackedPoints_.map (update_full_resolution_point ext settings_ matrices) }

/-! ## Trajectories -/

/-- The lookup `trajectories_.find(trackingId)`. -/
def trajectories_find (trajectories_ : List (Int × trajectory_analyzer)) (trackingId : Int) :
    Option trajectory_analyzer :=
  (trajectories_.find? (fun e => e.1 = trackingId)).map Prod.snd

/-- Writing through the reference `it->second` of an existing map entry. -/
def trajectories_assign (trajectories_ : List (Int × trajectory_analyzer)) (trackingId : Int)
    (analyzer : trajectory_analyzer) : List (Int × trajectory_analyzer) :=
  trajectories_.map (fun e => if e.1 = trackingId then (e.1, analyzer) else e)

/-- The call `trajectories_.erase(trackingId)`. -/
def trajectories_erase (trajectories_ : List (Int × trajectory_analyzer)) (trackingId : Int) :
    List (Int × trajectory_analyzer) :=
  trajectories_.filter (fun e => e.1 ≠ trackingId)

/-- The loop of `update_trajectories` over the remaining points, threading the map. -/
def update_trajectories_loop (ext : externals) :
    List tracked_point → List (Int × trajectory_analyzer) →
      List tracked_point × List (Int × trajectory_analyzer)
  | [], trajectories_ => ([], trajectories_)
  | trackedPoint :: rest, trajectories_ =>
    let trackingId := trackedPoint.trackingId
    match trajectories_find trajectories_ trackingId with
    | none =>
      let analyzer := (trajectory_analyzer.mk trackingId []).update trackedPoint
      let r := update_trajectories_loop ext rest (trajectories_ ++ [(trackingId, analyzer)])
      (trackedPoint :: r.1, r.2)
    | some analyzer0 =>
      let analyzer := analyzer0.update trackedPoint
      let p1 : tracked_point :=
        if ext.is_wave_gesture analyzer then
          { end_probation trackedPoint with pointType := tracked_point_type.active_point }
        else trackedPoint
      let r := update_trajectories_loop ext rest
        (trajectories_assign trajectories_ trackingId analyzer)
      (p1 :: r.1, r.2)

/-- The function `point_processor::update_trajectories`. -/
def update_trajectories (ext : externals) (pp : point_processor) : point_processor :=
  let r := update_trajectories_loop ext pp.trackedPoints_ pp.trajectories_
  { pp with trackedPoints_ := r.1, trajectories_ := r.2 }

/-! ## Duplicate merge -/

/-- The body of the inner loop of `remove_duplicate_points` (source lines 502-516) for
`tracked` at index `i` and `otherTracked` at index `j` of the list. -/
def merge_step (ext : externals) (settings_ : point_processor_settings)
    (trackedPoints_ : List tracked_point) (i j : Nat) : List tracked_point :=
  match trackedPoints_[i]?, trackedPoints_[j]? with
  | some tracked, some otherTracked =>
    let bothNotDead := tracked.trackingStatus ≠ tracking_status.dead ∧
      otherTracked.trackingStatus ≠ tracking_status.dead
    let pointDist := ext.norm (tracked.worldPosition.sub otherTracked.worldPosition)
    if tracked.trackingId ≠ otherTracked.trackingId ∧ bothNotDead ∧
        pointDist < settings_.mergePointDistance then
      let t1 : tracked_point :=
        { tracked with
          inactiveFrameCount := min tracked.inactiveFrameCount otherTracked.inactiveFrameCount }
      let t2 : tracked_point :=
        if otherTracked.pointType = tracked_point_type.active_point ∧
            t1.pointType ≠ tracked_point_type.active_point then
          { t1 with
            trackingId := otherTracked.trackingId
            pointType := tracked_point_type.active_point }
        else t1
      (trackedPoints_.set i t2).set j { otherTracked with trackingStatus := tracking_status.dead }
    else trackedPoints_
  | _, _ => trackedPoints_

/-- The inner loop of `remove_duplicate_points` for the outer element at index `i`. -/
def merge_inner (ext : externals) (settings_ : point_processor_settings)
    (trackedPoints_ : List tracked_point) (i : Nat) : List tracked_point :=
  (List.range trackedPoints_.length).foldl (fun l j => merge_step ext settings_ l i j)
    trackedPoints_

/-- The function `point_processor::remove_duplicate_points` on the list. -/
def remove_duplicate_points_list (ext : externals) (settings_ : point_processor_settings)
    (trackedPoints_ : List tracked_point) : List tracked_point :=
  (List.range trackedPoints_.length).foldl (fun l i => merge_inner ext settings_ l i)
    trackedPoints_

/-- The function `point_processor::remove_duplicate_points`. -/
def remove_duplicate_points (ext : externals) (settings_ : point_processor_settings)
    (pp : point_processor) : point_processor :=
  { pp with trackedPoints_ := remove_duplicate_points_list ext settings_ pp.trackedPoints_ }

/-! ## Eviction -/

/-- The inactivity ceiling `max` computed in `remove_stale_or_dead_points`
(source lines 528-539). -/
def inactivity_ceiling (settings_ : point_processor_settings) (tracked : tracked_point) : Int :=
  if tracked.pointType = tracked_point_type.active_point then
    if tracked.trackingStatus = tracking_status.lost then
      settings_.maxInactiveFramesForLostPoints
    else settings_.maxInactiveFramesForActivePoints
  else settings_.maxInactiveFramesForCandidatePoints

/-- The loop of `remove_stale_or_dead_points` over the remaining points, threading the map. -/
def remove_stale_loop (settings_ : point_processor_settings) :
    List tracked_point → List (Int × trajectory_analyzer) →
      List tracked_point × List (Int × trajectory_analyzer)
  | [], trajectories_ => ([], trajectories_)
  | tracked :: rest, trajectories_ =>
    let max := inactivity_ceiling settings_ tracked
    if (tracked.inactiveFrameCount : Int) > max ∨
        tracked.trackingStatus = tracking_status.dead then
      remove_stale_loop settings_ rest (trajectories_erase trajectories_ tracked.trackingId)
    else
      let r := remove_stale_loop settings_ rest trajectories_
      (tracked :: r.1, r.2)

/-- The function `point_processor::remove_stale_or_dead_points`. -/
def remove_stale_or_dead_points (settings_ : point_processor_settings)
    (pp : point_processor) : point_processor :=
  let r := remove_stale_loop settings_ pp.trackedPoints_ pp.trajectories_
  { pp with trackedPoints_ := r.1, trajectories_ := r.2 }

/-! ## Create cycle -/

/-- The matching loop of `update_tracked_or_create_new_point_from_seed`
(source lines 601-636): the list after the loop and the flag `existingPoint`. -/
def match_existing_loop (ext : externals) (settings_ : point_processor_settings)
    (matrices : tracking_matrices) (targetPoint : cv.Point) (worldPosition : cv.Point3f) :
    List tracked_point → List tracked_point × Bool
  | [] => ([], false)
  | trackedPoint :: rest =>
    let next := match_existing_loop ext settings_ matrices targetPoint worldPosition rest
    if trackedPoint.trackingStatus ≠ tracking_status.dead then
      let dist := ext.norm (trackedPoint.worldPosition.sub worldPosition)
      let lostPoint : Bool := decide (trackedPoint.trackingStatus = tracking_status.lost)
      let maxDist : ℚ :=
        if lostPoint = true ∧ trackedPoint.pointType = tracked_point_type.active_point then
          settings_.maxMatchDistLostActive
        else settings_.maxMatchDistDefault
      if dist < maxDist then
        let p1 : tracked_point := { trackedPoint with inactiveFrameCount := 0 }
        let p2 : tracked_point :=
          if lostPoint = true then
            start_probation
              { p1 with
                position := targetPoint
                referenceAreaSqrt := matrices.areaSqrt targetPoint
                worldPosition := worldPosition
                worldDeltaPosition := cv.Point3f.zero }
          else p1
        ({ p2 with trackingStatus := tracking_status.tracking } :: rest, true)
      else (trackedPoint :: next.1, next.2)
    else (trackedPoint :: next.1, next.2)

/-- The `tracking_data` of the create cycle (source lines 572-578). -/
def create_tracking_data (ext : externals) (matrices : tracking_matrices)
    (seedPosition : cv.Point) : tracking_data :=
  let referenceDepth := matrices.depth seedPosition
  { seedPosition := seedPosition
    referenceWorldPosition :=
      ext.convert_depth_to_world matrices seedPosition.x seedPosition.y referenceDepth
    referenceAreaSqrt := matrices.areaSqrt seedPosition
    velocityPolicy := velocity_policy.VELOCITY_POLICY_RESET_TTL
    phase := test_phase.TEST_PHASE_CREATE }

/-- The local `newPoint` of the create cycle as it is when `push_back` copies it into
the list (source lines 642-646). -/
def created_point (ext : externals) (targetPoint : cv.Point) (worldPosition : cv.Point3f)
    (nextTrackingId_ : Int) : tracked_point :=
  { ext.new_tracked_point targetPoint worldPosition nextTrackingId_ with
    pointType := tracked_point_type.candidate_point
    trackingStatus := tracking_status.tracking }

/-- The function `point_processor::update_tracked_or_create_new_point_from_seed`.
In the creation branch `trackedPoints_.push_back(newPoint)` stores a copy of the local
`newPoint`; the call `start_probation(newPoint)` that follows it writes to the local
only, so it has no effect on the processor state. -/
def update_tracked_or_create_new_point_from_seed (ext : externals)
    (settings_ : point_processor_settings) (matrices : tracking_matrices)
    (pp : point_processor) (seedPosition : cv.Point) : point_processor :=
  let referenceDepth := matrices.depth seedPosition
  let referenceAreaSqrt := matrices.areaSqrt seedPosition
  if referenceDepth = 0 ∨ referenceAreaSqrt = 0 ∨ seedPosition = ext.INVALID_POINT then pp
  else
    let targetPoint :=
      ext.track_point_from_seed matrices (create_tracking_data ext matrices seedPosition)
    let validPointInRange := ext.test_point_in_range matrices targetPoint
    if !validPointInRange then pp
    else
      let depth := matrices.depth targetPoint
      let worldPosition :=
        ext.convert_depth_to_world matrices targetPoint.x targetPoint.y depth
      let r := match_existing_loop ext settings_ matrices targetPoint worldPosition
        pp.trackedPoints_
      if !r.2 then
        let newPoint := created_point ext targetPoint worldPosition pp.nextTrackingId_
        { pp with
          trackedPoints_ := r.1 ++ [newPoint]
          nextTrackingId_ := pp.nextTrackingId_ + 1 }
      else { pp with trackedPoints_ := r.1 }

/-- The condition under which the probation block sets `probationFailed`. -/
def probation_failed (settings_ : point_processor_settings) (p : tracked_point) : Prop :=
  (p.pointType = tracked_point_type.active_point ∧
    (p.failedTestCount : Int) ≥ settings_.maxFailedTestsInProbationActivePoints) ∨
  (p.pointType = tracked_point_type.candidate_point ∧
    (p.failedTestCount : Int) ≥ settings_.maxFailedTestsInProbation)

instance (settings_ : point_processor_settings) (p : tracked_point) :
    Decidable (probation_failed settings_ p) := by
  unfold probation_failed; infer_instance

/-- The point handed to the probation block by `validate_and_update_tracked_point`
(source lines 429-441). -/
def after_range_test (validPointInRange : Bool) (trackedPoint : tracked_point) : tracked_point :=
  if validPointInRange then
    let q : tracked_point := { trackedPoint with trackingStatus := tracking_status.tracking }
    if q.pointType = tracked_point_type.active_point then { q with failedTestCount := 0 }
    else q
  else
    let q := start_probation trackedPoint
    { q with failedTestCount := q.failedTestCount + 1 }

/-- A run of consecutive validations of one point, one `(matrices, target)` pair per call. -/
def validate_run (ext : externals) (settings_ : point_processor_settings)
    (trackedPoint : tracked_point) (calls : List (tracking_matrices × cv.Point)) : tracked_point :=
  calls.foldl (fun q c => validate_and_update_tracked_point ext settings_ c.1 q c.2) trackedPoint

/-- A run of consecutive `update_tracked_point` calls on one point, one frame per call. -/
def update_run (ext : externals) (settings_ : point_processor_settings)
    (trackedPoint : tracked_point) (frames : List tracking_matrices) : tracked_point :=
  frames.foldl (fun q m => update_tracked_point ext settings_ m q) trackedPoint

/-- A frame in which seed growth returns `INVALID_POINT` for every request and the
in-range test rejects `INVALID_POINT`. -/
def failing_frame (ext : externals) (matrices : tracking_matrices) : Prop :=
  (∀ d, ext.track_point_from_seed matrices d = ext.INVALID_POINT) ∧
  ext.test_point_in_range matrices ext.INVALID_POINT = false

/-- The progress of an active point towards `lost` after `k` failing updates: it is
lost already, or it has not entered probation yet (`k = 0`), or it is in probation
with at least `k` failed tests and enough frames left in the probation window. -/
def lost_progress (settings_ : point_processor_settings) (k : Nat) (p : tracked_point) : Prop :=
  p.pointType = tracked_point_type.active_point ∧
  p.trackingStatus ≠ tracking_status.dead ∧
  (p.trackingStatus = tracking_status.lost ∨
    (p.isInProbation = false ∧ k = 0 ∧
      settings_.maxFailedTestsInProbationActivePoints ≤ settings_.probationFrameCount + 1) ∨
    (p.isInProbation = true ∧ k ≤ p.failedTestCount ∧
      settings_.maxFailedTestsInProbationActivePoints - (p.failedTestCount : Int)
        + (p.probationFrameCount : Int) ≤ settings_.probationFrameCount + 1 ∧
      (k = 0 ∨ (p.failedTestCount : Int) < settings_.maxFailedTestsInProbationActivePoints)))

/-- The match threshold `maxDist` of the create cycle for one point
(source lines 607-612). -/
def match_threshold (settings_ : point_processor_settings) (trackedPoint : tracked_point) : ℚ :=
  if trackedPoint.trackingStatus = tracking_status.lost ∧
      trackedPoint.pointType = tracked_point_type.active_point then
    settings_.maxMatchDistLostActive
  else settings_.maxMatchDistDefault

/-- The target pixel returned by the create-mode seed growth. -/
def create_target (ext : externals) (matrices : tracking_matrices) (seedPosition : cv.Point) :
    cv.Point :=
  ext.track_point_from_seed matrices (create_tracking_data ext matrices seedPosition)

/-- The world position of the create-cycle target (source lines 595-599). -/
def create_world (ext : externals) (matrices : tracking_matrices) (seedPosition : cv.Point) :
    cv.Point3f :=
  ext.convert_depth_to_world matrices (create_target ext matrices seedPosition).x
    (create_target ext matrices seedPosition).y
    (matrices.depth (create_target ext matrices seedPosition))

/-- The point `b` carries the tracking id of `a` and is dead exactly when `a` is. -/
def same_identity (a b : tracked_point) : Prop :=
  b.trackingId = a.trackingId ∧
  (b.trackingStatus = tracking_status.dead ↔ a.trackingStatus = tracking_status.dead)

/-- The eviction test of `remove_stale_or_dead_points` (source line 541). -/
def evicted (settings_ : point_processor_settings) (tracked : tracked_point) : Prop :=
  (tracked.inactiveFrameCount : Int) > inactivity_ceiling settings_ tracked ∨
    tracked.trackingStatus = tracking_status.dead

instance (settings_ : point_processor_settings) (tracked : tracked_point) :
    Decidable (evicted settings_ tracked) := by
  unfold evicted; infer_instance

/-- The tracking ids under which the map `trajectories_` holds a record. -/
def trajectory_ids (trajectories_ : List (Int × trajectory_analyzer)) : List Int :=
  trajectories_.map Prod.fst

/-- Every point that is dead in `l1` is still at its index, and dead, in `l2`. -/
def dead_kept (l1 l2 : List tracked_point) : Prop :=
  ∀ (i : Nat) (a : tracked_point), l1[i]? = some a →
    a.trackingStatus = tracking_status.dead →
    ∃ b : tracked_point, l2[i]? = some b ∧ b.trackingStatus = tracking_status.dead

/-- The match test of the create cycle for one point: it is not dead and its distance
to the target world position is below its threshold (source lines 604-613). -/
def matches_target (ext : externals) (settings_ : point_processor_settings)
    (worldPosition : cv.Point3f) (trackedPoint : tracked_point) : Prop :=
  trackedPoint.trackingStatus ≠ tracking_status.dead ∧
    ext.norm (trackedPoint.worldPosition.sub worldPosition)
      < match_threshold settings_ trackedPoint

/-- The matched point after the body of the match branch (source lines 615-631). -/
def matched_point (matrices : tracking_matrices) (targetPoint : cv.Point)
    (worldPosition : cv.Point3f) (trackedPoint : tracked_point) : tracked_point :=
  let p1 : tracked_point := { trackedPoint with inactiveFrameCount := 0 }
  let p2 : tracked_point :=
    if trackedPoint.trackingStatus = tracking_status.lost then
      start_probation
        { p1 with
          position := targetPoint
          referenceAreaSqrt := matrices.areaSqrt targetPoint
          worldPosition := worldPosition
          worldDeltaPosition := cv.Point3f.zero }
    else p1
  { p2 with trackingStatus := tracking_status.tracking }

/-- Every tracking id in the list is strictly below the next-id counter. -/
def ids_below_counter (pp : point_processor) : Prop :=
  ∀ p ∈ pp.trackedPoints_, p.trackingId < pp.nextTrackingId_

/-- Every tracking id of `l2` is the tracking id of a point of `l1`. -/
def ids_from (l1 l2 : List tracked_point) : Prop :=
  ∀ p ∈ l2, ∃ q ∈ l1, p.trackingId = q.trackingId

/-- The smoothing factor computed by `smooth_world_positions` from the movement
magnitude `delta` (source lines 342-350), over any linearly ordered field. -/
def effective_smoothing_factor {K : Type} [LinearOrderedField K]
    (pointSmoothingFactor pointDeadBandSmoothingFactor pointSmoothingDeadZone delta : K) : K :=
  if delta < pointSmoothingDeadZone then
    pointSmoothingFactor * (delta / pointSmoothingDeadZone) +
      pointDeadBandSmoothingFactor * (1 - delta / pointSmoothingDeadZone)
  else pointSmoothingFactor

/-- The requests handed to `segmentation::track_point_from_seed` by one call of
`update_tracked_point`, in call order (source lines 139 and 170). -/
def update_tracked_point_requests (ext : externals) (settings_ : point_processor_settings)
    (matrices : tracking_matrices) (trackedPoint : tracked_point) : List tracking_data :=
  let p0 : tracked_point :=
    { trackedPoint with inactiveFrameCount := trackedPoint.inactiveFrameCount + 1 }
  let newTargetPoint := ext.track_point_from_seed matrices (update_tracking_data p0)
  let p1 := validate_and_update_tracked_point ext settings_ matrices p0 newTargetPoint
  let xyDeltaNorm := ext.norm (xyDelta p1)
  if p1.trackingStatus ≠ tracking_status.tracking ∧
      newTargetPoint = ext.INVALID_POINT ∧
      xyDeltaNorm > settings_.secondChanceMinDistance then
    [update_tracking_data p0, recover_tracking_data ext settings_ matrices p1]
  else [update_tracking_data p0]

/-- The point after the first validation of `update_tracked_point` (source line 141). -/
def first_validation (ext : externals) (settings_ : point_processor_settings)
    (matrices : tracking_matrices) (trackedPoint : tracked_point) : tracked_point :=
  validate_and_update_tracked_point ext settings_ matrices
    { trackedPoint with inactiveFrameCount := trackedPoint.inactiveFrameCount + 1 }
    (ext.track_point_from_seed matrices (update_tracking_data trackedPoint))

/-- A point that is not in probation has no failed tests. -/
def probation_clean (p : tracked_point) : Prop :=
  p.isInProbation = false → p.failedTestCount = 0

/-- Every point of `l2` has the probation flag and failed-test count of a point of `l1`. -/
def probation_from (l1 l2 : List tracked_point) : Prop :=
  ∀ p ∈ l2, ∃ q ∈ l1, p.isInProbation = q.isInProbation ∧
    p.failedTestCount = q.failedTestCount

/-- The list positions, counted from `k`, of the points that satisfy `P`. -/
def indices_where (P : tracked_point → Bool) : Nat → List tracked_point → List Nat
  | _, [] => []
  | k, p :: rest =>
    if P p then k :: indices_where P (k + 1) rest else indices_where P (k + 1) rest

/-- The test `pointType == active_point` as a Boolean. -/
def is_active (p : tracked_point) : Bool :=
  decide (p.pointType = tracked_point_type.active_point)

/-! ## Predicates used to state the merge properties -/

/-- The merge test on world positions: `cv::norm(a - b) < mergePointDistance`. -/
def near (ext : externals) (settings_ : point_processor_settings) (a b : tracked_point) : Prop :=
  ext.norm (a.worldPosition.sub b.worldPosition) < settings_.mergePointDistance

instance (ext : externals) (settings_ : point_processor_settings) (a b : tracked_point) :
    Decidable (near ext settings_ a b) := by
  unfold near; infer_instance

/-- The point that `tracked` becomes when `otherTracked` is merged into it
(source lines 509-514). -/
def absorb (tracked otherTracked : tracked_point) : tracked_point :=
  let t1 : tracked_point :=
    { tracked with
      inactiveFrameCount := min tracked.inactiveFrameCount otherTracked.inactiveFrameCount }
  if otherTracked.pointType = tracked_point_type.active_point ∧
      t1.pointType ≠ tracked_point_type.active_point then
    { t1 with
      trackingId := otherTracked.trackingId
      pointType := tracked_point_type.active_point }
  else t1

/-- The tracking ids of the non-dead points of a list are pairwise distinct. -/
def live_ids_distinct (l : List tracked_point) : Prop :=
  l.Pairwise (fun a b => a.trackingStatus ≠ tracking_status.dead →
    b.trackingStatus ≠ tracking_status.dead → a.trackingId ≠ b.trackingId)

/-- Index form of `live_ids_distinct`. -/
def distinct_live (l : List tracked_point) : Prop :=
  ∀ (i j : Nat) (a b : tracked_point), i ≠ j → l[i]? = some a → l[j]? = some b →
    a.trackingStatus ≠ tracking_status.dead → b.trackingStatus ≠ tracking_status.dead →
    a.trackingId ≠ b.trackingId

/-- The points at indices `i` and `j` are not both alive and within merge distance
(in the order tracked = `i`, other = `j`). -/
def separated (ext : externals) (settings_ : point_processor_settings)
    (l : List tracked_point) (i j : Nat) : Prop :=
  ∀ a b : tracked_point, l[i]? = some a → l[j]? = some b →
    a.trackingStatus = tracking_status.dead ∨ b.trackingStatus = tracking_status.dead ∨
      ¬ near ext settings_ a b

/-- The list `l2` has the points of `l1` at the same indices with the same world
positions, and every point dead in `l1` is dead in `l2`. -/
def evolves (l1 l2 : List tracked_point) : Prop :=
  l2.length = l1.length ∧
  ∀ (k : Nat) (a : tracked_point), l1[k]? = some a →
    ∃ a2 : tracked_point, l2[k]? = some a2 ∧ a2.worldPosition = a.worldPosition ∧
    (a.trackingStatus = tracking_status.dead → a2.trackingStatus = tracking_status.dead)

/-- The inner-loop body applied along a list of index pairs. -/
def merge_pairs (ext : externals) (settings_ : point_processor_settings)
    (l : List tracked_point) (ps : List (Nat × Nat)) : List tracked_point :=
  ps.foldl (fun l p => merge_step ext settings_ l p.1 p.2) l

/-- The index pairs visited by the two nested loops over a list of length `n`. -/
def all_pairs (n : Nat) : List (Nat × Nat) :=
  (List.range n).flatMap (fun i => (List.range n).map (fun j => (i, j)))

/-! ## The merge with a log of the fired pairs -/

/-- The condition of the inner loop of `remove_duplicate_points` (source lines 505-507)
for the list positions `i` and `j`, as a Boolean. -/
def merge_fires (ext : externals) (settings_ : point_processor_settings)
    (l : List tracked_point) (i j : Nat) : Bool :=
  match l[i]?, l[j]? with
  | some tracked, some otherTracked =>
    decide (tracked.trackingId ≠ otherTracked.trackingId ∧
      (tracked.trackingStatus ≠ tracking_status.dead ∧
        otherTracked.trackingStatus ≠ tracking_status.dead) ∧
      ext.norm (tracked.worldPosition.sub otherTracked.worldPosition)
        < settings_.mergePointDistance)
  | _, _ => false

/-- One step of the logged merge: the loop body at the pair `x`, and the pair appended
to the log when the loop condition held. -/
def merge_run_step (ext : externals) (settings_ : point_processor_settings)
    (st : List tracked_point × List (Nat × Nat)) (x : Nat × Nat) :
    List tracked_point × List (Nat × Nat) :=
  (merge_step ext settings_ st.1 x.1 x.2,
    if merge_fires ext settings_ st.1 x.1 x.2 = true then st.2 ++ [x] else st.2)

/-- The loop body along a list of index pairs together with the log of the pairs
`(i, j)` at which the point at `j` was merged into the point at `i`. -/
def merge_run (ext : externals) (settings_ : point_processor_settings)
    (l : List tracked_point) (ps : List (Nat × Nat)) :
    List tracked_point × List (Nat × Nat) :=
  ps.foldl (merge_run_step ext settings_) (l, [])

/-- The list positions of the points merged into the point at position `i` during
`remove_duplicate_points`, in merge order. -/
def absorbed_by (ext : externals) (settings_ : point_processor_settings)
    (l : List tracked_point) (i : Nat) : List Nat :=
  ((merge_run ext settings_ l (all_pairs l.length)).2.filter (fun x => decide (x.1 = i))).map
    Prod.snd

/-- The minimum of `m` and the inactivity count of the point at position `j` of `l`. -/
def min_with_count (l : List tracked_point) (m : Nat) (j : Nat) : Nat :=
  match l[j]? with
  | some b => min m b.inactiveFrameCount
  | none => m

/-- The order in which the nested loops visit the index pairs. -/
def pair_before (x y : Nat × Nat) : Prop :=
  x.1 < y.1 ∨ (x.1 = y.1 ∧ x.2 < y.2)

/-- The facts that hold for the original list `l0`, the current list `l1` and the log
while the loop body runs along the visiting order: every logged pair `(i, j)` has
`i < j`; the inactivity count at a position is the minimum of its original count and
the original counts of the positions logged as merged into it; a position that never
absorbed has its original point type; the absorbing positions are alive and the
absorbed ones dead; and every position that died has a logged absorber within merge
distance that is active if the dead point was. -/
def merge_inv (ext : externals) (settings_ : point_processor_settings)
    (l0 l1 : List tracked_point) (log : List (Nat × Nat)) : Prop :=
  (∀ x ∈ log, x.1 < x.2) ∧
  (∀ (k : Nat) (a0 a1 : tracked_point), l0[k]? = some a0 → l1[k]? = some a1 →
    a1.inactiveFrameCount =
      ((log.filter (fun x => decide (x.1 = k))).map Prod.snd).foldl (min_with_count l0)
        a0.inactiveFrameCount) ∧
  (∀ (k : Nat) (a0 a1 : tracked_point), l0[k]? = some a0 → l1[k]? = some a1 →
    (∀ x ∈ log, x.1 ≠ k) → a1.pointType = a0.pointType) ∧
  (∀ x ∈ log, ∀ a : tracked_point, l1[x.1]? = some a →
    a.trackingStatus ≠ tracking_status.dead) ∧
  (∀ x ∈ log, ∀ b : tracked_point, l1[x.2]? = some b →
    b.trackingStatus = tracking_status.dead) ∧
  (∀ (j : Nat) (b0 b1 : tracked_point), l0[j]? = some b0 →
    b0.trackingStatus ≠ tracking_status.dead → l1[j]? = some b1 →
    b1.trackingStatus = tracking_status.dead →
    ∃ (i : Nat) (a : tracked_point), (i, j) ∈ log ∧ l1[i]? = some a ∧
      near ext settings_ a b1 ∧
      (b0.pointType = tracked_point_type.active_point →
        a.pointType = tracked_point_type.active_point))

/-! ## Stream reader listeners (`astra_stream_reader.hpp`) -/

/-- The members of `stream_reader::reader_ref` used by the listener functions.  A
listener is identified by a number: `std::find` compares the referenced listeners. -/
structure reader_ref where
  isNotifying_ : Bool
  callbackRegistered_ : Bool
  listeners_ : List Nat
  addedListeners_ : List Nat
  removedListeners_ : List Nat
deriving DecidableEq, Repr

/-- The function `reader_ref::ensure_callback_added`. -/
def reader_ref.ensure_callback_added (self : reader_ref) : reader_ref :=
  if !self.callbackRegistered_ then { self with callbackRegistered_ := true } else self

/-- The function `reader_ref::ensure_callback_removed`. -/
def reader_ref.ensure_callback_removed (self : reader_ref) : reader_ref :=
  if self.callbackRegistered_ then { self with callbackRegistered_ := false } else self

/-- The function `reader_ref::addListener`. -/
def reader_ref.addListener (self : reader_ref) (listener : Nat) : reader_ref :=
  let s1 := self.ensure_callback_added
  if listener ∈ s1.listeners_ then s1
  else if s1.isNotifying_ then
    { s1 with addedListeners_ := s1.addedListeners_ ++ [listener] }
  else { s1 with listeners_ := s1.listeners_ ++ [listener] }

/-- The function `reader_ref::removeListener`; `listeners_.erase(it)` removes the
occurrence found by `std::find`, the first one. -/
def reader_ref.removeListener (self : reader_ref) (listener : Nat) : reader_ref :=
  if listener ∉ self.listeners_ then self
  else
    let s1 : reader_ref :=
      if self.isNotifying_ then
        { self with removedListeners_ := self.removedListeners_ ++ [listener] }
      else { self with listeners_ := self.listeners_.erase listener }
    if s1.listeners_.length = 0 then s1.ensure_callback_removed else s1

/-- A call that a listener makes on the reader from inside `on_frame_ready`. -/
inductive listener_call where
  | addListener (listener : Nat)
  | removeListener (listener : Nat)
deriving DecidableEq, Repr

/-- The calls of one `on_frame_ready` applied to the reader in order. -/
def reader_ref.run_calls (self : reader_ref) (calls : List listener_call) : reader_ref :=
  calls.foldl
    (fun s c =>
      match c with
      | listener_call.addListener l => s.addListener l
      | listener_call.removeListener l => s.removeListener l)
    self

/-- The function `reader_ref::notify_listeners`, given the calls each listener makes in
`on_frame_ready`: the reader afterwards and the listeners whose `on_frame_ready` was
called, in call order.  `std::move` copies the reference wrappers of `addedListeners_`
to the back of `listeners_`; `addedListeners_` itself keeps its elements. -/
def reader_ref.notify_listeners (self : reader_ref) (on_frame_ready : Nat → List listener_call) :
    reader_ref × List Nat :=
  let s1 : reader_ref :=
    if self.removedListeners_.length > 0 then
      { self with
        listeners_ := self.removedListeners_.foldl (fun ls l => ls.erase l) self.listeners_
        removedListeners_ := [] }
    else self
  let s2 : reader_ref := { s1 with listeners_ := s1.listeners_ ++ s1.addedListeners_ }
  if s2.listeners_.length = 0 then (s2.ensure_callback_removed, [])
  else
    let s3 : reader_ref := { s2 with isNotifying_ := true }
    let s4 := s3.listeners_.foldl (fun s l => s.run_calls (on_frame_ready l)) s3
    ({ s4 with isNotifying_ := false }, s3.listeners_)

/-- A freshly constructed `reader_ref`. -/
def new_reader_ref : reader_ref :=
  { isNotifying_ := false, callbackRegistered_ := false, listeners_ := [],
    addedListeners_ := [], removedListeners_ := [] }

/-- A listener 0 that registers listener 1 from inside its `on_frame_ready`; listener 1
makes no calls. -/
def registering_listener (listener : Nat) : List listener_call :=
  if listener = 0 then [listener_call.addListener 1] else []

/-! ## Concrete values used to instantiate the theorems -/

/-- A sample point: a candidate that is tracking, at pixel (0, 0) and world position
(0, 0, 1), with all counters 0. -/
def sample_point : tracked_point :=
  { position := ⟨0, 0⟩
    worldPosition := ⟨0, 0, 1⟩
    worldDeltaPosition := ⟨0, 0, 0⟩
    fullSizePosition := ⟨0, 0⟩
    fullSizeWorldPosition := ⟨0, 0, 1⟩
    fullSizeWorldDeltaPosition := ⟨0, 0, 0⟩
    steadyWorldPosition := ⟨0, 0, 1⟩
    trackingId := 0
    inactiveFrameCount := 0
    failedTestCount := 0
    probationFrameCount := 0
    referenceAreaSqrt := 0
    isInProbation := false
    pointType := tracked_point_type.candidate_point
    trackingStatus := tracking_status.tracking }

/-- Sample settings. -/
def sample_settings : point_processor_settings :=
  { segmentationSettings := ⟨100⟩
    maxhandpointUpdatesPerFrame := 2
    secondChanceMinDistance := 1
    pointSmoothingFactor := 3 / 4
    pointSmoothingDeadZone := 10
    pointDeadBandSmoothingFactor := 1 / 4
    steadyDeadBandRadius := 5
    maxFailedTestsInProbationActivePoints := 2
    maxFailedTestsInProbation := 3
    probationFrameCount := 2
    mergePointDistance := 10
    maxInactiveFramesForCandidatePoints := 5
    maxInactiveFramesForLostPoints := 10
    maxInactiveFramesForActivePoints := 20
    maxMatchDistDefault := 10
    maxMatchDistLostActive := 20 }

/-- The sample point as an active point. -/
def active_sample_point : tracked_point :=
  { sample_point with pointType := tracked_point_type.active_point }

/-- The sample settings with a probation window of a single frame. -/
def short_window_settings : point_processor_settings :=
  { sample_settings with probationFrameCount := 0 }

/-- The active sample point, lost while moving along the x axis. -/
def lost_sample_point : tracked_point :=
  { active_sample_point with
    trackingStatus := tracking_status.lost
    worldDeltaPosition := ⟨3, 0, 0⟩ }

/-- An active point with id 1 at the world position of `sample_point`. -/
def second_sample_point : tracked_point :=
  { active_sample_point with trackingId := 1, inactiveFrameCount := 3 }

/-- A candidate with id 2, 50 units away from `sample_point` along the x axis. -/
def far_sample_point : tracked_point :=
  { sample_point with trackingId := 2, worldPosition := ⟨50, 0, 1⟩ }

/-- A processor holding the three sample points, with next id 3 and no trajectories. -/
def sample_processor : point_processor :=
  { trackedPoints_ := [sample_point, second_sample_point, far_sample_point]
    nextTrackingId_ := 3
    trajectories_ := [] }

/-- The survivor of merging `second_sample_point` into `sample_point`. -/
def merged_sample_point : tracked_point :=
  { sample_point with trackingId := 1, pointType := tracked_point_type.active_point }

/-- A candidate with id 3 further away on the x axis. -/
def third_sample_point : tracked_point :=
  { far_sample_point with trackingId := 3, worldPosition := ⟨90, 0, 1⟩ }

/-- The sample settings with a cap of one candidate update per frame. -/
def one_update_settings : point_processor_settings :=
  { sample_settings with maxhandpointUpdatesPerFrame := 1 }

/-- A processor holding the candidate `sample_point` (id 0) before the active
`second_sample_point` (id 1), with no trajectory record yet. -/
def candidate_first_processor : point_processor :=
  { trackedPoints_ := [sample_point, second_sample_point]
    nextTrackingId_ := 2
    trajectories_ := [] }

/-- A dead point with id 4. -/
def dead_sample_point : tracked_point :=
  { sample_point with trackingId := 4, trackingStatus := tracking_status.dead }

/-- A processor holding the dead sample point in front of the three live ones. -/
def processor_with_dead_point : point_processor :=
  { trackedPoints_ := [dead_sample_point, sample_point, second_sample_point, far_sample_point]
    nextTrackingId_ := 5
    trajectories_ := [] }

/-- A processor holding the far candidate, then the lost active sample point, then
the candidate sample point. -/
def processor_with_lost_point : point_processor :=
  { trackedPoints_ := [far_sample_point, { lost_sample_point with trackingId := 1 }, sample_point]
    nextTrackingId_ := 3
    trajectories_ := [] }

/-- The sample point in probation with one failed test. -/
def probation_sample_point : tracked_point :=
  { sample_point with isInProbation := true, failedTestCount := 1, probationFrameCount := 1 }

/-- An active point whose status is `not_tracking`, inactive for 7 frames. -/
def idle_active_point : tracked_point :=
  { active_sample_point with
    trackingStatus := tracking_status.not_tracking
    inactiveFrameCount := 7 }

/-- A processor holding two active points in front of one candidate. -/
def actives_first_processor : point_processor :=
  { trackedPoints_ := [active_sample_point, second_sample_point, far_sample_point]
    nextTrackingId_ := 3
    trajectories_ := [] }

/-- A processor holding the sample point (id 0) and a trajectory record of one sample
stored under id 0. -/
def processor_with_history : point_processor :=
  { trackedPoints_ := [sample_point]
    nextTrackingId_ := 1
    trajectories_ := [(0, { trackingId := 0, samples := [sample_point] })] }

/-- A sample frame: a 4 by 4 buffer with depth 1 and area-sqrt 1 everywhere. -/
def sample_matrices : tracking_matrices :=
  { cols := 4, rows := 4, fullSizeCols := 4, depth := fun _ => 1, areaSqrt := fun _ => 1 }

/-- A frame of 16777219 columns, a width that is not a `float` value. -/
def wide_matrices : tracking_matrices :=
  { sample_matrices with cols := 16777219 }

/-- The lost sample point far out on the x axis, moving along it. -/
def far_lost_point : tracked_point :=
  { lost_sample_point with worldPosition := ⟨16777120, 0, 1⟩ }

/-- The sum of the absolute coordinates.  On a vector along one axis it is the
Euclidean length computed by `cv::norm`; the sample values only take norms of such
vectors. -/
def axis_norm (v : cv.Point3f) : ℚ := |v.x| + |v.y| + |v.z|

/-- Sample collaborators: seed growth always fails, only `INVALID_POINT` is out of
range, the pixel `(x, y)` at depth `d` maps to the world point `(x, y, d)`, and the
constructor stores its three arguments and leaves the point out of probation. -/
def sample_externals : externals :=
  { INVALID_POINT := ⟨-1, -1⟩
    track_point_from_seed := fun _ _ => ⟨-1, -1⟩
    test_point_in_range := fun _ t => decide (t ≠ (⟨-1, -1⟩ : cv.Point))
    norm := axis_norm
    convert_depth_to_world := fun _ x y d => ⟨x, y, d⟩
    convert_world_to_depth := fun _ w => w
    cv_convert_world_to_depth := fun _ w => w
    get_resize_factor := fun _ => 1
    is_wave_gesture := fun _ => false
    new_tracked_point := fun t w i =>
      { sample_point with position := t, worldPosition := w, steadyWorldPosition := w,
                          trackingId := i, trackingStatus := tracking_status.not_tracking } }

/-- Sample collaborators whose seed growth fails from the pixel (0, 0) and otherwise
returns the seed itself. -/
def recovering_externals : externals :=
  { sample_externals with
    track_point_from_seed := fun _ d =>
      if d.seedPosition = (⟨0, 0⟩ : cv.Point) then ⟨-1, -1⟩ else d.seedPosition }

section validation

variable (ext : externals) (settings_ : point_processor_settings) (matrices : tracking_matrices)

@[simp] theorem update_tracked_point_data_isInProbation (p : tracked_point) (t : cv.Point) :
    (update_tracked_point_data ext settings_ matrices p t).isInProbation = p.isInProbation := by
  unfold update_tracked_point_data; dsimp only; split_ifs <;> rfl

@[simp] theorem update_tracked_point_data_probationFrameCount (p : tracked_point) (t : cv.Point) :
    (update_tracked_point_data ext settings_ matrices p t).probationFrameCount
      = p.probationFrameCount := by
  unfold update_tracked_point_data; dsimp only; split_ifs <;> rfl

@[simp] theorem update_tracked_point_data_failedTestCount (p : tracked_point) (t : cv.Point) :
    (update_tracked_point_data ext settings_ matrices p t).failedTestCount
      = p.failedTestCount := by
  unfold update_tracked_point_data; dsimp only; split_ifs <;> rfl

@[simp] theorem update_tracked_point_data_trackingStatus (p : tracked_point) (t : cv.Point) :
    (update_tracked_point_data ext settings_ matrices p t).trackingStatus
      = p.trackingStatus := by
  unfold update_tracked_point_data; dsimp only; split_ifs <;> rfl

@[simp] theorem update_tracked_point_data_pointType (p : tracked_point) (t : cv.Point) :
    (update_tracked_point_data ext settings_ matrices p t).pointType = p.pointType := by
  unfold update_tracked_point_data; dsimp only; split_ifs <;> rfl

@[simp] theorem update_tracked_point_data_trackingId (p : tracked_point) (t : cv.Point) :
    (update_tracked_point_data ext settings_ matrices p t).trackingId = p.trackingId := by
  unfold update_tracked_point_data; dsimp only; split_ifs <;> rfl

theorem probation_check_not_in (p : tracked_point) (h : p.isInProbation = false) :
    probation_check settings_ p = p := by
  unfold probation_check; simp [h]

theorem probation_check_failed (p : tracked_point) (h : p.isInProbation = true)
    (hf : probation_failed settings_ p) :
    probation_check settings_ p =
      { p with trackingStatus := tracking_status.lost
               probationFrameCount := p.probationFrameCount + 1
               isInProbation := false
               failedTestCount := 0 } := by
  unfold probation_check end_probation
  rw [if_pos h]
  rcases hf with hf | hf
  · simp [hf.1, hf.2]
  · by_cases ha : p.pointType = tracked_point_type.active_point ∧
        (p.failedTestCount : Int) ≥ settings_.maxFailedTestsInProbationActivePoints
    · simp [ha.1, ha.2]
    · rw [if_neg ha]; simp [hf.1, hf.2]

theorem probation_check_expired (p : tracked_point) (h : p.isInProbation = true)
    (hf : ¬ probation_failed settings_ p)
    (hc : (p.probationFrameCount : Int) + 1 > settings_.probationFrameCount) :
    probation_check settings_ p =
      { p with probationFrameCount := p.probationFrameCount + 1
               isInProbation := false
               failedTestCount := 0 } := by
  unfold probation_failed at hf
  push_neg at hf
  unfold probation_check end_probation
  rw [if_pos h]
  have h1 : ¬ (p.pointType = tracked_point_type.active_point ∧
        (p.failedTestCount : Int) ≥ settings_.maxFailedTestsInProbationActivePoints) := by
    rintro ⟨a, b⟩; have := hf.1 a; omega
  have h2 : ¬ (p.pointType = tracked_point_type.candidate_point ∧
        (p.failedTestCount : Int) ≥ settings_.maxFailedTestsInProbation) := by
    rintro ⟨a, b⟩; have := hf.2 a; omega
  rw [if_neg h1, if_neg h2]
  simp only [Nat.cast_add, Nat.cast_one]
  rw [if_pos (Or.inl hc)]

theorem probation_check_continue (p : tracked_point) (h : p.isInProbation = true)
    (hf : ¬ probation_failed settings_ p)
    (hc : (p.probationFrameCount : Int) + 1 ≤ settings_.probationFrameCount) :
    probation_check settings_ p =
      { p with probationFrameCount := p.probationFrameCount + 1 } := by
  unfold probation_failed at hf
  push_neg at hf
  unfold probation_check end_probation
  rw [if_pos h]
  have h1 : ¬ (p.pointType = tracked_point_type.active_point ∧
        (p.failedTestCount : Int) ≥ settings_.maxFailedTestsInProbationActivePoints) := by
    rintro ⟨a, b⟩; have := hf.1 a; omega
  have h2 : ¬ (p.pointType = tracked_point_type.candidate_point ∧
        (p.failedTestCount : Int) ≥ settings_.maxFailedTestsInProbation) := by
    rintro ⟨a, b⟩; have := hf.2 a; omega
  rw [if_neg h1, if_neg h2]
  simp only [Nat.cast_add, Nat.cast_one]
  rw [if_neg]
  simp only [Bool.false_eq_true, or_false, not_lt]
  omega

/-- The probation block on a point in probation: the status stays non-dead, the frame
count grows by one, and probation continues only within the configured window. -/
theorem probation_check_in (p : tracked_point) (h : p.isInProbation = true)
    (hd : p.trackingStatus ≠ tracking_status.dead) :
    (probation_check settings_ p).trackingStatus ≠ tracking_status.dead ∧
    (probation_check settings_ p).probationFrameCount = p.probationFrameCount + 1 ∧
    ((probation_check settings_ p).isInProbation = true →
      (p.probationFrameCount : Int) + 1 ≤ settings_.probationFrameCount) := by
  by_cases hf : probation_failed settings_ p
  · rw [probation_check_failed settings_ p h hf]; simp
  · by_cases hc : (p.probationFrameCount : Int) + 1 ≤ settings_.probationFrameCount
    · rw [probation_check_continue settings_ p h hf hc]; simp [hd, hc]
    · rw [probation_check_expired settings_ p h hf (by omega)]; simp [hd]

theorem validate_eq (p : tracked_point) (t : cv.Point)
    (hd : p.trackingStatus ≠ tracking_status.dead) :
    validate_and_update_tracked_point ext settings_ matrices p t =
      if ext.test_point_in_range matrices t = true then
        update_tracked_point_data ext settings_ matrices
          (probation_check settings_ (after_range_test true p)) t
      else probation_check settings_ (after_range_test false p) := by
  unfold validate_and_update_tracked_point after_range_test
  rw [if_neg hd]
  by_cases hv : ext.test_point_in_range matrices t = true
  · simp [hv]
  · simp [hv]

theorem after_range_test_in_probation (v : Bool) (p : tracked_point)
    (hd : p.trackingStatus ≠ tracking_status.dead) (hp : p.isInProbation = true) :
    (after_range_test v p).isInProbation = true ∧
    (after_range_test v p).trackingStatus ≠ tracking_status.dead ∧
    (after_range_test v p).probationFrameCount = p.probationFrameCount := by
  unfold after_range_test start_probation
  cases v <;> simp [hp, hd]
  split_ifs <;> simp

/-- One validation of a non-dead point that is in probation: the point stays non-dead,
its probation frame count grows by one, and it can only still be in probation when
the new count does not exceed the setting. -/
theorem validate_in_probation_step (p : tracked_point) (t : cv.Point)
    (hd : p.trackingStatus ≠ tracking_status.dead) (hp : p.isInProbation = true) :
    (validate_and_update_tracked_point ext settings_ matrices p t).trackingStatus
        ≠ tracking_status.dead ∧
    (validate_and_update_tracked_point ext settings_ matrices p t).probationFrameCount
        = p.probationFrameCount + 1 ∧
    ((validate_and_update_tracked_point ext settings_ matrices p t).isInProbation = true →
        ((p.probationFrameCount : Int) + 1 ≤ settings_.probationFrameCount)) := by
  rw [validate_eq ext settings_ matrices p t hd]
  by_cases hv : ext.test_point_in_range matrices t = true
  · obtain ⟨a, b, c⟩ := after_range_test_in_probation true p hd hp
    have := probation_check_in settings_ _ a b
    rw [c] at this
    simpa [hv] using this
  · obtain ⟨a, b, c⟩ := after_range_test_in_probation false p hd hp
    have := probation_check_in settings_ _ a b
    rw [c] at this
    simpa [hv] using this

end validation

/-- From a non-dead point in probation, fewer than `n + 1` further frames remaining in
the window force an exit from probation within the first `n + 1` validations. -/
theorem validate_run_exits (ext : externals) (settings_ : point_processor_settings) :
    ∀ (n : Nat) (calls : List (tracking_matrices × cv.Point)) (q : tracked_point),
      q.trackingStatus ≠ tracking_status.dead → q.isInProbation = true →
      settings_.probationFrameCount < (q.probationFrameCount : Int) + (n + 1) →
      n + 1 ≤ calls.length →
      ∃ k, 1 ≤ k ∧ k ≤ n + 1 ∧
        (validate_run ext settings_ q (calls.take k)).isInProbation = false := by
  intro n
  induction n with
  | zero =>
    intro calls q hd hp hlt hlen
    match calls, hlen with
    | c :: rest, _ =>
      refine ⟨1, le_refl _, le_refl _, ?_⟩
      obtain ⟨_, _, h3⟩ := validate_in_probation_step ext settings_ c.1 q c.2 hd hp
      simp only [validate_run, List.take_succ_cons, List.take_zero, List.foldl_cons,
        List.foldl_nil]
      by_contra hne
      have := h3 (by simpa using hne)
      simp at hlt
      omega
  | succ n ih =>
    intro calls q hd hp hlt hlen
    match calls, hlen with
    | c :: rest, hlen =>
      obtain ⟨h1, h2, h3⟩ := validate_in_probation_step ext settings_ c.1 q c.2 hd hp
      by_cases hout : (validate_and_update_tracked_point ext settings_ c.1 q c.2).isInProbation
          = true
      · obtain ⟨k, hk1, hk2, hk3⟩ := ih rest _ h1 hout
          (by rw [h2]; push_cast at hlt ⊢; omega)
          (by simp at hlen; omega)
        refine ⟨k + 1, by omega, by omega, ?_⟩
        simpa [validate_run] using hk3
      · refine ⟨1, le_refl _, by omega, ?_⟩
        simpa [validate_run] using hout

/-- C2: for a setting `probationFrameCount >= 0`, one validation of a non-dead point that
is in probation with its frame count within the setting leaves it either still in
probation with the count within the setting, or out of probation with the count at
most the setting plus one; and a point put into probation by `start_probation` is out
of probation after at most setting + 1 consecutive validations. -/
theorem C2_probation_duration_bounded (ext : externals) (settings_ : point_processor_settings)
    (matrices : tracking_matrices) (p : tracked_point) (t : cv.Point)
    (q : tracked_point) (calls : List (tracking_matrices × cv.Point))
    (h0 : 0 ≤ settings_.probationFrameCount)
    (hd : p.trackingStatus ≠ tracking_status.dead)
    (hp : p.isInProbation = true)
    (hc : (p.probationFrameCount : Int) ≤ settings_.probationFrameCount)
    (hq : q.trackingStatus ≠ tracking_status.dead)
    (hlen : (calls.length : Int) = settings_.probationFrameCount + 1) :
    (((validate_and_update_tracked_point ext settings_ matrices p t).isInProbation = true ∧
        ((validate_and_update_tracked_point ext settings_ matrices p t).probationFrameCount : Int)
          ≤ settings_.probationFrameCount) ∨
      ((validate_and_update_tracked_point ext settings_ matrices p t).isInProbation = false ∧
        ((validate_and_update_tracked_point ext settings_ matrices p t).probationFrameCount : Int)
          ≤ settings_.probationFrameCount + 1)) ∧
    (∃ k : Nat, 1 ≤ k ∧ (k : Int) ≤ settings_.probationFrameCount + 1 ∧
      (validate_run ext settings_ (start_probation q) (calls.take k)).isInProbation = false) := by
  constructor
  · obtain ⟨_, h2, h3⟩ := validate_in_probation_step ext settings_ matrices p t hd hp
    by_cases hin : (validate_and_update_tracked_point ext settings_ matrices p t).isInProbation
        = true
    · left; refine ⟨hin, ?_⟩; rw [h2]; have := h3 hin; push_cast; omega
    · right; refine ⟨by simpa using hin, ?_⟩; rw [h2]; push_cast; omega
  · obtain ⟨n, hn⟩ : ∃ n : Nat, calls.length = n + 1 := by
      cases hcl : calls.length with
      | zero => rw [hcl] at hlen; simp at hlen; omega
      | succ n => exact ⟨n, rfl⟩
    have hsd : (start_probation q).trackingStatus ≠ tracking_status.dead := by
      unfold start_probation; split_ifs <;> simpa using hq
    have hsp : (start_probation q).isInProbation = true := by
      unfold start_probation; split_ifs with h <;> simp_all
    obtain ⟨k, hk1, hk2, hk3⟩ := validate_run_exits ext settings_ n calls _ hsd hsp
      (by rw [hn] at hlen; push_cast at hlen; omega) (by omega)
    exact ⟨k, hk1, by rw [hn] at hlen; push_cast at hlen; omega, hk3⟩

/-- Witness of C2 on the sample point put into probation and three failing validations. -/
theorem C2_probation_duration_bounded_witness :
    (((validate_and_update_tracked_point sample_externals sample_settings sample_matrices
          (start_probation sample_point) ⟨-1, -1⟩).isInProbation = true ∧
        ((validate_and_update_tracked_point sample_externals sample_settings sample_matrices
          (start_probation sample_point) ⟨-1, -1⟩).probationFrameCount : Int)
          ≤ sample_settings.probationFrameCount) ∨
      ((validate_and_update_tracked_point sample_externals sample_settings sample_matrices
          (start_probation sample_point) ⟨-1, -1⟩).isInProbation = false ∧
        ((validate_and_update_tracked_point sample_externals sample_settings sample_matrices
          (start_probation sample_point) ⟨-1, -1⟩).probationFrameCount : Int)
          ≤ sample_settings.probationFrameCount + 1)) ∧
    (∃ k : Nat, 1 ≤ k ∧ (k : Int) ≤ sample_settings.probationFrameCount + 1 ∧
      (validate_run sample_externals sample_settings (start_probation sample_point)
        ((List.replicate 3 (sample_matrices, (⟨-1, -1⟩ : cv.Point))).take k)).isInProbation
        = false) :=
  C2_probation_duration_bounded sample_externals sample_settings sample_matrices
    (start_probation sample_point) ⟨-1, -1⟩ sample_point
    (List.replicate 3 (sample_matrices, (⟨-1, -1⟩ : cv.Point)))
    (by decide) (by decide) (by decide) (by decide) (by decide) (by decide)

/-! ## Failing updates of an active point -/

/-- In a failing frame `update_tracked_point` is one failed validation of the point with
its inactivity counter incremented: the second-chance retry, if attempted, fails too. -/
theorem update_tracked_point_failing (ext : externals) (settings_ : point_processor_settings)
    (matrices : tracking_matrices) (p : tracked_point)
    (hfr : failing_frame ext matrices) (hd : p.trackingStatus ≠ tracking_status.dead) :
    update_tracked_point ext settings_ matrices p =
      probation_check settings_
        (after_range_test false { p with inactiveFrameCount := p.inactiveFrameCount + 1 }) := by
  obtain ⟨h1, h2⟩ := hfr
  have hv := validate_eq ext settings_ matrices
    { p with inactiveFrameCount := p.inactiveFrameCount + 1 } ext.INVALID_POINT hd
  rw [h2] at hv
  simp only [Bool.false_eq_true, if_false] at hv
  unfold update_tracked_point
  simp only [h1, ne_eq, not_true_eq_false, if_false, ite_self]
  exact hv

theorem after_range_test_false_fields (p : tracked_point) :
    (after_range_test false p).isInProbation = true ∧
    (after_range_test false p).pointType = p.pointType ∧
    (after_range_test false p).trackingStatus = p.trackingStatus ∧
    (after_range_test false p).failedTestCount
      = (if p.isInProbation = true then p.failedTestCount else 0) + 1 ∧
    (after_range_test false p).probationFrameCount
      = (if p.isInProbation = true then p.probationFrameCount else 0) := by
  unfold after_range_test start_probation
  cases h : p.isInProbation <;> simp [h]

/-- One failing update advances `lost_progress` by one step. -/
theorem lost_progress_step (ext : externals) (settings_ : point_processor_settings)
    (matrices : tracking_matrices) (k : Nat) (p : tracked_point)
    (hfr : failing_frame ext matrices) (hg : lost_progress settings_ k p) :
    lost_progress settings_ (k + 1) (update_tracked_point ext settings_ matrices p) := by
  obtain ⟨hty, hd, hcase⟩ := hg
  rw [update_tracked_point_failing ext settings_ matrices p hfr hd]
  obtain ⟨qin, qty, qst, qf, qc⟩ :=
    after_range_test_false_fields { p with inactiveFrameCount := p.inactiveFrameCount + 1 }
  simp only at qty qst qf qc
  set q := after_range_test false { p with inactiveFrameCount := p.inactiveFrameCount + 1 }
    with hq
  have qact : q.pointType = tracked_point_type.active_point := by rw [qty, hty]
  by_cases hf : probation_failed settings_ q
  · rw [probation_check_failed settings_ q qin hf]
    exact ⟨qact, by simp, Or.inl rfl⟩
  · have hlt : (q.failedTestCount : Int) < settings_.maxFailedTestsInProbationActivePoints := by
      by_contra hge
      exact hf (Or.inl ⟨qact, by omega⟩)
    by_cases hc : (q.probationFrameCount : Int) + 1 ≤ settings_.probationFrameCount
    · rw [probation_check_continue settings_ q qin hf hc]
      refine ⟨qact, by simpa [qst] using hd, ?_⟩
      rcases hcase with hl | ⟨hin, hk, hw⟩ | ⟨hin, hk, hw, _⟩
      · left; simp [qst, hl]
      · right; right
        simp only [hin, Bool.false_eq_true, if_false] at qf qc
        refine ⟨qin, ?_, ?_, Or.inr hlt⟩
        · simp only [qf]; omega
        · simp only [qf, qc]; push_cast; omega
      · right; right
        simp only [hin, if_true] at qf qc
        refine ⟨qin, ?_, ?_, Or.inr hlt⟩
        · simp only [qf]; omega
        · simp only [qf, qc]; push_cast; omega
    · rw [probation_check_expired settings_ q qin hf (by omega)]
      refine ⟨qact, by simpa [qst] using hd, ?_⟩
      rcases hcase with hl | ⟨hin, hk, hw⟩ | ⟨hin, hk, hw, _⟩
      · left; simp [qst, hl]
      · exfalso
        simp only [hin, Bool.false_eq_true, if_false] at qf qc
        rw [qf] at hlt; rw [qc] at hc
        push_cast at hlt hc; omega
      · exfalso
        simp only [hin, if_true] at qf qc
        rw [qf] at hlt; rw [qc] at hc
        push_cast at hlt hc; omega

/-- A run of failing updates advances `lost_progress` by the number of frames. -/
theorem lost_progress_run (ext : externals) (settings_ : point_processor_settings) :
    ∀ (frames : List tracking_matrices) (k : Nat) (p : tracked_point),
      (∀ m ∈ frames, failing_frame ext m) → lost_progress settings_ k p →
      lost_progress settings_ (k + frames.length) (update_run ext settings_ p frames) := by
  intro frames
  induction frames with
  | nil => intro k p _ hg; simpa [update_run] using hg
  | cons m rest ih =>
    intro k p hfr hg
    have h1 := lost_progress_step ext settings_ m k p (hfr m (List.mem_cons_self _ _)) hg
    have h2 := ih (k + 1) _ (fun m' hm => hfr m' (List.mem_cons_of_mem _ hm)) h1
    have : k + (m :: rest).length = k + 1 + rest.length := by simp; omega
    rw [this]
    simpa [update_run] using h2

/-- C1 fails as stated: with `N = 2` and a probation window of one frame
(`probationFrameCount = 0`), the active sample point (tracking, not in probation) is
still `tracking` after 2 consecutive failing updates, because each failed validation
re-enters probation with the failed-test count reset and leaves it in the same call. -/
theorem C1_counterexample :
    short_window_settings.maxFailedTestsInProbationActivePoints = 2 ∧
    active_sample_point.pointType = tracked_point_type.active_point ∧
    active_sample_point.trackingStatus = tracking_status.tracking ∧
    sample_externals.track_point_from_seed = (fun _ _ => sample_externals.INVALID_POINT) ∧
    sample_externals.test_point_in_range sample_matrices sample_externals.INVALID_POINT = false ∧
    (update_run sample_externals short_window_settings active_sample_point
        [sample_matrices, sample_matrices]).trackingStatus = tracking_status.tracking := by
  refine ⟨rfl, rfl, rfl, rfl, by decide, ?_⟩
  decide

/-- C1 (amended): with `N = maxFailedTestsInProbationActivePoints >= 1`, an active point
that is tracking and whose probation window is long enough (`c + N <= probationFrameCount
+ 1`, where `c` is its probation frame count if it is in probation and 0 otherwise) is
lost after `N` consecutive `update_tracked_point` calls in failing frames. -/
theorem C1_lost_after_consecutive_failures (ext : externals)
    (settings_ : point_processor_settings) (p : tracked_point)
    (frames : List tracking_matrices)
    (hN : 1 ≤ settings_.maxFailedTestsInProbationActivePoints)
    (hact : p.pointType = tracked_point_type.active_point)
    (htr : p.trackingStatus = tracking_status.tracking)
    (hwin : (if p.isInProbation = true then (p.probationFrameCount : Int) else 0)
        + settings_.maxFailedTestsInProbationActivePoints ≤ settings_.probationFrameCount + 1)
    (hlen : (frames.length : Int) = settings_.maxFailedTestsInProbationActivePoints)
    (hfr : ∀ m ∈ frames, failing_frame ext m) :
    (update_run ext settings_ p frames).trackingStatus = tracking_status.lost := by
  have hg : lost_progress settings_ 0 p := by
    refine ⟨hact, by simp [htr], ?_⟩
    cases hin : p.isInProbation
    · right; left
      simp only [hin, Bool.false_eq_true, if_false] at hwin
      exact ⟨rfl, rfl, by omega⟩
    · right; right
      simp only [hin, if_true] at hwin
      exact ⟨rfl, Nat.zero_le _, by omega, Or.inl rfl⟩
  have h := lost_progress_run ext settings_ frames 0 p hfr hg
  obtain ⟨_, _, hl | ⟨_, hk, _⟩ | ⟨_, hk, _, hk0 | hlt⟩⟩ := h
  · exact hl
  · omega
  · omega
  · omega

/-- Witness of C1 (amended): the active sample point is lost after two failing frames
under the sample settings (`N = 2`, `probationFrameCount = 2`). -/
theorem C1_lost_after_consecutive_failures_witness :
    (update_run sample_externals sample_settings active_sample_point
        [sample_matrices, sample_matrices]).trackingStatus = tracking_status.lost :=
  C1_lost_after_consecutive_failures sample_externals sample_settings active_sample_point
    [sample_matrices, sample_matrices] (by decide) rfl rfl (by decide) (by decide)
    (by
      intro m hm
      simp only [List.mem_cons, List.mem_singleton, List.not_mem_nil, or_false, or_self] at hm
      subst hm
      exact ⟨fun _ => rfl, by decide⟩)

/-! ## Second-chance recovery -/

/-- The probation block only writes the status and the three probation fields. -/
theorem probation_check_frame (settings_ : point_processor_settings) (p : tracked_point) :
    probation_check settings_ p =
      { p with trackingStatus := (probation_check settings_ p).trackingStatus
               probationFrameCount := (probation_check settings_ p).probationFrameCount
               isInProbation := (probation_check settings_ p).isInProbation
               failedTestCount := (probation_check settings_ p).failedTestCount } := by
  cases hin : p.isInProbation
  · rw [probation_check_not_in settings_ p hin]
  · by_cases hf : probation_failed settings_ p
    · rw [probation_check_failed settings_ p hin hf]
    · by_cases hc : (p.probationFrameCount : Int) + 1 ≤ settings_.probationFrameCount
      · rw [probation_check_continue settings_ p hin hf hc]
      · rw [probation_check_expired settings_ p hin hf (by omega)]

/-- The range-test block only writes the status and the three probation fields. -/
theorem after_range_test_frame (v : Bool) (p : tracked_point) :
    after_range_test v p =
      { p with trackingStatus := (after_range_test v p).trackingStatus
               probationFrameCount := (after_range_test v p).probationFrameCount
               isInProbation := (after_range_test v p).isInProbation
               failedTestCount := (after_range_test v p).failedTestCount } := by
  unfold after_range_test start_probation
  cases v <;> cases hin : p.isInProbation <;> simp [hin] <;> split_ifs <;> rfl

/-- A passed range test on an active non-dead point, followed by the probation block,
leaves the point tracking with no failed tests when the active threshold is positive. -/
theorem valid_active_result (settings_ : point_processor_settings) (p : tracked_point)
    (hN : 1 ≤ settings_.maxFailedTestsInProbationActivePoints)
    (hact : p.pointType = tracked_point_type.active_point) :
    (probation_check settings_ (after_range_test true p)).trackingStatus
        = tracking_status.tracking ∧
    (probation_check settings_ (after_range_test true p)).failedTestCount = 0 := by
  have hq : (after_range_test true p).trackingStatus = tracking_status.tracking ∧
      (after_range_test true p).failedTestCount = 0 ∧
      (after_range_test true p).pointType = tracked_point_type.active_point := by
    unfold after_range_test; simp [hact]
  obtain ⟨q1, q2, q3⟩ := hq
  set q := after_range_test true p
  have hf : ¬ probation_failed settings_ q := by
    rintro (⟨_, h⟩ | ⟨h, _⟩)
    · rw [q2] at h; simp at h; omega
    · rw [q3] at h; cases h
  cases hin : q.isInProbation
  · rw [probation_check_not_in settings_ q hin]; exact ⟨q1, q2⟩
  · by_cases hc : (q.probationFrameCount : Int) + 1 ≤ settings_.probationFrameCount
    · rw [probation_check_continue settings_ q hin hf hc]; exact ⟨q1, q2⟩
    · rw [probation_check_expired settings_ q hin hf (by omega)]; exact ⟨q1, rfl⟩

/-- C9: with `maxFailedTestsInProbationActivePoints >= 1`, for an active point that is
lost and whose Z-ignored world-delta magnitude exceeds `secondChanceMinDistance`: if in
one `update_tracked_point` call the first seed growth returns `INVALID_POINT` and the
second-chance retry returns a target that passes the in-range test, the point is
tracking after the call and its failed-test count is not greater than before. -/
theorem C9_second_chance_recovery (ext : externals) (settings_ : point_processor_settings)
    (matrices : tracking_matrices) (p : tracked_point)
    (hN : 1 ≤ settings_.maxFailedTestsInProbationActivePoints)
    (hact : p.pointType = tracked_point_type.active_point)
    (hlost : p.trackingStatus = tracking_status.lost)
    (hdist : ext.norm (xyDelta p) > settings_.secondChanceMinDistance)
    (hfirst : ext.track_point_from_seed matrices (update_tracking_data p) = ext.INVALID_POINT)
    (hretry : ext.test_point_in_range matrices
        (ext.track_point_from_seed matrices (recover_tracking_data ext settings_ matrices p))
        = true) :
    (update_tracked_point ext settings_ matrices p).trackingStatus = tracking_status.tracking ∧
    (update_tracked_point ext settings_ matrices p).failedTestCount ≤ p.failedTestCount := by
  have hd0 : tracked_point.trackingStatus
      { p with inactiveFrameCount := p.inactiveFrameCount + 1 } ≠ tracking_status.dead := by
    simp [hlost]
  have hact0 : tracked_point.pointType
      { p with inactiveFrameCount := p.inactiveFrameCount + 1 }
      = tracked_point_type.active_point := hact
  have hfirst0 : ext.track_point_from_seed matrices
      (update_tracking_data { p with inactiveFrameCount := p.inactiveFrameCount + 1 })
      = ext.INVALID_POINT := hfirst
  have hv := validate_eq ext settings_ matrices
    { p with inactiveFrameCount := p.inactiveFrameCount + 1 } ext.INVALID_POINT hd0
  unfold update_tracked_point
  simp only [hfirst0, true_and]
  cases hinv : ext.test_point_in_range matrices ext.INVALID_POINT
  · -- the first validation fails, the retry is attempted and validated
    rw [hinv] at hv
    simp only [Bool.false_eq_true, if_false] at hv
    rw [hv]
    set q := after_range_test false { p with inactiveFrameCount := p.inactiveFrameCount + 1 }
      with hq
    obtain ⟨qin, qty, qst, -, -⟩ :=
      after_range_test_false_fields { p with inactiveFrameCount := p.inactiveFrameCount + 1 }
    rw [← hq] at qin qty qst
    have qfr := after_range_test_frame false
      { p with inactiveFrameCount := p.inactiveFrameCount + 1 }
    rw [← hq] at qfr
    have rfr := probation_check_frame settings_ q
    set r := probation_check settings_ q with hr
    have rst : r.trackingStatus = tracking_status.lost := by
      by_cases hf : probation_failed settings_ q
      · rw [hr, probation_check_failed settings_ q qin hf]
      · by_cases hc : (q.probationFrameCount : Int) + 1 ≤ settings_.probationFrameCount
        · rw [hr, probation_check_continue settings_ q qin hf hc]; simpa [qst] using hlost
        · rw [hr, probation_check_expired settings_ q qin hf (by omega)]
          simpa [qst] using hlost
    have rty : r.pointType = tracked_point_type.active_point := by
      rw [rfr, qfr]; exact hact
    have rxy : xyDelta r = xyDelta p := by
      rw [rfr, qfr]; rfl
    have rrec : recover_tracking_data ext settings_ matrices r
        = recover_tracking_data ext settings_ matrices p := by
      rw [rfr, qfr]; rfl
    have hne : ext.track_point_from_seed matrices (recover_tracking_data ext settings_ matrices p)
        ≠ ext.INVALID_POINT := by
      intro h; rw [h, hinv] at hretry; cases hretry
    rw [rxy, rrec]
    rw [if_pos ⟨by rw [rst]; decide, hdist⟩, if_pos hne]
    rw [validate_eq ext settings_ matrices r _ (by rw [rst]; decide), if_pos hretry]
    obtain ⟨a, b⟩ := valid_active_result settings_ r hN rty
    simp [a, b]
  · -- the in-range test accepts INVALID_POINT: the first validation already recovers
    rw [hinv] at hv
    simp only [if_true] at hv
    rw [hv]
    obtain ⟨a, b⟩ := valid_active_result settings_ _ hN hact0
    simp [a, b]

/-- Witness of C9: the lost sample point, whose first seed growth from (0, 0) fails and
whose retry from the extrapolated, clamped pixel (3, 0) succeeds. -/
theorem C9_second_chance_recovery_witness :
    (update_tracked_point recovering_externals sample_settings sample_matrices
        lost_sample_point).trackingStatus = tracking_status.tracking ∧
    (update_tracked_point recovering_externals sample_settings sample_matrices
        lost_sample_point).failedTestCount ≤ lost_sample_point.failedTestCount :=
  C9_second_chance_recovery recovering_externals sample_settings sample_matrices
    lost_sample_point (by decide) rfl rfl
    (by norm_num [recovering_externals, sample_externals, axis_norm, xyDelta,
      lost_sample_point, active_sample_point, sample_point, sample_settings])
    (by decide)
    (by
      have h : (recover_tracking_data recovering_externals sample_settings sample_matrices
          lost_sample_point).seedPosition = ⟨3, 0⟩ := by
        decide!
      have ht : recovering_externals.track_point_from_seed sample_matrices
          (recover_tracking_data recovering_externals sample_settings sample_matrices
            lost_sample_point) = ⟨3, 0⟩ := by
        show (if (recover_tracking_data recovering_externals sample_settings sample_matrices
            lost_sample_point).seedPosition = (⟨0, 0⟩ : cv.Point) then (⟨-1, -1⟩ : cv.Point)
          else (recover_tracking_data recovering_externals sample_settings sample_matrices
            lost_sample_point).seedPosition) = ⟨3, 0⟩
        rw [h]; decide
      rw [ht]; decide)

/-! ## Duplicate merge: the loop body -/

section merge

variable (ext : externals) (settings_ : point_processor_settings)

/-- The inner-loop body either leaves the list unchanged (its condition is false for
the two points read) or fires on two different indices. -/
theorem merge_step_cases (l : List tracked_point) (i j : Nat) :
    (merge_step ext settings_ l i j = l ∧
      ∀ a b : tracked_point, l[i]? = some a → l[j]? = some b →
        ¬ (a.trackingId ≠ b.trackingId ∧
            (a.trackingStatus ≠ tracking_status.dead ∧ b.trackingStatus ≠ tracking_status.dead) ∧
            near ext settings_ a b)) ∨
    (∃ a b : tracked_point, l[i]? = some a ∧ l[j]? = some b ∧ i ≠ j ∧ a.trackingId ≠ b.trackingId ∧
        a.trackingStatus ≠ tracking_status.dead ∧ b.trackingStatus ≠ tracking_status.dead ∧
        near ext settings_ a b ∧
        merge_step ext settings_ l i j =
          (l.set i (absorb a b)).set j { b with trackingStatus := tracking_status.dead }) := by
  unfold merge_step
  cases hi : l[i]? with
  | none => left; simp
  | some a =>
    cases hj : l[j]? with
    | none => left; simp
    | some b =>
      by_cases hc : a.trackingId ≠ b.trackingId ∧
            (a.trackingStatus ≠ tracking_status.dead ∧ b.trackingStatus ≠ tracking_status.dead) ∧
            ext.norm (a.worldPosition.sub b.worldPosition) < settings_.mergePointDistance
      · right
        refine ⟨a, b, rfl, rfl, ?_, hc.1, hc.2.1.1, hc.2.1.2, hc.2.2, ?_⟩
        · rintro rfl
          rw [hi] at hj
          exact hc.1 (by injection hj with h; rw [h])
        · simp only [] ; rw [if_pos hc]; rfl
      · left
        refine ⟨?_, ?_⟩
        · simp only []; rw [if_neg hc]
        · intro a2 b2 ha hb
          injection ha with ha; injection hb with hb
          subst ha; subst hb
          exact hc

theorem absorb_worldPosition (a b : tracked_point) :
    (absorb a b).worldPosition = a.worldPosition := by
  unfold absorb; dsimp only; split_ifs <;> rfl

theorem absorb_trackingStatus (a b : tracked_point) :
    (absorb a b).trackingStatus = a.trackingStatus := by
  unfold absorb; dsimp only; split_ifs <;> rfl

theorem absorb_trackingId (a b : tracked_point) :
    (absorb a b).trackingId = a.trackingId ∨ (absorb a b).trackingId = b.trackingId := by
  unfold absorb; dsimp only; split_ifs
  · right; rfl
  · left; rfl

theorem evolves_refl (l : List tracked_point) : evolves l l :=
  ⟨rfl, fun _ a h => ⟨a, h, rfl, id⟩⟩

theorem evolves_trans {l1 l2 l3 : List tracked_point} (h12 : evolves l1 l2)
    (h23 : evolves l2 l3) : evolves l1 l3 := by
  refine ⟨h23.1.trans h12.1, ?_⟩
  intro k a ha
  obtain ⟨a2, ha2, hw2, hd2⟩ := h12.2 k a ha
  obtain ⟨a3, ha3, hw3, hd3⟩ := h23.2 k a2 ha2
  exact ⟨a3, ha3, hw3.trans hw2, fun h => hd3 (hd2 h)⟩

/-- Reading an evolved list backwards: a point of the later list comes from a point of
the earlier list at the same index. -/
theorem evolves_back {l1 l2 : List tracked_point} (h : evolves l1 l2) (k : Nat)
    (a2 : tracked_point) (ha2 : l2[k]? = some a2) :
    ∃ a : tracked_point, l1[k]? = some a ∧ a2.worldPosition = a.worldPosition ∧
      (a.trackingStatus = tracking_status.dead → a2.trackingStatus = tracking_status.dead) := by
  have hk : k < l1.length := by
    have := (List.getElem?_eq_some_iff.mp ha2).1
    rw [h.1] at this; exact this
  obtain ⟨b, hb, hw, hd⟩ := h.2 k l1[k] (List.getElem?_eq_getElem hk)
  rw [ha2] at hb
  injection hb with hb
  subst hb
  exact ⟨l1[k], List.getElem?_eq_getElem hk, hw, hd⟩

theorem merge_step_length (l : List tracked_point) (i j : Nat) :
    (merge_step ext settings_ l i j).length = l.length := by
  rcases merge_step_cases ext settings_ l i j with ⟨h, _⟩ | ⟨a, b, _, _, _, _, _, _, _, h⟩
  · rw [h]
  · rw [h]; simp

theorem merge_step_evolves (l : List tracked_point) (i j : Nat) :
    evolves l (merge_step ext settings_ l i j) := by
  rcases merge_step_cases ext settings_ l i j with ⟨h, _⟩ | ⟨a, b, hi, hj, hij, _, hda, _, _, h⟩
  · rw [h]; exact evolves_refl l
  · refine ⟨merge_step_length ext settings_ l i j, ?_⟩
    intro k c hc
    rw [h]
    have hklt : k < l.length := (List.getElem?_eq_some_iff.mp hc).1
    by_cases hkj : j = k
    · subst hkj
      rw [hj] at hc; injection hc with hc; subst hc
      refine ⟨{ b with trackingStatus := tracking_status.dead }, ?_, rfl, fun _ => rfl⟩
      rw [List.getElem?_set_self (by simpa using hklt)]
    · rw [List.getElem?_set_ne hkj]
      by_cases hki : i = k
      · subst hki
        rw [hi] at hc; injection hc with hc; subst hc
        refine ⟨absorb a b, ?_, absorb_worldPosition a b, fun hd => absurd hd hda⟩
        rw [List.getElem?_set_self hklt]
      · rw [List.getElem?_set_ne hki]
        exact ⟨c, hc, rfl, id⟩

theorem merge_step_distinct_live (l : List tracked_point) (i j : Nat)
    (hinv : distinct_live l) : distinct_live (merge_step ext settings_ l i j) := by
  rcases merge_step_cases ext settings_ l i j with ⟨h, _⟩ | ⟨a, b, hi, hj, hij, _, hda, hdb, _, h⟩
  · rw [h]; exact hinv
  · rw [h]
    have hilt : i < l.length := (List.getElem?_eq_some_iff.mp hi).1
    have hjlt : j < l.length := (List.getElem?_eq_some_iff.mp hj).1
    -- the point read at index k of the new list
    have key : ∀ (k : Nat) (c : tracked_point),
        ((l.set i (absorb a b)).set j { b with trackingStatus := tracking_status.dead })[k]?
          = some c → c.trackingStatus ≠ tracking_status.dead →
        k ≠ j ∧ ((k = i ∧ c = absorb a b) ∨ (k ≠ i ∧ l[k]? = some c)) := by
      intro k c hc hdc
      by_cases hkj : j = k
      · subst hkj
        rw [List.getElem?_set_self (by simpa using hjlt)] at hc
        injection hc with hc; subst hc
        exact absurd rfl hdc
      · rw [List.getElem?_set_ne hkj] at hc
        refine ⟨fun h => hkj h.symm, ?_⟩
        by_cases hki : i = k
        · subst hki
          rw [List.getElem?_set_self hilt] at hc
          injection hc with hc
          exact Or.inl ⟨rfl, hc.symm⟩
        · rw [List.getElem?_set_ne hki] at hc
          exact Or.inr ⟨fun h => hki h.symm, hc⟩
    intro k m c d hkm hc hd hdc hdd
    obtain ⟨hkj, hk⟩ := key k c hc hdc
    obtain ⟨hmj, hm⟩ := key m d hd hdd
    rcases hk with ⟨hki, hce⟩ | ⟨hki, hck⟩ <;> rcases hm with ⟨hmi, hde⟩ | ⟨hmi, hdm⟩
    · exact absurd (hki.trans hmi.symm) hkm
    · subst hce
      rcases absorb_trackingId a b with e | e <;> rw [e]
      · exact hinv i m a d (fun h => hmi h.symm) hi hdm hda hdd
      · exact hinv j m b d (fun h => hmj h.symm) hj hdm hdb hdd
    · subst hde
      rcases absorb_trackingId a b with e | e <;> rw [e]
      · exact hinv k i c a hki hck hi hdc hda
      · exact hinv k j c b hkj hck hj hdc hdb
    · exact hinv k m c d hkm hck hdm hdc hdd

/-- After the loop body at `(i, j)` with `i ≠ j`, the two points are separated. -/
theorem merge_step_separates (l : List tracked_point) (i j : Nat) (hij : i ≠ j)
    (hinv : distinct_live l) : separated ext settings_ (merge_step ext settings_ l i j) i j := by
  rcases merge_step_cases ext settings_ l i j with ⟨h, hno⟩ | ⟨a, b, hi, hj, _, _, hda, hdb, _, h⟩
  · rw [h]
    intro a b ha hb
    by_cases hda : a.trackingStatus = tracking_status.dead
    · exact Or.inl hda
    by_cases hdb : b.trackingStatus = tracking_status.dead
    · exact Or.inr (Or.inl hdb)
    right; right
    intro hn
    exact hno a b ha hb ⟨hinv i j a b hij ha hb hda hdb, ⟨hda, hdb⟩, hn⟩
  · rw [h]
    intro a2 b2 _ hb2
    have hjlt : j < l.length := (List.getElem?_eq_some_iff.mp hj).1
    rw [List.getElem?_set_self (by simpa using hjlt)] at hb2
    injection hb2 with hb2; subst hb2
    exact Or.inr (Or.inl rfl)

/-- Separation of two indices survives any evolution of the list. -/
theorem separated_of_evolves {l1 l2 : List tracked_point} (h : evolves l1 l2) (i j : Nat)
    (hs : separated ext settings_ l1 i j) : separated ext settings_ l2 i j := by
  intro a2 b2 ha2 hb2
  obtain ⟨a, ha, hwa, hda⟩ := evolves_back h i a2 ha2
  obtain ⟨b, hb, hwb, hdb⟩ := evolves_back h j b2 hb2
  rcases hs a b ha hb with h1 | h1 | h1
  · exact Or.inl (hda h1)
  · exact Or.inr (Or.inl (hdb h1))
  · right; right
    unfold near at h1 ⊢
    rw [hwa, hwb]; exact h1

/-! ## Duplicate merge: the nested loops -/

theorem merge_pairs_length (ps : List (Nat × Nat)) :
    ∀ l : List tracked_point, (merge_pairs ext settings_ l ps).length = l.length := by
  induction ps with
  | nil => intro l; rfl
  | cons x rest ih =>
    intro l
    simp only [merge_pairs, List.foldl_cons]
    exact (ih _).trans (merge_step_length ext settings_ l x.1 x.2)

theorem merge_pairs_evolves (ps : List (Nat × Nat)) :
    ∀ l : List tracked_point, evolves l (merge_pairs ext settings_ l ps) := by
  induction ps with
  | nil => intro l; exact evolves_refl l
  | cons x rest ih =>
    intro l
    simp only [merge_pairs, List.foldl_cons]
    exact evolves_trans (merge_step_evolves ext settings_ l x.1 x.2) (ih _)

theorem merge_pairs_distinct_live (ps : List (Nat × Nat)) :
    ∀ l : List tracked_point, distinct_live l →
      distinct_live (merge_pairs ext settings_ l ps) := by
  induction ps with
  | nil => intro l h; exact h
  | cons x rest ih =>
    intro l h
    simp only [merge_pairs, List.foldl_cons]
    exact ih _ (merge_step_distinct_live ext settings_ l x.1 x.2 h)

/-- Every pair of different indices visited by the loops is separated at the end. -/
theorem merge_pairs_separates (ps : List (Nat × Nat)) :
    ∀ l : List tracked_point, distinct_live l →
      ∀ x ∈ ps, x.1 ≠ x.2 → separated ext settings_ (merge_pairs ext settings_ l ps) x.1 x.2 := by
  induction ps with
  | nil => intro l _ x hx; cases hx
  | cons y rest ih =>
    intro l h x hx hne
    simp only [merge_pairs, List.foldl_cons]
    rcases List.mem_cons.mp hx with rfl | hx
    · exact separated_of_evolves ext settings_ (merge_pairs_evolves ext settings_ rest _) _ _
        (merge_step_separates ext settings_ l x.1 x.2 hne h)
    · exact ih _ (merge_step_distinct_live ext settings_ l y.1 y.2 h) x hx hne

/-- The inner loop is the loop body along the pairs `(i, 0), ..., (i, n - 1)`. -/
theorem merge_inner_eq (l : List tracked_point) (i : Nat) :
    merge_inner ext settings_ l i =
      merge_pairs ext settings_ l ((List.range l.length).map (fun j => (i, j))) := by
  unfold merge_inner merge_pairs
  rw [List.foldl_map]

/-- The outer loop over the indices `is` is the loop body along all their pairs. -/
theorem merge_outer_eq (n : Nat) (is : List Nat) :
    ∀ l : List tracked_point, l.length = n →
      is.foldl (fun l i => merge_inner ext settings_ l i) l =
        merge_pairs ext settings_ l
          (is.flatMap (fun i => (List.range n).map (fun j => (i, j)))) := by
  induction is with
  | nil => intro l _; rfl
  | cons i rest ih =>
    intro l hl
    simp only [List.foldl_cons, List.flatMap_cons]
    rw [ih _ (by rw [merge_inner_eq, merge_pairs_length, hl]), merge_inner_eq, hl]
    unfold merge_pairs
    rw [List.foldl_append]

theorem remove_duplicate_points_list_eq (l : List tracked_point) :
    remove_duplicate_points_list ext settings_ l =
      merge_pairs ext settings_ l (all_pairs l.length) := by
  unfold remove_duplicate_points_list all_pairs
  exact merge_outer_eq ext settings_ l.length _ l rfl

theorem mem_all_pairs (n i j : Nat) (hi : i < n) (hj : j < n) : (i, j) ∈ all_pairs n := by
  unfold all_pairs
  simp only [List.mem_flatMap, List.mem_range, List.mem_map, Prod.mk.injEq]
  exact ⟨i, hi, j, hj, rfl, rfl⟩

theorem remove_duplicate_points_list_length (l : List tracked_point) :
    (remove_duplicate_points_list ext settings_ l).length = l.length := by
  rw [remove_duplicate_points_list_eq]; exact merge_pairs_length ext settings_ _ l

/-- After the merge all pairs of different indices are separated. -/
theorem remove_duplicate_points_list_separated (l : List tracked_point)
    (h : distinct_live l) (i j : Nat) (hij : i ≠ j) :
    separated ext settings_ (remove_duplicate_points_list ext settings_ l) i j := by
  intro a b ha hb
  have hi : i < l.length := by
    have := (List.getElem?_eq_some_iff.mp ha).1
    rwa [remove_duplicate_points_list_length] at this
  have hj : j < l.length := by
    have := (List.getElem?_eq_some_iff.mp hb).1
    rwa [remove_duplicate_points_list_length] at this
  rw [remove_duplicate_points_list_eq] at ha hb
  exact merge_pairs_separates ext settings_ _ l h (i, j) (mem_all_pairs _ i j hi hj) hij a b ha hb

theorem distinct_live_of_nodup (l : List tracked_point)
    (h : (l.map (fun p => p.trackingId)).Nodup) : distinct_live l := by
  intro i j a b hij ha hb _ _ hid
  have hi := (List.getElem?_eq_some_iff.mp ha)
  have hj := (List.getElem?_eq_some_iff.mp hb)
  obtain ⟨hi, hai⟩ := hi
  obtain ⟨hj, hbj⟩ := hj
  have hi2 : i < (l.map (fun p => p.trackingId)).length := by simpa using hi
  have hj2 : j < (l.map (fun p => p.trackingId)).length := by simpa using hj
  have := (@List.Nodup.getElem_inj_iff _ _ h i hi2 j hj2).mp (by simp [hai, hbj, hid])
  exact hij this

/-- A list in which all pairs of different indices are separated is a fixed point of
the loop body. -/
theorem merge_step_fixed (l : List tracked_point)
    (hs : ∀ i j, i ≠ j → separated ext settings_ l i j) (i j : Nat) :
    merge_step ext settings_ l i j = l := by
  rcases merge_step_cases ext settings_ l i j with ⟨h, _⟩ | ⟨a, b, hi, hj, hij, _, hda, hdb, hn, _⟩
  · exact h
  · rcases hs i j hij a b hi hj with h | h | h
    · exact absurd h hda
    · exact absurd h hdb
    · exact absurd hn h

theorem merge_pairs_fixed (l : List tracked_point)
    (hs : ∀ i j, i ≠ j → separated ext settings_ l i j) (ps : List (Nat × Nat)) :
    merge_pairs ext settings_ l ps = l := by
  induction ps with
  | nil => rfl
  | cons x rest ih =>
    simp only [merge_pairs, List.foldl_cons]
    rw [merge_step_fixed ext settings_ l hs]
    exact ih

/-- C6: for a tracked-point list with pairwise distinct tracking ids, after
`remove_duplicate_points` no two non-dead points with different tracking ids have
world positions closer than `mergePointDistance`. -/
theorem C6_no_close_live_pair_after_merge (pp : point_processor)
    (hnd : (pp.trackedPoints_.map (fun p => p.trackingId)).Nodup)
    (a b : tracked_point)
    (ha : a ∈ (remove_duplicate_points ext settings_ pp).trackedPoints_)
    (hb : b ∈ (remove_duplicate_points ext settings_ pp).trackedPoints_)
    (hda : a.trackingStatus ≠ tracking_status.dead)
    (hdb : b.trackingStatus ≠ tracking_status.dead)
    (hid : a.trackingId ≠ b.trackingId) :
    ¬ (ext.norm (a.worldPosition.sub b.worldPosition) < settings_.mergePointDistance) := by
  obtain ⟨i, hi⟩ := List.getElem?_of_mem ha
  obtain ⟨j, hj⟩ := List.getElem?_of_mem hb
  have hij : i ≠ j := by
    rintro rfl
    rw [hi] at hj; injection hj with hj
    exact hid (by rw [hj])
  rcases remove_duplicate_points_list_separated ext settings_ pp.trackedPoints_
    (distinct_live_of_nodup _ hnd) i j hij a b hi hj with h | h | h
  · exact absurd h hda
  · exact absurd h hdb
  · exact h

/-- C3: for a tracked-point list with pairwise distinct tracking ids, running
`remove_duplicate_points` twice in a row gives exactly the state of running it once. -/
theorem C3_merge_idempotent (pp : point_processor)
    (hnd : (pp.trackedPoints_.map (fun p => p.trackingId)).Nodup) :
    remove_duplicate_points ext settings_ (remove_duplicate_points ext settings_ pp)
      = remove_duplicate_points ext settings_ pp := by
  unfold remove_duplicate_points
  simp only
  rw [remove_duplicate_points_list_eq ext settings_
    (remove_duplicate_points_list ext settings_ pp.trackedPoints_)]
  rw [merge_pairs_fixed ext settings_ _
    (remove_duplicate_points_list_separated ext settings_ pp.trackedPoints_
      (distinct_live_of_nodup _ hnd))]

end merge

/-! ## Two-point merges -/

section merge_pair

variable (ext : externals) (settings_ : point_processor_settings)

theorem merge_step_same (l : List tracked_point) (i : Nat) :
    merge_step ext settings_ l i i = l := by
  rcases merge_step_cases ext settings_ l i i with ⟨h, _⟩ | ⟨_, _, _, _, hii, _⟩
  · exact h
  · exact absurd rfl hii

theorem merge_step_dead_tracked (l : List tracked_point) (i j : Nat) (a : tracked_point)
    (ha : l[i]? = some a) (hd : a.trackingStatus = tracking_status.dead) :
    merge_step ext settings_ l i j = l := by
  rcases merge_step_cases ext settings_ l i j with ⟨h, _⟩ | ⟨a2, _, ha2, _, _, _, hda, _⟩
  · exact h
  · rw [ha] at ha2; injection ha2 with ha2; subst ha2
    exact absurd hd hda

/-- On a list of two live points with different ids that are within merge distance in
the order (first, second), the first absorbs the second and the second is marked dead. -/
theorem remove_duplicate_points_list_pair (x y : tracked_point)
    (hid : x.trackingId ≠ y.trackingId)
    (hx : x.trackingStatus ≠ tracking_status.dead)
    (hy : y.trackingStatus ≠ tracking_status.dead)
    (hn : near ext settings_ x y) :
    remove_duplicate_points_list ext settings_ [x, y] =
      [absorb x y, { y with trackingStatus := tracking_status.dead }] := by
  have h00 : merge_step ext settings_ [x, y] 0 0 = [x, y] := merge_step_same ext settings_ _ 0
  have h01 : merge_step ext settings_ [x, y] 0 1 =
      [absorb x y, { y with trackingStatus := tracking_status.dead }] := by
    rcases merge_step_cases ext settings_ [x, y] 0 1 with ⟨_, hno⟩ | ⟨a, b, ha, hb, _, _, _, _, _, h⟩
    · exact absurd ⟨hid, ⟨hx, hy⟩, hn⟩ (hno x y rfl rfl)
    · simp at ha hb; subst ha; subst hb; rw [h]; rfl
  have h10 : merge_step ext settings_
      [absorb x y, { y with trackingStatus := tracking_status.dead }] 1 0 =
      [absorb x y, { y with trackingStatus := tracking_status.dead }] :=
    merge_step_dead_tracked ext settings_ _ 1 0 _ rfl rfl
  have h11 : merge_step ext settings_
      [absorb x y, { y with trackingStatus := tracking_status.dead }] 1 1 =
      [absorb x y, { y with trackingStatus := tracking_status.dead }] :=
    merge_step_same ext settings_ _ 1
  simp [remove_duplicate_points_list, merge_inner, List.range_succ, h00, h01, h10, h11]

/-- C5: for a list of exactly two non-dead points with distinct tracking ids, one
active and one candidate, whose world positions are closer than `mergePointDistance`,
in either list order exactly one point is non-dead after `remove_duplicate_points`,
and it is an active point carrying the tracking id the active point had before. -/
theorem C5_active_candidate_merge (a c : tracked_point)
    (hact : a.pointType = tracked_point_type.active_point)
    (hcand : c.pointType = tracked_point_type.candidate_point)
    (hid : a.trackingId ≠ c.trackingId)
    (hda : a.trackingStatus ≠ tracking_status.dead)
    (hdc : c.trackingStatus ≠ tracking_status.dead)
    (hac : ext.norm (a.worldPosition.sub c.worldPosition) < settings_.mergePointDistance)
    (hca : ext.norm (c.worldPosition.sub a.worldPosition) < settings_.mergePointDistance) :
    (∃ s : tracked_point,
      (remove_duplicate_points_list ext settings_ [a, c]).filter
          (fun p => decide (p.trackingStatus ≠ tracking_status.dead)) = [s] ∧
      s.pointType = tracked_point_type.active_point ∧ s.trackingId = a.trackingId) ∧
    (∃ s : tracked_point,
      (remove_duplicate_points_list ext settings_ [c, a]).filter
          (fun p => decide (p.trackingStatus ≠ tracking_status.dead)) = [s] ∧
      s.pointType = tracked_point_type.active_point ∧ s.trackingId = a.trackingId) := by
  constructor
  · refine ⟨absorb a c, ?_, ?_, ?_⟩
    · rw [remove_duplicate_points_list_pair ext settings_ a c hid hda hdc hac]
      simp [List.filter, absorb_trackingStatus, hda]
    · unfold absorb; simp [hact]
    · unfold absorb; simp [hact]
  · refine ⟨absorb c a, ?_, ?_, ?_⟩
    · rw [remove_duplicate_points_list_pair ext settings_ c a (Ne.symm hid) hdc hda hca]
      simp [List.filter, absorb_trackingStatus, hdc]
    · unfold absorb; simp [hact, hcand]
    · unfold absorb; simp [hact, hcand]

/-- C7 fails as stated: with the candidate `sample_point` listed before the active
`second_sample_point` (both at the same world position), the candidate's record stays non-dead and
the active point's record is the one marked dead. -/
theorem C7_counterexample :
    sample_point.pointType = tracked_point_type.candidate_point ∧
    second_sample_point.pointType = tracked_point_type.active_point ∧
    sample_point.trackingId ≠ second_sample_point.trackingId ∧
    near sample_externals sample_settings sample_point second_sample_point ∧
    near sample_externals sample_settings second_sample_point sample_point ∧
    (remove_duplicate_points_list sample_externals sample_settings
        [sample_point, second_sample_point]).map (fun p => p.trackingStatus)
      = [tracking_status.tracking, tracking_status.dead] := by
  decide!

/-- C7 (amended): for two non-dead points with distinct tracking ids closer than
`mergePointDistance`, one active and one candidate, forming the list,
`remove_duplicate_points` keeps the record that comes first and marks the second
dead: with the active point first the candidate's record is marked dead; with the
candidate first the active point's record is marked dead and the candidate's record
survives, promoted to `active_point` with the active point's tracking id.  In both
orders the survivor takes the minimum of the two inactivity counters. -/
theorem C7_merge_keeps_first_record (a c : tracked_point)
    (hact : a.pointType = tracked_point_type.active_point)
    (hcand : c.pointType = tracked_point_type.candidate_point)
    (hid : a.trackingId ≠ c.trackingId)
    (hda : a.trackingStatus ≠ tracking_status.dead)
    (hdc : c.trackingStatus ≠ tracking_status.dead)
    (hac : ext.norm (a.worldPosition.sub c.worldPosition) < settings_.mergePointDistance)
    (hca : ext.norm (c.worldPosition.sub a.worldPosition) < settings_.mergePointDistance) :
    remove_duplicate_points_list ext settings_ [a, c] =
      [{ a with inactiveFrameCount := min a.inactiveFrameCount c.inactiveFrameCount },
       { c with trackingStatus := tracking_status.dead }] ∧
    remove_duplicate_points_list ext settings_ [c, a] =
      [{ c with inactiveFrameCount := min c.inactiveFrameCount a.inactiveFrameCount
                trackingId := a.trackingId
                pointType := tracked_point_type.active_point },
       { a with trackingStatus := tracking_status.dead }] := by
  constructor
  · rw [remove_duplicate_points_list_pair ext settings_ a c hid hda hdc hac]
    unfold absorb; simp [hact]
  · rw [remove_duplicate_points_list_pair ext settings_ c a (Ne.symm hid) hdc hda hca]
    unfold absorb; simp [hact, hcand]

end merge_pair

/-- Witness of C5 on the active `second_sample_point` and the candidate `sample_point`. -/
theorem C5_active_candidate_merge_witness :
    (∃ s : tracked_point,
      (remove_duplicate_points_list sample_externals sample_settings
          [second_sample_point, sample_point]).filter
          (fun p => decide (p.trackingStatus ≠ tracking_status.dead)) = [s] ∧
      s.pointType = tracked_point_type.active_point ∧
      s.trackingId = second_sample_point.trackingId) ∧
    (∃ s : tracked_point,
      (remove_duplicate_points_list sample_externals sample_settings
          [sample_point, second_sample_point]).filter
          (fun p => decide (p.trackingStatus ≠ tracking_status.dead)) = [s] ∧
      s.pointType = tracked_point_type.active_point ∧
      s.trackingId = second_sample_point.trackingId) :=
  C5_active_candidate_merge sample_externals sample_settings second_sample_point sample_point
    rfl rfl (by decide) (by decide) (by decide) (by decide!) (by decide!)

/-- Witness of C7 (amended) on the same two sample points. -/
theorem C7_merge_keeps_first_record_witness :
    remove_duplicate_points_list sample_externals sample_settings
        [second_sample_point, sample_point] =
      [{ second_sample_point with
          inactiveFrameCount :=
            min second_sample_point.inactiveFrameCount sample_point.inactiveFrameCount },
       { sample_point with trackingStatus := tracking_status.dead }] ∧
    remove_duplicate_points_list sample_externals sample_settings
        [sample_point, second_sample_point] =
      [{ sample_point with
          inactiveFrameCount :=
            min sample_point.inactiveFrameCount second_sample_point.inactiveFrameCount
          trackingId := second_sample_point.trackingId
          pointType := tracked_point_type.active_point },
       { second_sample_point with trackingStatus := tracking_status.dead }] :=
  C7_merge_keeps_first_record sample_externals sample_settings second_sample_point sample_point
    rfl rfl (by decide) (by decide) (by decide) (by decide!) (by decide!)

/-! ## The cap on candidate updates -/

/-- C10 fails on the code: with `maxhandpointUpdatesPerFrame = 1` and a list of three
candidate points, `update_tracked_points` invokes `update_tracked_point` on the
candidates at indices 0 and 1 (their inactivity counters are incremented), that is on
two candidates; the loop breaks only once `numUpdatedPoints > 1`. -/
theorem C10_candidate_updates_exceed_cap :
    one_update_settings.maxhandpointUpdatesPerFrame = 1 ∧
    [sample_point, far_sample_point, third_sample_point].map (fun p => p.pointType)
      = [tracked_point_type.candidate_point, tracked_point_type.candidate_point,
         tracked_point_type.candidate_point] ∧
    (update_tracked_points_traced sample_externals one_update_settings sample_matrices
        [sample_point, far_sample_point, third_sample_point]).2 = [0, 1] ∧
    (update_tracked_points_traced sample_externals one_update_settings sample_matrices
        [sample_point, far_sample_point, third_sample_point]).1.map
        (fun p => p.inactiveFrameCount) = [1, 1, 0] := by
  decide!

/-- Witness of C6 on the sample processor: the merged survivor and the far point. -/
theorem C6_no_close_live_pair_after_merge_witness :
    ¬ (sample_externals.norm (merged_sample_point.worldPosition.sub far_sample_point.worldPosition)
        < sample_settings.mergePointDistance) :=
  C6_no_close_live_pair_after_merge sample_externals sample_settings sample_processor
    (by decide) merged_sample_point far_sample_point (by decide!) (by decide!)
    (by decide) (by decide) (by decide)

/-- Witness of C3 on the sample processor. -/
theorem C3_merge_idempotent_witness :
    remove_duplicate_points sample_externals sample_settings
        (remove_duplicate_points sample_externals sample_settings sample_processor)
      = remove_duplicate_points sample_externals sample_settings sample_processor :=
  C3_merge_idempotent sample_externals sample_settings sample_processor (by decide)

/-! ## The create cycle -/

section create

variable (ext : externals) (settings_ : point_processor_settings) (matrices : tracking_matrices)

end create

theorem same_identity_refl (a : tracked_point) : same_identity a a := ⟨rfl, Iff.rfl⟩

theorem same_identity_trans {a b c : tracked_point} (h1 : same_identity a b)
    (h2 : same_identity b c) : same_identity a c :=
  ⟨h2.1.trans h1.1, h2.2.trans h1.2⟩

theorem distinct_live_of_live_ids_distinct (l : List tracked_point)
    (h : live_ids_distinct l) : distinct_live l := by
  unfold live_ids_distinct at h
  rw [List.pairwise_iff_getElem] at h
  intro i j a b hij ha hb hda hdb
  obtain ⟨hi, rfl⟩ := List.getElem?_eq_some_iff.mp ha
  obtain ⟨hj, rfl⟩ := List.getElem?_eq_some_iff.mp hb
  rcases Nat.lt_or_gt_of_ne hij with hlt | hgt
  · exact h i j hi hj hlt hda hdb
  · exact fun e => h j i hj hi hgt hdb hda e.symm

theorem live_ids_distinct_of_distinct_live (l : List tracked_point)
    (h : distinct_live l) : live_ids_distinct l := by
  unfold live_ids_distinct
  rw [List.pairwise_iff_getElem]
  intro i j hi hj hlt hda hdb
  exact h i j l[i] l[j] (Nat.ne_of_lt hlt) (List.getElem?_eq_getElem hi)
    (List.getElem?_eq_getElem hj) hda hdb

theorem forall₂_mem_right {l l2 : List tracked_point}
    (h : List.Forall₂ same_identity l l2) :
    ∀ b ∈ l2, ∃ a ∈ l, same_identity a b := by
  induction h with
  | nil => intro b hb; cases hb
  | cons hab _ ih =>
    intro b hb
    rcases List.mem_cons.mp hb with rfl | hb
    · exact ⟨_, List.mem_cons_self _ _, hab⟩
    · obtain ⟨a, ha, hs⟩ := ih b hb
      exact ⟨a, List.mem_cons_of_mem _ ha, hs⟩

/-- Distinctness of the live ids is carried along a pointwise identity-preserving
change of the list. -/
theorem live_ids_distinct_of_forall₂ {l l2 : List tracked_point}
    (h : List.Forall₂ same_identity l l2) (hl : live_ids_distinct l) :
    live_ids_distinct l2 := by
  unfold live_ids_distinct at hl ⊢
  induction h with
  | nil => exact List.Pairwise.nil
  | cons hab hrest ih =>
    rw [List.pairwise_cons] at hl ⊢
    refine ⟨?_, ih hl.2⟩
    intro b2 hb2 hd1 hd2
    obtain ⟨b, hb, hs⟩ := forall₂_mem_right hrest b2 hb2
    have := hl.1 b hb (fun e => hd1 (hab.2.mpr e)) (fun e => hd2 (hs.2.mpr e))
    rw [hab.1, hs.1]; exact this

section identity

variable (ext : externals) (settings_ : point_processor_settings) (matrices : tracking_matrices)

theorem probation_check_identity (p : tracked_point)
    (hd : p.trackingStatus ≠ tracking_status.dead) :
    (probation_check settings_ p).trackingId = p.trackingId ∧
    (probation_check settings_ p).trackingStatus ≠ tracking_status.dead := by
  constructor
  · rw [probation_check_frame settings_ p]
  · cases hin : p.isInProbation
    · rw [probation_check_not_in settings_ p hin]; exact hd
    · exact (probation_check_in settings_ p hin hd).1

theorem after_range_test_identity (v : Bool) (p : tracked_point)
    (hd : p.trackingStatus ≠ tracking_status.dead) :
    (after_range_test v p).trackingId = p.trackingId ∧
    (after_range_test v p).trackingStatus ≠ tracking_status.dead := by
  constructor
  · rw [after_range_test_frame v p]
  · unfold after_range_test start_probation
    cases v <;> cases hin : p.isInProbation <;> simp [hin, hd] <;> split_ifs <;> simp

theorem validate_identity (p : tracked_point) (t : cv.Point) :
    same_identity p (validate_and_update_tracked_point ext settings_ matrices p t) := by
  by_cases hd : p.trackingStatus = tracking_status.dead
  · unfold validate_and_update_tracked_point
    rw [if_pos hd]; exact same_identity_refl p
  · rw [validate_eq ext settings_ matrices p t hd]
    have key : ∀ v, (probation_check settings_ (after_range_test v p)).trackingId = p.trackingId ∧
        (probation_check settings_ (after_range_test v p)).trackingStatus
          ≠ tracking_status.dead := by
      intro v
      obtain ⟨a1, a2⟩ := after_range_test_identity v p hd
      obtain ⟨b1, b2⟩ := probation_check_identity settings_ _ a2
      exact ⟨b1.trans a1, b2⟩
    split_ifs
    · refine ⟨by simpa using (key true).1, ?_⟩
      simp only [update_tracked_point_data_trackingStatus]
      exact ⟨fun e => absurd e (key true).2, fun e => absurd e hd⟩
    · exact ⟨(key false).1, fun e => absurd e (key false).2, fun e => absurd e hd⟩

theorem update_tracked_point_identity (p : tracked_point) :
    same_identity p (update_tracked_point ext settings_ matrices p) := by
  have h0 : same_identity p { p with inactiveFrameCount := p.inactiveFrameCount + 1 } :=
    ⟨rfl, Iff.rfl⟩
  unfold update_tracked_point
  dsimp only
  split_ifs
  · exact same_identity_trans h0 (same_identity_trans (validate_identity ext settings_ matrices _ _)
      (validate_identity ext settings_ matrices _ _))
  · exact same_identity_trans h0 (validate_identity ext settings_ matrices _ _)
  · exact same_identity_trans h0 (validate_identity ext settings_ matrices _ _)

theorem update_active_loop_identity :
    ∀ (l : List tracked_point) (i : Nat),
      List.Forall₂ same_identity l (update_active_loop ext settings_ matrices i l).1 := by
  intro l
  induction l with
  | nil => intro i; exact List.Forall₂.nil
  | cons p rest ih =>
    intro i
    unfold update_active_loop
    dsimp only
    split_ifs
    · exact List.Forall₂.cons (update_tracked_point_identity ext settings_ matrices p) (ih _)
    · exact List.Forall₂.cons (same_identity_refl p) (ih _)

theorem forall₂_same_identity_refl (l : List tracked_point) :
    List.Forall₂ same_identity l l := by
  induction l with
  | nil => exact List.Forall₂.nil
  | cons p rest ih => exact List.Forall₂.cons (same_identity_refl p) ih

theorem update_candidate_loop_identity :
    ∀ (l : List tracked_point) (i : Nat) (n : Int),
      List.Forall₂ same_identity l (update_candidate_loop ext settings_ matrices i n l).1 := by
  intro l
  induction l with
  | nil => intro i n; exact List.Forall₂.nil
  | cons p rest ih =>
    intro i n
    unfold update_candidate_loop
    dsimp only
    split_ifs
    all_goals first
      | exact List.Forall₂.cons (update_tracked_point_identity ext settings_ matrices p)
          (forall₂_same_identity_refl _)
      | exact List.Forall₂.cons (update_tracked_point_identity ext settings_ matrices p) (ih _ _)
      | exact List.Forall₂.cons (same_identity_refl p) (forall₂_same_identity_refl _)
      | exact List.Forall₂.cons (same_identity_refl p) (ih _ _)

theorem forall₂_trans_same_identity {l1 l2 l3 : List tracked_point}
    (h12 : List.Forall₂ same_identity l1 l2) (h23 : List.Forall₂ same_identity l2 l3) :
    List.Forall₂ same_identity l1 l3 := by
  induction h12 generalizing l3 with
  | nil => cases h23; exact List.Forall₂.nil
  | cons hab _ ih =>
    cases h23 with
    | cons hbc hrest => exact List.Forall₂.cons (same_identity_trans hab hbc) (ih hrest)

theorem update_trajectories_loop_identity :
    ∀ (l : List tracked_point) (tr : List (Int × trajectory_analyzer)),
      List.Forall₂ same_identity l (update_trajectories_loop ext l tr).1 := by
  intro l
  induction l with
  | nil => intro tr; exact List.Forall₂.nil
  | cons p rest ih =>
    intro tr
    unfold update_trajectories_loop
    dsimp only
    split
    · exact List.Forall₂.cons (same_identity_refl p) (ih _)
    · refine List.Forall₂.cons ?_ (ih _)
      split_ifs
      · exact ⟨rfl, Iff.rfl⟩
      · exact same_identity_refl p

theorem remove_stale_loop_sublist :
    ∀ (l : List tracked_point) (tr : List (Int × trajectory_analyzer)),
      List.Sublist (remove_stale_loop settings_ l tr).1 l := by
  intro l
  induction l with
  | nil => intro tr; exact List.Sublist.slnil
  | cons p rest ih =>
    intro tr
    unfold remove_stale_loop
    dsimp only
    split_ifs
    · exact List.Sublist.cons _ (ih _)
    · exact List.Sublist.cons₂ _ (ih _)

theorem update_full_resolution_point_identity (p : tracked_point) :
    same_identity p (update_full_resolution_point ext settings_ matrices p) := by
  unfold update_full_resolution_point update_tracked_point_from_world_position
  dsimp only
  split_ifs <;> exact ⟨rfl, Iff.rfl⟩

theorem match_existing_loop_identity (targetPoint : cv.Point) (worldPosition : cv.Point3f) :
    ∀ l : List tracked_point,
      List.Forall₂ same_identity l
        (match_existing_loop ext settings_ matrices targetPoint worldPosition l).1 := by
  intro l
  induction l with
  | nil => exact List.Forall₂.nil
  | cons p rest ih =>
    unfold match_existing_loop
    dsimp only
    by_cases hd : p.trackingStatus = tracking_status.dead
    · rw [if_neg (not_not.mpr hd)]
      exact List.Forall₂.cons (same_identity_refl p) ih
    · rw [if_pos hd]
      split_ifs
      all_goals first
        | exact List.Forall₂.cons (same_identity_refl p) ih
        | refine List.Forall₂.cons ⟨?_, ?_⟩ (forall₂_same_identity_refl _)
          · first
              | rfl
              | (unfold start_probation; split_ifs <;> rfl)
          · simp [hd]

end identity

/-- C4 fails as stated: merging the candidate `sample_point` (id 0) with the active
`second_sample_point` (id 1) leaves two points in the list with id 1, the promoted
survivor and the dead record it absorbed, which stays in the list until eviction. -/
theorem C4_counterexample :
    ([sample_point, second_sample_point].map (fun p => p.trackingId)).Nodup ∧
    ¬ ((remove_duplicate_points sample_externals sample_settings
          { trackedPoints_ := [sample_point, second_sample_point]
            nextTrackingId_ := 2
            trajectories_ := [] }).trackedPoints_.map (fun p => p.trackingId)).Nodup := by
  decide!

/-- C4 (amended): every operation of the point processor preserves the invariant that
the tracking ids of the non-dead points held in the list are pairwise distinct; for
the create cycle this uses that every id in the list is below the next-id counter and
that the `tracked_point` constructor stores the id it is given. -/
theorem C4_live_ids_stay_distinct (ext : externals) (settings_ : point_processor_settings)
    (matrices : tracking_matrices) (pp : point_processor) (seedPosition : cv.Point)
    (h : live_ids_distinct pp.trackedPoints_)
    (hnext : ∀ p ∈ pp.trackedPoints_, p.trackingId < pp.nextTrackingId_)
    (hctor : ∀ t w i, (ext.new_tracked_point t w i).trackingId = i) :
    live_ids_distinct (update_tracked_points ext settings_ matrices pp).trackedPoints_ ∧
    live_ids_distinct (update_trajectories ext pp).trackedPoints_ ∧
    live_ids_distinct (remove_duplicate_points ext settings_ pp).trackedPoints_ ∧
    live_ids_distinct (remove_stale_or_dead_points settings_ pp).trackedPoints_ ∧
    live_ids_distinct (update_full_resolution_points ext settings_ matrices pp).trackedPoints_ ∧
    live_ids_distinct
      (update_tracked_or_create_new_point_from_seed ext settings_ matrices pp
        seedPosition).trackedPoints_ := by
  refine ⟨?_, ?_, ?_, ?_, ?_, ?_⟩
  · exact live_ids_distinct_of_forall₂
      (forall₂_trans_same_identity (update_active_loop_identity ext settings_ matrices _ 0)
        (update_candidate_loop_identity ext settings_ matrices _ 0 0)) h
  · exact live_ids_distinct_of_forall₂ (update_trajectories_loop_identity ext _ _) h
  · show live_ids_distinct (remove_duplicate_points_list ext settings_ pp.trackedPoints_)
    rw [remove_duplicate_points_list_eq]
    exact live_ids_distinct_of_distinct_live _
      (merge_pairs_distinct_live ext settings_ _ _ (distinct_live_of_live_ids_distinct _ h))
  · exact List.Pairwise.sublist (remove_stale_loop_sublist settings_ _ _) h
  · show live_ids_distinct (pp.trackedPoints_.map (update_full_resolution_point ext settings_ matrices))
    refine live_ids_distinct_of_forall₂ ?_ h
    rw [List.forall₂_map_right_iff]
    exact List.forall₂_same.mpr
      (fun p _ => update_full_resolution_point_identity ext settings_ matrices p)
  · have hm := match_existing_loop_identity ext settings_ matrices
      (create_target ext matrices seedPosition) (create_world ext matrices seedPosition)
      pp.trackedPoints_
    have hl := live_ids_distinct_of_forall₂ hm h
    unfold create_world create_target at hm hl
    unfold update_tracked_or_create_new_point_from_seed
    dsimp only
    split_ifs
    · exact h
    · exact h
    · unfold live_ids_distinct
      rw [List.pairwise_append]
      refine ⟨hl, List.pairwise_singleton _ _, ?_⟩
      intro a ha b hb _ _
      rw [List.mem_singleton] at hb
      obtain ⟨a0, ha0, hs⟩ := forall₂_mem_right hm a ha
      have hlt := hnext a0 ha0
      rw [hb, hs.1]
      unfold created_point
      simp only [hctor]
      omega
    · exact hl

/-- Witness of C4 (amended) on the sample processor (ids 0, 1, 2 and next id 3). -/
theorem C4_live_ids_stay_distinct_witness :
    live_ids_distinct
      (update_tracked_points sample_externals sample_settings sample_matrices
        sample_processor).trackedPoints_ ∧
    live_ids_distinct (update_trajectories sample_externals sample_processor).trackedPoints_ ∧
    live_ids_distinct
      (remove_duplicate_points sample_externals sample_settings sample_processor).trackedPoints_ ∧
    live_ids_distinct
      (remove_stale_or_dead_points sample_settings sample_processor).trackedPoints_ ∧
    live_ids_distinct
      (update_full_resolution_points sample_externals sample_settings sample_matrices
        sample_processor).trackedPoints_ ∧
    live_ids_distinct
      (update_tracked_or_create_new_point_from_seed sample_externals sample_settings
        sample_matrices sample_processor ⟨100, 0⟩).trackedPoints_ :=
  C4_live_ids_stay_distinct sample_externals sample_settings sample_matrices sample_processor
    ⟨100, 0⟩ (by unfold live_ids_distinct; decide) (by decide) (fun _ _ _ => rfl)

/-! ## Eviction of stale and dead points -/

section eviction

variable (settings_ : point_processor_settings)

/-- The eviction loop keeps exactly the points that fail the eviction test, in order. -/
theorem remove_stale_loop_points :
    ∀ (l : List tracked_point) (tr : List (Int × trajectory_analyzer)),
      (remove_stale_loop settings_ l tr).1
        = l.filter (fun p => decide (¬ evicted settings_ p)) := by
  intro l
  induction l with
  | nil => intro tr; rfl
  | cons p rest ih =>
    intro tr
    unfold remove_stale_loop
    dsimp only
    by_cases h : evicted settings_ p
    · have h2 := h
      unfold evicted at h2
      rw [if_pos h2, ih, List.filter_cons_of_neg (by simpa using h)]
    · have h2 := h
      unfold evicted at h2
      rw [if_neg h2, List.filter_cons_of_pos (by simpa using h)]
      simp only [ih]

/-- The eviction loop erases exactly the records stored under the id of an evicted point. -/
theorem remove_stale_loop_trajectories :
    ∀ (l : List tracked_point) (tr : List (Int × trajectory_analyzer)),
      (remove_stale_loop settings_ l tr).2
        = tr.filter (fun e => decide (∀ p ∈ l, evicted settings_ p → e.1 ≠ p.trackingId)) := by
  intro l
  induction l with
  | nil => intro tr; simp [remove_stale_loop]
  | cons p rest ih =>
    intro tr
    unfold remove_stale_loop
    dsimp only
    by_cases h : evicted settings_ p
    · have h2 := h
      unfold evicted at h2
      rw [if_pos h2, ih]
      unfold trajectories_erase
      rw [List.filter_filter]
      apply List.filter_congr
      intro e _
      rw [Bool.eq_iff_iff]
      simp only [Bool.and_eq_true, decide_eq_true_eq, List.mem_cons, forall_eq_or_imp]
      constructor
      · rintro ⟨a, b⟩; exact ⟨fun _ => b, a⟩
      · rintro ⟨a, b⟩; exact ⟨b, a h⟩
    · have h2 := h
      unfold evicted at h2
      rw [if_neg h2]
      simp only [ih]
      apply List.filter_congr
      intro e _
      rw [Bool.eq_iff_iff]
      simp only [decide_eq_true_eq, List.mem_cons, forall_eq_or_imp]
      constructor
      · intro a; exact ⟨fun hh => absurd hh h, a⟩
      · rintro ⟨_, b⟩; exact b

/-- C11: `remove_stale_or_dead_points` keeps exactly the points that are neither dead nor
inactive for more frames than their ceiling, unchanged and in their original order;
no dead point is left in the list, and no trajectory record is left under the
tracking id of a removed point. -/
theorem C11_eviction_removes_stale_and_dead (pp : point_processor) :
    (remove_stale_or_dead_points settings_ pp).trackedPoints_
      = pp.trackedPoints_.filter
          (fun p => decide (¬ ((p.inactiveFrameCount : Int) > inactivity_ceiling settings_ p ∨
            p.trackingStatus = tracking_status.dead))) ∧
    (∀ p ∈ (remove_stale_or_dead_points settings_ pp).trackedPoints_,
      p.trackingStatus ≠ tracking_status.dead) ∧
    (∀ p ∈ pp.trackedPoints_,
      ((p.inactiveFrameCount : Int) > inactivity_ceiling settings_ p ∨
          p.trackingStatus = tracking_status.dead) →
      trajectories_find (remove_stale_or_dead_points settings_ pp).trajectories_ p.trackingId
        = none) := by
  have hpts := remove_stale_loop_points settings_ pp.trackedPoints_ pp.trajectories_
  have htr := remove_stale_loop_trajectories settings_ pp.trackedPoints_ pp.trajectories_
  unfold evicted at hpts
  refine ⟨hpts, ?_, ?_⟩
  · intro p hp
    have hp2 : p ∈ (remove_stale_loop settings_ pp.trackedPoints_ pp.trajectories_).1 := hp
    rw [hpts, List.mem_filter] at hp2
    have := hp2.2
    simp only [decide_eq_true_eq, not_or] at this
    exact this.2
  · intro p hp hev
    show trajectories_find (remove_stale_loop settings_ pp.trackedPoints_ pp.trajectories_).2
      p.trackingId = none
    rw [htr]
    unfold trajectories_find
    rw [Option.map_eq_none', List.find?_eq_none]
    intro e he
    rw [List.mem_filter] at he
    have := he.2
    simp only [decide_eq_true_eq] at this ⊢
    exact this p hp hev

end eviction

/-! ## Trajectory records across a frame -/

/-- C12 fails on the code: starting from the candidate (id 0) listed before the active
point (id 1), both at one world position and with no trajectory record, the sequence
`update_trajectories`, `remove_duplicate_points`, `remove_stale_or_dead_points` leaves
one point, carrying id 1, while the only trajectory record left is stored under id 0:
the survivor inherited id 1, evicting the dead record erased the record of id 1, and
the record of id 0 is orphaned. -/
theorem C12_trajectory_ids_diverge_after_merge :
    (candidate_first_processor.trackedPoints_.map (fun p => p.trackingId)).Nodup ∧
    trajectory_ids candidate_first_processor.trajectories_ = [] ∧
    ((remove_stale_or_dead_points sample_settings
        (remove_duplicate_points sample_externals sample_settings
          (update_trajectories sample_externals candidate_first_processor))).trackedPoints_.map
        (fun p => p.trackingId)) = [1] ∧
    trajectory_ids
      (remove_stale_or_dead_points sample_settings
        (remove_duplicate_points sample_externals sample_settings
          (update_trajectories sample_externals candidate_first_processor))).trajectories_
      = [0] := by
  decide!

/-! ## Dead points -/

theorem dead_kept_of_forall₂ {l l2 : List tracked_point}
    (h : List.Forall₂ same_identity l l2) : dead_kept l l2 := by
  induction h with
  | nil => intro i a ha; simp at ha
  | cons hab _ ih =>
    intro i a ha hd
    cases i with
    | zero =>
      simp only [List.getElem?_cons_zero, Option.some.injEq] at ha
      subst ha
      exact ⟨_, by simp, hab.2.mpr hd⟩
    | succ n =>
      simp only [List.getElem?_cons_succ] at ha
      obtain ⟨b, hb, hbd⟩ := ih n a ha hd
      exact ⟨b, by simpa using hb, hbd⟩

theorem dead_kept_append (l l2 : List tracked_point) (x : tracked_point)
    (h : dead_kept l l2) : dead_kept l (l2 ++ [x]) := by
  intro i a ha hd
  obtain ⟨b, hb, hbd⟩ := h i a ha hd
  refine ⟨b, ?_, hbd⟩
  have hi : i < l2.length := (List.getElem?_eq_some_iff.mp hb).1
  rw [List.getElem?_append_left hi]; exact hb

theorem dead_kept_refl (l : List tracked_point) : dead_kept l l :=
  fun _ a ha hd => ⟨a, ha, hd⟩

/-- C13: the status dead is absorbing.  `validate_and_update_tracked_point` returns a
dead point with every field unchanged, `update_tracked_point` leaves it dead, and
`update_tracked_points`, `update_trajectories`, `remove_duplicate_points`,
`update_full_resolution_points` and the create cycle leave every dead point of the
list dead at its place. -/
theorem C13_dead_is_absorbing (ext : externals) (settings_ : point_processor_settings)
    (matrices : tracking_matrices) (pp : point_processor) (seedPosition : cv.Point)
    (p : tracked_point) (t : cv.Point)
    (hd : p.trackingStatus = tracking_status.dead) :
    validate_and_update_tracked_point ext settings_ matrices p t = p ∧
    (update_tracked_point ext settings_ matrices p).trackingStatus = tracking_status.dead ∧
    dead_kept pp.trackedPoints_
      (update_tracked_points ext settings_ matrices pp).trackedPoints_ ∧
    dead_kept pp.trackedPoints_ (update_trajectories ext pp).trackedPoints_ ∧
    dead_kept pp.trackedPoints_ (remove_duplicate_points ext settings_ pp).trackedPoints_ ∧
    dead_kept pp.trackedPoints_
      (update_full_resolution_points ext settings_ matrices pp).trackedPoints_ ∧
    dead_kept pp.trackedPoints_
      (update_tracked_or_create_new_point_from_seed ext settings_ matrices pp
        seedPosition).trackedPoints_ := by
  refine ⟨?_, ?_, ?_, ?_, ?_, ?_, ?_⟩
  · unfold validate_and_update_tracked_point
    rw [if_pos hd]
  · exact (update_tracked_point_identity ext settings_ matrices p).2.mpr hd
  · exact dead_kept_of_forall₂
      (forall₂_trans_same_identity (update_active_loop_identity ext settings_ matrices _ 0)
        (update_candidate_loop_identity ext settings_ matrices _ 0 0))
  · exact dead_kept_of_forall₂ (update_trajectories_loop_identity ext _ _)
  · show dead_kept pp.trackedPoints_ (remove_duplicate_points_list ext settings_ pp.trackedPoints_)
    rw [remove_duplicate_points_list_eq]
    intro i a ha had
    obtain ⟨b, hb, _, hbd⟩ := (merge_pairs_evolves ext settings_ _ pp.trackedPoints_).2 i a ha
    exact ⟨b, hb, hbd had⟩
  · show dead_kept pp.trackedPoints_
      (pp.trackedPoints_.map (update_full_resolution_point ext settings_ matrices))
    refine dead_kept_of_forall₂ ?_
    rw [List.forall₂_map_right_iff]
    exact List.forall₂_same.mpr
      (fun q _ => update_full_resolution_point_identity ext settings_ matrices q)
  · have hm := dead_kept_of_forall₂ (match_existing_loop_identity ext settings_ matrices
      (create_target ext matrices seedPosition) (create_world ext matrices seedPosition)
      pp.trackedPoints_)
    unfold create_world create_target at hm
    unfold update_tracked_or_create_new_point_from_seed
    dsimp only
    split_ifs
    · exact dead_kept_refl _
    · exact dead_kept_refl _
    · exact dead_kept_append _ _ _ hm
    · exact hm

/-- Witness of C13 on the dead sample point and a processor that holds it. -/
theorem C13_dead_is_absorbing_witness :
    validate_and_update_tracked_point recovering_externals sample_settings sample_matrices
      dead_sample_point ⟨2, 2⟩ = dead_sample_point ∧
    (update_tracked_point recovering_externals sample_settings sample_matrices
      dead_sample_point).trackingStatus = tracking_status.dead ∧
    dead_kept processor_with_dead_point.trackedPoints_
      (update_tracked_points recovering_externals sample_settings sample_matrices
        processor_with_dead_point).trackedPoints_ ∧
    dead_kept processor_with_dead_point.trackedPoints_
      (update_trajectories recovering_externals processor_with_dead_point).trackedPoints_ ∧
    dead_kept processor_with_dead_point.trackedPoints_
      (remove_duplicate_points recovering_externals sample_settings
        processor_with_dead_point).trackedPoints_ ∧
    dead_kept processor_with_dead_point.trackedPoints_
      (update_full_resolution_points recovering_externals sample_settings sample_matrices
        processor_with_dead_point).trackedPoints_ ∧
    dead_kept processor_with_dead_point.trackedPoints_
      (update_tracked_or_create_new_point_from_seed recovering_externals sample_settings
        sample_matrices processor_with_dead_point ⟨100, 0⟩).trackedPoints_ :=
  C13_dead_is_absorbing recovering_externals sample_settings sample_matrices
    processor_with_dead_point ⟨100, 0⟩ dead_sample_point ⟨2, 2⟩ rfl

/-! ## The create cycle: matching an existing point and rejected seeds -/

section create_match

variable (ext : externals) (settings_ : point_processor_settings) (matrices : tracking_matrices)

/-- The matching loop stops at the first point that passes the match test, replaces
it by the matched point and reports an existing point. -/
theorem match_existing_loop_first_match (targetPoint : cv.Point) (worldPosition : cv.Point3f)
    (m : tracked_point) (post : List tracked_point)
    (hm : matches_target ext settings_ worldPosition m) :
    ∀ pre : List tracked_point,
      (∀ p ∈ pre, ¬ matches_target ext settings_ worldPosition p) →
      match_existing_loop ext settings_ matrices targetPoint worldPosition (pre ++ m :: post)
        = (pre ++ matched_point matrices targetPoint worldPosition m :: post, true) := by
  intro pre
  induction pre with
  | nil =>
    intro _
    obtain ⟨hd, hn⟩ := hm
    unfold match_threshold at hn
    unfold match_existing_loop matched_point
    simp only [List.nil_append, ne_eq, hd, not_false_eq_true, if_true, decide_eq_true_eq]
    rw [if_pos hn]
  | cons p rest ih =>
    intro hpre
    have hrest := ih (fun q hq => hpre q (List.mem_cons_of_mem _ hq))
    have hp := hpre p (List.mem_cons_self _ _)
    unfold matches_target match_threshold at hp
    rw [List.cons_append]
    unfold match_existing_loop
    rw [hrest]
    by_cases hd : p.trackingStatus = tracking_status.dead
    · simp [hd]
    · have hn : ¬ _ := fun h => hp ⟨hd, h⟩
      simp only [ne_eq, hd, not_false_eq_true, if_true, decide_eq_true_eq]
      rw [if_neg hn]
      rfl

/-- C14: in the create cycle with an in-range target at world position `w`, the first
point in list order that is non-dead and closer to `w` than its threshold gets
`inactiveFrameCount = 0` and status tracking; if it was lost it also gets the target
pixel, `w`, the area-sqrt at the target, a zero world delta and is in probation;
otherwise its other fields are unchanged.  Every other point is unchanged, no point
is appended, and the id counter and the trajectories are unchanged. -/
theorem C14_create_cycle_matches_first_point (pp : point_processor) (seedPosition : cv.Point)
    (pre post : List tracked_point) (m : tracked_point)
    (hdepth : matrices.depth seedPosition ≠ 0)
    (harea : matrices.areaSqrt seedPosition ≠ 0)
    (hseed : seedPosition ≠ ext.INVALID_POINT)
    (hvalid : ext.test_point_in_range matrices (create_target ext matrices seedPosition) = true)
    (hlist : pp.trackedPoints_ = pre ++ m :: post)
    (hpre : ∀ p ∈ pre, ¬ (p.trackingStatus ≠ tracking_status.dead ∧
        ext.norm (p.worldPosition.sub (create_world ext matrices seedPosition))
          < match_threshold settings_ p))
    (hm : m.trackingStatus ≠ tracking_status.dead ∧
        ext.norm (m.worldPosition.sub (create_world ext matrices seedPosition))
          < match_threshold settings_ m) :
    update_tracked_or_create_new_point_from_seed ext settings_ matrices pp seedPosition =
      { pp with
        trackedPoints_ := pre ++
          matched_point matrices (create_target ext matrices seedPosition)
            (create_world ext matrices seedPosition) m :: post } ∧
    (matched_point matrices (create_target ext matrices seedPosition)
        (create_world ext matrices seedPosition) m).inactiveFrameCount = 0 ∧
    (matched_point matrices (create_target ext matrices seedPosition)
        (create_world ext matrices seedPosition) m).trackingStatus = tracking_status.tracking ∧
    (m.trackingStatus = tracking_status.lost →
      (matched_point matrices (create_target ext matrices seedPosition)
          (create_world ext matrices seedPosition) m).position
        = create_target ext matrices seedPosition ∧
      (matched_point matrices (create_target ext matrices seedPosition)
          (create_world ext matrices seedPosition) m).worldPosition
        = create_world ext matrices seedPosition ∧
      (matched_point matrices (create_target ext matrices seedPosition)
          (create_world ext matrices seedPosition) m).referenceAreaSqrt
        = matrices.areaSqrt (create_target ext matrices seedPosition) ∧
      (matched_point matrices (create_target ext matrices seedPosition)
          (create_world ext matrices seedPosition) m).worldDeltaPosition = cv.Point3f.zero ∧
      (matched_point matrices (create_target ext matrices seedPosition)
          (create_world ext matrices seedPosition) m).isInProbation = true) ∧
    (m.trackingStatus ≠ tracking_status.lost →
      matched_point matrices (create_target ext matrices seedPosition)
          (create_world ext matrices seedPosition) m
        = { m with inactiveFrameCount := 0, trackingStatus := tracking_status.tracking }) := by
  have hloop := match_existing_loop_first_match ext settings_ matrices
    (create_target ext matrices seedPosition) (create_world ext matrices seedPosition)
    m post hm pre hpre
  refine ⟨?_, ?_, ?_, ?_, ?_⟩
  · unfold create_world create_target at hloop
    unfold create_target at hvalid
    unfold update_tracked_or_create_new_point_from_seed create_world create_target
    simp only [hdepth, harea, hseed, or_self, if_false, hvalid, Bool.not_true,
      Bool.false_eq_true, hlist, hloop]
  · unfold matched_point start_probation
    dsimp only
    split_ifs <;> rfl
  · rfl
  · intro hl
    unfold matched_point start_probation
    simp only [hl, if_true]
    split_ifs with h
    · simp
    · have h2 : m.isInProbation = true := by
        cases hin : m.isInProbation
        · rw [hin] at h; exact absurd rfl h
        · rfl
      simp [h2]
  · intro hl
    unfold matched_point
    simp only [hl, if_false]

/-- Witness of C14: the seed (1, 0) on a processor whose second point, the lost active
sample point, is the first one within its threshold of the target. -/
theorem C14_create_cycle_matches_first_point_witness :
    update_tracked_or_create_new_point_from_seed recovering_externals sample_settings
        sample_matrices processor_with_lost_point ⟨1, 0⟩ =
      { processor_with_lost_point with
        trackedPoints_ := [far_sample_point] ++
          matched_point sample_matrices
            (create_target recovering_externals sample_matrices ⟨1, 0⟩)
            (create_world recovering_externals sample_matrices ⟨1, 0⟩)
            { lost_sample_point with trackingId := 1 } :: [sample_point] } :=
  (C14_create_cycle_matches_first_point recovering_externals sample_settings sample_matrices
    processor_with_lost_point ⟨1, 0⟩ [far_sample_point] [sample_point]
    { lost_sample_point with trackingId := 1 }
    (by decide!) (by decide!) (by decide) (by decide) rfl (by decide!) (by decide!)).1

/-- C15: the create cycle leaves the processor state (the tracked-point list, the next-id
counter and the trajectories) unchanged whenever the seed's depth is zero, the seed's
area-sqrt is zero, the seed equals `INVALID_POINT`, or the target returned by the
create-mode seed growth fails the in-range test. -/
theorem C15_create_cycle_rejects (pp : point_processor) (seedPosition : cv.Point)
    (h : matrices.depth seedPosition = 0 ∨ matrices.areaSqrt seedPosition = 0 ∨
      seedPosition = ext.INVALID_POINT ∨
      ext.test_point_in_range matrices (create_target ext matrices seedPosition) = false) :
    update_tracked_or_create_new_point_from_seed ext settings_ matrices pp seedPosition = pp := by
  unfold update_tracked_or_create_new_point_from_seed
  dsimp only
  by_cases hg : matrices.depth seedPosition = 0 ∨ matrices.areaSqrt seedPosition = 0 ∨
      seedPosition = ext.INVALID_POINT
  · rw [if_pos hg]
  · rw [if_neg hg]
    have hv : ext.test_point_in_range matrices (create_target ext matrices seedPosition)
        = false := by
      rcases h with h | h | h | h
      · exact absurd (Or.inl h) hg
      · exact absurd (Or.inr (Or.inl h)) hg
      · exact absurd (Or.inr (Or.inr h)) hg
      · exact h
    unfold create_target at hv
    simp [hv]

/-- Witness of C15: the seed `INVALID_POINT` on the sample processor. -/
theorem C15_create_cycle_rejects_witness :
    update_tracked_or_create_new_point_from_seed sample_externals sample_settings
      sample_matrices sample_processor ⟨-1, -1⟩ = sample_processor :=
  C15_create_cycle_rejects sample_externals sample_settings sample_matrices sample_processor
    ⟨-1, -1⟩ (Or.inr (Or.inr (Or.inl rfl)))

end create_match

/-! ## Tracking ids and the next-id counter -/

section counter

variable (ext : externals) (settings_ : point_processor_settings) (matrices : tracking_matrices)

theorem ids_from_refl (l : List tracked_point) : ids_from l l :=
  fun p hp => ⟨p, hp, rfl⟩

theorem ids_from_trans {l1 l2 l3 : List tracked_point} (h12 : ids_from l1 l2)
    (h23 : ids_from l2 l3) : ids_from l1 l3 := by
  intro p hp
  obtain ⟨q, hq, e⟩ := h23 p hp
  obtain ⟨r, hr, e2⟩ := h12 q hq
  exact ⟨r, hr, e.trans e2⟩

theorem ids_from_of_forall₂ {l l2 : List tracked_point}
    (h : List.Forall₂ same_identity l l2) : ids_from l l2 := by
  intro p hp
  obtain ⟨q, hq, hs⟩ := forall₂_mem_right h p hp
  exact ⟨q, hq, hs.1⟩

theorem merge_step_ids_from (l : List tracked_point) (i j : Nat) :
    ids_from l (merge_step ext settings_ l i j) := by
  rcases merge_step_cases ext settings_ l i j with ⟨h, _⟩ | ⟨a, b, hi, hj, _, _, _, _, _, h⟩
  · rw [h]; exact ids_from_refl l
  · rw [h]
    have ha : a ∈ l := List.getElem?_mem hi
    have hb : b ∈ l := List.getElem?_mem hj
    intro p hp
    rcases List.mem_or_eq_of_mem_set hp with hp | rfl
    · rcases List.mem_or_eq_of_mem_set hp with hp | rfl
      · exact ⟨p, hp, rfl⟩
      · rcases absorb_trackingId a b with e | e
        · exact ⟨a, ha, e⟩
        · exact ⟨b, hb, e⟩
    · exact ⟨b, hb, rfl⟩

theorem merge_pairs_ids_from (ps : List (Nat × Nat)) :
    ∀ l : List tracked_point, ids_from l (merge_pairs ext settings_ l ps) := by
  induction ps with
  | nil => intro l; exact ids_from_refl l
  | cons x rest ih =>
    intro l
    simp only [merge_pairs, List.foldl_cons]
    exact ids_from_trans (merge_step_ids_from ext settings_ l x.1 x.2) (ih _)

theorem ids_below_of_ids_from {l l2 : List tracked_point} {n : Int} (h : ids_from l l2)
    (hl : ∀ p ∈ l, p.trackingId < n) : ∀ p ∈ l2, p.trackingId < n := by
  intro p hp
  obtain ⟨q, hq, e⟩ := h p hp
  rw [e]; exact hl q hq

/-- When the matching loop reports no existing point it has left the list unchanged. -/
theorem match_existing_loop_unchanged (targetPoint : cv.Point) (worldPosition : cv.Point3f) :
    ∀ l : List tracked_point,
      (match_existing_loop ext settings_ matrices targetPoint worldPosition l).2 = false →
      (match_existing_loop ext settings_ matrices targetPoint worldPosition l).1 = l := by
  intro l
  induction l with
  | nil => intro _; rfl
  | cons p rest ih =>
    unfold match_existing_loop
    dsimp only
    split_ifs
    all_goals
      intro h
      first
        | (dsimp only at h ⊢; rw [ih h])
        | dsimp only at h ⊢

/-- C16: every operation other than `reset` preserves the invariant that every tracking
id in the list is strictly below the next-id counter.  The create cycle either leaves
the counter and the length of the list unchanged, or appends one point to the
unchanged list: its tracking id is the counter value before the call, the counter
grows by exactly one, and the new id is greater than, hence different from, the id of
every point already in the list.  (The `tracked_point` constructor is assumed to store
the id it is given.) -/
theorem C16_ids_below_counter (pp : point_processor) (seedPosition : cv.Point)
    (h : ids_below_counter pp)
    (hctor : ∀ t w i, (ext.new_tracked_point t w i).trackingId = i) :
    ids_below_counter (update_tracked_points ext settings_ matrices pp) ∧
    ids_below_counter (update_trajectories ext pp) ∧
    ids_below_counter (remove_duplicate_points ext settings_ pp) ∧
    ids_below_counter (remove_stale_or_dead_points settings_ pp) ∧
    ids_below_counter (update_full_resolution_points ext settings_ matrices pp) ∧
    ids_below_counter
      (update_tracked_or_create_new_point_from_seed ext settings_ matrices pp seedPosition) ∧
    (((update_tracked_or_create_new_point_from_seed ext settings_ matrices pp
          seedPosition).nextTrackingId_ = pp.nextTrackingId_ ∧
        (update_tracked_or_create_new_point_from_seed ext settings_ matrices pp
          seedPosition).trackedPoints_.length = pp.trackedPoints_.length) ∨
      (∃ n : tracked_point,
        (update_tracked_or_create_new_point_from_seed ext settings_ matrices pp
          seedPosition).trackedPoints_ = pp.trackedPoints_ ++ [n] ∧
        n.trackingId = pp.nextTrackingId_ ∧
        (update_tracked_or_create_new_point_from_seed ext settings_ matrices pp
          seedPosition).nextTrackingId_ = pp.nextTrackingId_ + 1 ∧
        ∀ p ∈ pp.trackedPoints_, p.trackingId < n.trackingId ∧ p.trackingId ≠ n.trackingId)) := by
  have hid : ∀ t w i, (created_point ext t w i).trackingId = i := by
    intro t w i; unfold created_point; exact hctor t w i
  have hm := match_existing_loop_identity ext settings_ matrices
    (create_target ext matrices seedPosition) (create_world ext matrices seedPosition)
    pp.trackedPoints_
  have hu := match_existing_loop_unchanged ext settings_ matrices
    (create_target ext matrices seedPosition) (create_world ext matrices seedPosition)
    pp.trackedPoints_
  unfold create_world create_target at hm hu
  refine ⟨?_, ?_, ?_, ?_, ?_, ?_, ?_⟩
  · exact ids_below_of_ids_from (ids_from_of_forall₂
      (forall₂_trans_same_identity (update_active_loop_identity ext settings_ matrices _ 0)
        (update_candidate_loop_identity ext settings_ matrices _ 0 0))) h
  · exact ids_below_of_ids_from
      (ids_from_of_forall₂ (update_trajectories_loop_identity ext _ _)) h
  · show ∀ p ∈ remove_duplicate_points_list ext settings_ pp.trackedPoints_, _
    rw [remove_duplicate_points_list_eq]
    exact ids_below_of_ids_from (merge_pairs_ids_from ext settings_ _ _) h
  · intro p hp
    exact h p ((remove_stale_loop_sublist settings_ _ _).subset hp)
  · show ∀ p ∈ pp.trackedPoints_.map (update_full_resolution_point ext settings_ matrices), _
    refine ids_below_of_ids_from (ids_from_of_forall₂ ?_) h
    rw [List.forall₂_map_right_iff]
    exact List.forall₂_same.mpr
      (fun q _ => update_full_resolution_point_identity ext settings_ matrices q)
  · unfold ids_below_counter update_tracked_or_create_new_point_from_seed
    dsimp only
    split_ifs with h1 h2 h3
    · exact h
    · exact h
    · intro p hp
      rcases List.mem_append.mp hp with hp | hp
      · have := ids_below_of_ids_from (ids_from_of_forall₂ hm) h p hp
        show p.trackingId < pp.nextTrackingId_ + 1
        omega
      · rw [List.mem_singleton] at hp
        show p.trackingId < pp.nextTrackingId_ + 1
        rw [hp, hid]; omega
    · exact ids_below_of_ids_from (ids_from_of_forall₂ hm) h
  · unfold update_tracked_or_create_new_point_from_seed
    dsimp only
    split_ifs with h1 h2 h3
    · exact Or.inl ⟨rfl, rfl⟩
    · exact Or.inl ⟨rfl, rfl⟩
    · right
      have hr := hu (by simpa using h3)
      refine ⟨created_point ext
        (ext.track_point_from_seed matrices (create_tracking_data ext matrices seedPosition))
        (ext.convert_depth_to_world matrices
          (ext.track_point_from_seed matrices (create_tracking_data ext matrices seedPosition)).x
          (ext.track_point_from_seed matrices (create_tracking_data ext matrices seedPosition)).y
          (matrices.depth
            (ext.track_point_from_seed matrices (create_tracking_data ext matrices seedPosition))))
        pp.nextTrackingId_, ?_, hid _ _ _, rfl, ?_⟩
      · show _ ++ [_] = _
        rw [hr]
      · intro p hp
        rw [hid]
        have := h p hp
        exact ⟨this, Int.ne_of_lt this⟩
    · exact Or.inl ⟨rfl, (List.Forall₂.length_eq hm).symm⟩

/-- Witness of C16 on the sample processor (ids 0, 1, 2 and next id 3) and the
seed (100, 0), which creates a point with id 3. -/
theorem C16_ids_below_counter_witness :
    ids_below_counter
      (update_tracked_or_create_new_point_from_seed recovering_externals sample_settings
        sample_matrices sample_processor ⟨100, 0⟩) :=
  (C16_ids_below_counter recovering_externals sample_settings sample_matrices sample_processor
    ⟨100, 0⟩ (by unfold ids_below_counter; decide) (fun _ _ _ => rfl)).2.2.2.2.2.1

end counter

/-! ## A passed validation -/

section valid

variable (ext : externals) (settings_ : point_processor_settings) (matrices : tracking_matrices)

/-- C17: with both failed-test thresholds at least 1, for a non-dead point that, if it is
a candidate in probation, has fewer failed tests than `maxFailedTestsInProbation`: when
the in-range test passes, `validate_and_update_tracked_point` leaves the point tracking,
and an active point has `failedTestCount = 0` afterwards. -/
theorem C17_passed_validation_tracks (p : tracked_point) (t : cv.Point)
    (hN : 1 ≤ settings_.maxFailedTestsInProbationActivePoints)
    (_hM : 1 ≤ settings_.maxFailedTestsInProbation)
    (hd : p.trackingStatus ≠ tracking_status.dead)
    (hc : p.pointType = tracked_point_type.candidate_point → p.isInProbation = true →
      (p.failedTestCount : Int) < settings_.maxFailedTestsInProbation)
    (hv : ext.test_point_in_range matrices t = true) :
    (validate_and_update_tracked_point ext settings_ matrices p t).trackingStatus
      = tracking_status.tracking ∧
    (p.pointType = tracked_point_type.active_point →
      (validate_and_update_tracked_point ext settings_ matrices p t).failedTestCount = 0) := by
  rw [validate_eq ext settings_ matrices p t hd, if_pos hv]
  simp only [update_tracked_point_data_trackingStatus, update_tracked_point_data_failedTestCount]
  cases hty : p.pointType
  · -- candidate point
    obtain ⟨q, hq, hqin, hqty, hqf, hqc, hqs⟩ : ∃ q : tracked_point,
        after_range_test true p = q ∧ q.isInProbation = p.isInProbation ∧
        q.pointType = p.pointType ∧ q.failedTestCount = p.failedTestCount ∧
        q.probationFrameCount = p.probationFrameCount ∧
        q.trackingStatus = tracking_status.tracking := by
      refine ⟨{ p with trackingStatus := tracking_status.tracking }, ?_, rfl, rfl, rfl, rfl, rfl⟩
      unfold after_range_test; simp [hty]
    rw [hq]
    refine ⟨?_, fun h => by cases h⟩
    cases hin : p.isInProbation
    · rw [probation_check_not_in settings_ q (hqin.trans hin)]; exact hqs
    · have hin2 : q.isInProbation = true := hqin.trans hin
      have hf : ¬ probation_failed settings_ q := by
        rintro (⟨h, _⟩ | ⟨_, h⟩)
        · rw [hqty, hty] at h; cases h
        · have := hc hty hin
          rw [hqf] at h
          omega
      by_cases hcnt : (q.probationFrameCount : Int) + 1 ≤ settings_.probationFrameCount
      · rw [probation_check_continue settings_ q hin2 hf hcnt]; exact hqs
      · rw [probation_check_expired settings_ q hin2 hf (by omega)]; exact hqs
  · -- active point
    obtain ⟨a, b⟩ := valid_active_result settings_ p hN hty
    exact ⟨a, fun _ => b⟩

/-- Witness of C17 on the candidate sample point in probation with one failed test. -/
theorem C17_passed_validation_tracks_witness :
    (validate_and_update_tracked_point sample_externals sample_settings sample_matrices
        probation_sample_point ⟨2, 2⟩).trackingStatus = tracking_status.tracking ∧
    (probation_sample_point.pointType = tracked_point_type.active_point →
      (validate_and_update_tracked_point sample_externals sample_settings sample_matrices
        probation_sample_point ⟨2, 2⟩).failedTestCount = 0) :=
  C17_passed_validation_tracks sample_externals sample_settings sample_matrices
    probation_sample_point ⟨2, 2⟩ (by decide) (by decide) (by decide)
    (fun _ _ => by decide) (by decide)

/-- The range-test and probation blocks leave the position data of the point alone. -/
theorem validated_position_fields (v : Bool) (p : tracked_point) :
    (probation_check settings_ (after_range_test v p)).position = p.position ∧
    (probation_check settings_ (after_range_test v p)).worldPosition = p.worldPosition ∧
    (probation_check settings_ (after_range_test v p)).worldDeltaPosition
      = p.worldDeltaPosition ∧
    (probation_check settings_ (after_range_test v p)).referenceAreaSqrt
      = p.referenceAreaSqrt ∧
    (probation_check settings_ (after_range_test v p)).steadyWorldPosition
      = p.steadyWorldPosition ∧
    (probation_check settings_ (after_range_test v p)).inactiveFrameCount
      = p.inactiveFrameCount := by
  rw [probation_check_frame settings_ (after_range_test v p)]
  dsimp only
  rw [after_range_test_frame v p]
  exact ⟨rfl, rfl, rfl, rfl, rfl, rfl⟩

/-- C18: for a non-dead point and target pixel `t` with world position `w`: when the
in-range test passes, `validate_and_update_tracked_point` sets `position = t`,
`worldPosition = w`, `worldDeltaPosition = w - previous worldPosition` and
`referenceAreaSqrt` = the area-sqrt at `t`; it sets `steadyWorldPosition = w` and
`inactiveFrameCount = 0` if the distance from `w` to the previous steady position is
strictly greater than `steadyDeadBandRadius`, and otherwise leaves both unchanged.
When the test fails none of these six fields changes. -/
theorem C18_validation_commits_position (p : tracked_point) (t : cv.Point)
    (hd : p.trackingStatus ≠ tracking_status.dead) :
    (ext.test_point_in_range matrices t = true →
      (validate_and_update_tracked_point ext settings_ matrices p t).position = t ∧
      (validate_and_update_tracked_point ext settings_ matrices p t).worldPosition
        = ext.convert_depth_to_world matrices t.x t.y (matrices.depth t) ∧
      (validate_and_update_tracked_point ext settings_ matrices p t).worldDeltaPosition
        = (ext.convert_depth_to_world matrices t.x t.y (matrices.depth t)).sub p.worldPosition ∧
      (validate_and_update_tracked_point ext settings_ matrices p t).referenceAreaSqrt
        = matrices.areaSqrt t ∧
      (ext.norm ((ext.convert_depth_to_world matrices t.x t.y (matrices.depth t)).sub
            p.steadyWorldPosition) > settings_.steadyDeadBandRadius →
        (validate_and_update_tracked_point ext settings_ matrices p t).steadyWorldPosition
          = ext.convert_depth_to_world matrices t.x t.y (matrices.depth t) ∧
        (validate_and_update_tracked_point ext settings_ matrices p t).inactiveFrameCount = 0) ∧
      (¬ ext.norm ((ext.convert_depth_to_world matrices t.x t.y (matrices.depth t)).sub
            p.steadyWorldPosition) > settings_.steadyDeadBandRadius →
        (validate_and_update_tracked_point ext settings_ matrices p t).steadyWorldPosition
          = p.steadyWorldPosition ∧
        (validate_and_update_tracked_point ext settings_ matrices p t).inactiveFrameCount
          = p.inactiveFrameCount)) ∧
    (ext.test_point_in_range matrices t = false →
      (validate_and_update_tracked_point ext settings_ matrices p t).position = p.position ∧
      (validate_and_update_tracked_point ext settings_ matrices p t).worldPosition
        = p.worldPosition ∧
      (validate_and_update_tracked_point ext settings_ matrices p t).worldDeltaPosition
        = p.worldDeltaPosition ∧
      (validate_and_update_tracked_point ext settings_ matrices p t).referenceAreaSqrt
        = p.referenceAreaSqrt ∧
      (validate_and_update_tracked_point ext settings_ matrices p t).steadyWorldPosition
        = p.steadyWorldPosition ∧
      (validate_and_update_tracked_point ext settings_ matrices p t).inactiveFrameCount
        = p.inactiveFrameCount) := by
  rw [validate_eq ext settings_ matrices p t hd]
  constructor
  · intro hv
    rw [if_pos hv]
    obtain ⟨-, e2, -, -, e5, e6⟩ := validated_position_fields settings_ true p
    unfold update_tracked_point_data
    dsimp only
    rw [e2, e5, e6]
    refine ⟨?_, ?_, ?_, ?_, ?_, ?_⟩
    · split_ifs <;> rfl
    · split_ifs <;> rfl
    · split_ifs <;> rfl
    · split_ifs <;> rfl
    · intro h; rw [if_pos h]; exact ⟨rfl, rfl⟩
    · intro h; rw [if_neg h]; exact ⟨rfl, rfl⟩
  · intro hv
    rw [hv]
    simp only [Bool.false_eq_true, if_false]
    exact validated_position_fields settings_ false p

/-- Witness of C18 on the sample point and the target pixel (2, 2). -/
theorem C18_validation_commits_position_witness :
    (validate_and_update_tracked_point sample_externals sample_settings sample_matrices
        sample_point ⟨2, 2⟩).position = ⟨2, 2⟩ :=
  ((C18_validation_commits_position sample_externals sample_settings sample_matrices
    sample_point ⟨2, 2⟩ (by decide)).1 (by decide)).1

end valid

/-! ## Smoothing -/

/-- In the ramp the factor differs from the nominal factor by the gap between the two
factors scaled with the remaining fraction of the dead zone. -/
theorem effective_smoothing_factor_gap {K : Type} [LinearOrderedField K]
    (psf pdb dz delta : K) (hdz : 0 < dz) (hlt : delta < dz) :
    |effective_smoothing_factor psf pdb dz delta - psf| = |psf - pdb| * (1 - delta / dz) := by
  have h1 : 0 ≤ 1 - delta / dz := by
    have : delta / dz < 1 := (div_lt_one hdz).mpr hlt
    linarith
  unfold effective_smoothing_factor
  rw [if_pos hlt]
  have : psf * (delta / dz) + pdb * (1 - delta / dz) - psf = -((psf - pdb) * (1 - delta / dz)) := by
    ring
  rw [this, abs_neg, abs_mul, abs_of_nonneg h1]

/-- C19: `smooth_world_positions(old, new)` is `old * (1 - f) + new * f` with `f` the
effective smoothing factor at `delta` = the norm of `new - old`; and over every
linearly ordered field (in particular the reals), for a dead zone `dz > 0`: `f` is the
nominal factor when `delta >= dz`, the ramp `psf * (delta / dz) + pdb * (1 - delta / dz)`
when `delta < dz`, equals the dead-band factor at `delta = 0`, satisfies
`|f - psf| = |psf - pdb| * (1 - delta / dz)` in the ramp, and tends to the nominal
factor as `delta` approaches `dz` from below. -/
theorem C19_smoothing_factor_ramp {K : Type} [LinearOrderedField K]
    (ext : externals) (settings_ : point_processor_settings)
    (oldWorldPosition newWorldPosition : cv.Point3f) (psf pdb dz : K) (hdz : 0 < dz) :
    smooth_world_positions ext settings_ oldWorldPosition newWorldPosition =
      (oldWorldPosition.scale
          (1 - effective_smoothing_factor settings_.pointSmoothingFactor
            settings_.pointDeadBandSmoothingFactor settings_.pointSmoothingDeadZone
            (ext.norm (newWorldPosition.sub oldWorldPosition)))).add
        (newWorldPosition.scale
          (effective_smoothing_factor settings_.pointSmoothingFactor
            settings_.pointDeadBandSmoothingFactor settings_.pointSmoothingDeadZone
            (ext.norm (newWorldPosition.sub oldWorldPosition)))) ∧
    (∀ delta : K, dz ≤ delta → effective_smoothing_factor psf pdb dz delta = psf) ∧
    (∀ delta : K, delta < dz →
      effective_smoothing_factor psf pdb dz delta
        = psf * (delta / dz) + pdb * (1 - delta / dz)) ∧
    effective_smoothing_factor psf pdb dz 0 = pdb ∧
    (∀ delta : K, delta < dz →
      |effective_smoothing_factor psf pdb dz delta - psf|
        = |psf - pdb| * (1 - delta / dz)) ∧
    (∀ ε : K, 0 < ε → ∃ η : K, 0 < η ∧ ∀ delta : K, dz - η < delta → delta < dz →
      |effective_smoothing_factor psf pdb dz delta - psf| < ε) := by
  refine ⟨?_, ?_, ?_, ?_, ?_, ?_⟩
  · unfold smooth_world_positions effective_smoothing_factor
    rfl
  · intro delta h
    unfold effective_smoothing_factor
    rw [if_neg (not_lt.mpr h)]
  · intro delta h
    unfold effective_smoothing_factor
    rw [if_pos h]
  · unfold effective_smoothing_factor
    rw [if_pos hdz]
    simp
  · intro delta h
    exact effective_smoothing_factor_gap psf pdb dz delta hdz h
  · intro ε hε
    have hA : 0 ≤ |psf - pdb| := abs_nonneg _
    have hA1 : 0 < |psf - pdb| + 1 := by linarith
    refine ⟨ε * dz / (|psf - pdb| + 1), div_pos (mul_pos hε hdz) hA1, ?_⟩
    intro delta h1 h2
    rw [effective_smoothing_factor_gap psf pdb dz delta hdz h2]
    have hx : 1 - delta / dz < ε / (|psf - pdb| + 1) := by
      have e1 : 1 - delta / dz = (dz - delta) / dz := by field_simp
      have e2 : ε / (|psf - pdb| + 1) = (ε * dz / (|psf - pdb| + 1)) / dz := by
        field_simp
        ring
      rw [e1, e2]
      exact div_lt_div_of_pos_right (by linarith) hdz
    have hy : |psf - pdb| * (1 - delta / dz) ≤ |psf - pdb| * (ε / (|psf - pdb| + 1)) :=
      mul_le_mul_of_nonneg_left (le_of_lt hx) hA
    have hz : |psf - pdb| * (ε / (|psf - pdb| + 1)) < ε := by
      rw [← mul_div_assoc, div_lt_iff₀ hA1]
      nlinarith
    exact lt_of_le_of_lt hy hz

/-- Witness of C19 over the rationals with the sample factors and dead zone 10. -/
theorem C19_smoothing_factor_ramp_witness :
    effective_smoothing_factor (3 / 4 : ℚ) (1 / 4) 10 0 = 1 / 4 :=
  (C19_smoothing_factor_ramp sample_externals sample_settings ⟨0, 0, 1⟩ ⟨5, 0, 1⟩
    (3 / 4 : ℚ) (1 / 4) 10 (by norm_num)).2.2.2.1

/-! ## The inactivity ceiling -/

/-- C20 fails as stated: for the active point `idle_active_point`, whose status is
neither tracking nor lost, the ceiling is `maxInactiveFramesForActivePoints` (20), not
`maxInactiveFramesForCandidatePoints` (5); with 7 inactive frames the point is kept. -/
theorem C20_counterexample :
    idle_active_point.pointType = tracked_point_type.active_point ∧
    idle_active_point.trackingStatus ≠ tracking_status.tracking ∧
    idle_active_point.trackingStatus ≠ tracking_status.lost ∧
    inactivity_ceiling sample_settings idle_active_point
      = sample_settings.maxInactiveFramesForActivePoints ∧
    inactivity_ceiling sample_settings idle_active_point
      ≠ sample_settings.maxInactiveFramesForCandidatePoints ∧
    (idle_active_point.inactiveFrameCount : Int)
      > sample_settings.maxInactiveFramesForCandidatePoints ∧
    (remove_stale_or_dead_points sample_settings
      { trackedPoints_ := [idle_active_point], nextTrackingId_ := 1, trajectories_ := [] }
      ).trackedPoints_ = [idle_active_point] := by
  decide

/-- C20 (amended): the inactivity ceiling that `remove_stale_or_dead_points` compares
`inactiveFrameCount` against is `maxInactiveFramesForCandidatePoints` for every
candidate point, `maxInactiveFramesForLostPoints` for an active point whose status is
lost, and `maxInactiveFramesForActivePoints` for every other active point (status
tracking, not_tracking or dead); a single point is kept exactly when it is not dead
and its inactivity count does not exceed that ceiling. -/
theorem C20_inactivity_ceiling_by_type_and_status (settings_ : point_processor_settings)
    (pp : point_processor) (p : tracked_point) :
    inactivity_ceiling settings_ p =
      (if p.pointType = tracked_point_type.candidate_point then
        settings_.maxInactiveFramesForCandidatePoints
      else if p.trackingStatus = tracking_status.lost then
        settings_.maxInactiveFramesForLostPoints
      else settings_.maxInactiveFramesForActivePoints) ∧
    (remove_stale_or_dead_points settings_ { pp with trackedPoints_ := [p] }).trackedPoints_ =
      (if p.trackingStatus ≠ tracking_status.dead ∧
          (p.inactiveFrameCount : Int) ≤
            (if p.pointType = tracked_point_type.candidate_point then
              settings_.maxInactiveFramesForCandidatePoints
            else if p.trackingStatus = tracking_status.lost then
              settings_.maxInactiveFramesForLostPoints
            else settings_.maxInactiveFramesForActivePoints) then [p]
      else []) := by
  have hc : inactivity_ceiling settings_ p =
      (if p.pointType = tracked_point_type.candidate_point then
        settings_.maxInactiveFramesForCandidatePoints
      else if p.trackingStatus = tracking_status.lost then
        settings_.maxInactiveFramesForLostPoints
      else settings_.maxInactiveFramesForActivePoints) := by
    unfold inactivity_ceiling
    cases p.pointType <;> simp
  refine ⟨hc, ?_⟩
  rw [← hc]
  show (remove_stale_loop settings_ [p] pp.trajectories_).1 = _
  rw [remove_stale_loop_points]
  unfold evicted
  by_cases h : p.trackingStatus ≠ tracking_status.dead ∧
      (p.inactiveFrameCount : Int) ≤ inactivity_ceiling settings_ p
  · rw [if_pos h, List.filter_cons_of_pos]
    · rfl
    · simp only [decide_eq_true_eq, not_or, not_lt]
      exact ⟨h.2, h.1⟩
  · rw [if_neg h, List.filter_cons_of_neg]
    · rfl
    · simp only [decide_eq_true_eq, not_not]
      by_contra hcon
      simp only [not_or, not_lt] at hcon
      exact h ⟨hcon.2, by omega⟩

/-! ## Updating a dead point -/

/-- C23 fails as stated: `update_tracked_point` on the dead sample point (inactivity
count 0) returns it with inactivity count 1; the increment precedes the dead test. -/
theorem C23_counterexample :
    dead_sample_point.trackingStatus = tracking_status.dead ∧
    dead_sample_point.inactiveFrameCount = 0 ∧
    (update_tracked_point sample_externals sample_settings sample_matrices
      dead_sample_point).inactiveFrameCount = 1 := by
  decide!

/-- C23 (amended): `update_tracked_point` applied to a dead point increments its
`inactiveFrameCount` by one and leaves every other field unchanged, for every result
of the seed-growing primitive. -/
theorem C23_update_of_dead_point (ext : externals) (settings_ : point_processor_settings)
    (matrices : tracking_matrices) (p : tracked_point)
    (hd : p.trackingStatus = tracking_status.dead) :
    update_tracked_point ext settings_ matrices p =
      { p with inactiveFrameCount := p.inactiveFrameCount + 1 } := by
  have hv : ∀ t, validate_and_update_tracked_point ext settings_ matrices
      { p with inactiveFrameCount := p.inactiveFrameCount + 1 } t
      = { p with inactiveFrameCount := p.inactiveFrameCount + 1 } := by
    intro t
    unfold validate_and_update_tracked_point
    rw [if_pos hd]
  unfold update_tracked_point
  simp only [hv, ite_self]

/-- Witness of C23 (amended) on the dead sample point. -/
theorem C23_update_of_dead_point_witness :
    update_tracked_point recovering_externals sample_settings sample_matrices
        dead_sample_point =
      { dead_sample_point with inactiveFrameCount := dead_sample_point.inactiveFrameCount + 1 } :=
  C23_update_of_dead_point recovering_externals sample_settings sample_matrices
    dead_sample_point rfl

/-! ## Candidates behind active points -/

/-- C24 fails on the code: with `maxhandpointUpdatesPerFrame = 1` and the list
[active, active, candidate], which holds one candidate, `update_tracked_point` is
invoked on the two active points only (indices 0 and 1); the second loop counts the
two active points it skips, breaks before reaching index 2, and the candidate is left
untouched. -/
theorem C24_candidate_skipped_behind_actives :
    one_update_settings.maxhandpointUpdatesPerFrame = 1 ∧
    actives_first_processor.trackedPoints_.map (fun p => p.pointType)
      = [tracked_point_type.active_point, tracked_point_type.active_point,
         tracked_point_type.candidate_point] ∧
    (update_tracked_points_traced sample_externals one_update_settings sample_matrices
        actives_first_processor.trackedPoints_).2 = [0, 1] ∧
    (update_tracked_points sample_externals one_update_settings sample_matrices
        actives_first_processor).trackedPoints_[2]? = some far_sample_point := by
  decide!

/-! ## Reset -/

/-- C29 fails on the code: `reset` empties the list and zeroes the id counter but
leaves `trajectories_` untouched; the point that the create cycle then creates with
the reused id 0 is appended to the record kept from before the reset, which holds two
samples after the next `update_trajectories`. -/
theorem C29_reset_keeps_trajectories :
    (reset processor_with_history).trackedPoints_ = [] ∧
    (reset processor_with_history).nextTrackingId_ = 0 ∧
    trajectory_ids (reset processor_with_history).trajectories_ = [0] ∧
    (update_tracked_or_create_new_point_from_seed recovering_externals sample_settings
        sample_matrices (reset processor_with_history) ⟨100, 0⟩).trackedPoints_.map
        (fun p => p.trackingId) = [0] ∧
    (update_trajectories recovering_externals
        (update_tracked_or_create_new_point_from_seed recovering_externals sample_settings
          sample_matrices (reset processor_with_history) ⟨100, 0⟩)).trajectories_.map
        (fun e => (e.1, e.2.samples.length)) = [(0, 2)] := by
  decide!

/-! ## A failed second chance -/

section second_chance

variable (ext : externals) (settings_ : point_processor_settings) (matrices : tracking_matrices)

/-- One validation raises the failed-test count and the probation frame count by at
most one each. -/
theorem validate_counts_bound (p : tracked_point) (t : cv.Point) :
    (validate_and_update_tracked_point ext settings_ matrices p t).failedTestCount
      ≤ p.failedTestCount + 1 ∧
    (validate_and_update_tracked_point ext settings_ matrices p t).probationFrameCount
      ≤ p.probationFrameCount + 1 := by
  by_cases hd : p.trackingStatus = tracking_status.dead
  · unfold validate_and_update_tracked_point
    rw [if_pos hd]
    exact ⟨Nat.le_succ _, Nat.le_succ _⟩
  · have key : ∀ v, (probation_check settings_ (after_range_test v p)).failedTestCount
          ≤ p.failedTestCount + 1 ∧
        (probation_check settings_ (after_range_test v p)).probationFrameCount
          ≤ p.probationFrameCount + 1 := by
      intro v
      obtain ⟨q, hq, hqf, hqc⟩ : ∃ q : tracked_point, after_range_test v p = q ∧
          q.failedTestCount ≤ p.failedTestCount + 1 ∧
          q.probationFrameCount ≤ p.probationFrameCount := by
        refine ⟨_, rfl, ?_, ?_⟩
        · unfold after_range_test start_probation
          cases v <;> cases p.isInProbation <;> simp <;> split_ifs <;> simp
        · unfold after_range_test start_probation
          cases v <;> cases p.isInProbation <;> simp <;> split_ifs <;> simp
      rw [hq]
      cases hin : q.isInProbation
      · rw [probation_check_not_in settings_ q hin]
        exact ⟨hqf, Nat.le_succ_of_le hqc⟩
      · by_cases hf : probation_failed settings_ q
        · rw [probation_check_failed settings_ q hin hf]
          exact ⟨Nat.zero_le _, Nat.succ_le_succ hqc⟩
        · by_cases hc : (q.probationFrameCount : Int) + 1 ≤ settings_.probationFrameCount
          · rw [probation_check_continue settings_ q hin hf hc]
            exact ⟨hqf, Nat.succ_le_succ hqc⟩
          · rw [probation_check_expired settings_ q hin hf (by omega)]
            exact ⟨Nat.zero_le _, Nat.succ_le_succ hqc⟩
    rw [validate_eq ext settings_ matrices p t hd]
    split_ifs
    · simpa using key true
    · exact key false

/-- The function `update_tracked_point` in terms of the point left by its first
validation. -/
theorem update_tracked_point_eq (q : tracked_point) :
    update_tracked_point ext settings_ matrices q =
      if (first_validation ext settings_ matrices q).trackingStatus ≠ tracking_status.tracking ∧
          ext.track_point_from_seed matrices (update_tracking_data q) = ext.INVALID_POINT ∧
          ext.norm (xyDelta (first_validation ext settings_ matrices q))
            > settings_.secondChanceMinDistance then
        if ext.track_point_from_seed matrices
            (recover_tracking_data ext settings_ matrices
              (first_validation ext settings_ matrices q)) ≠ ext.INVALID_POINT then
          validate_and_update_tracked_point ext settings_ matrices
            (first_validation ext settings_ matrices q)
            (ext.track_point_from_seed matrices
              (recover_tracking_data ext settings_ matrices
                (first_validation ext settings_ matrices q)))
        else first_validation ext settings_ matrices q
      else first_validation ext settings_ matrices q := rfl

/-- The requests of `update_tracked_point` in terms of the point left by its first
validation. -/
theorem update_tracked_point_requests_eq (q : tracked_point) :
    update_tracked_point_requests ext settings_ matrices q =
      if (first_validation ext settings_ matrices q).trackingStatus ≠ tracking_status.tracking ∧
          ext.track_point_from_seed matrices (update_tracking_data q) = ext.INVALID_POINT ∧
          ext.norm (xyDelta (first_validation ext settings_ matrices q))
            > settings_.secondChanceMinDistance then
        [update_tracking_data q,
          recover_tracking_data ext settings_ matrices (first_validation ext settings_ matrices q)]
      else [update_tracking_data q] := rfl

/-- C25: in `update_tracked_point`, when the first seed growth returns `INVALID_POINT`
and the second-chance retry, if it is attempted, returns `INVALID_POINT` again, no
second validation is performed: the result is the point left by the first validation,
whose failed-test count and probation frame count exceed the values before the call by
at most one.  When the second-chance condition does not hold (the status after the
first validation is tracking, the first result is not `INVALID_POINT`, or the Z-ignored
delta magnitude is at most `secondChanceMinDistance`) the primitive is called exactly
once and the result is again the point left by the first validation; when it holds the
primitive is called exactly twice. -/
theorem C25_failed_second_chance (p : tracked_point)
    (_hfirst : ext.track_point_from_seed matrices (update_tracking_data p) = ext.INVALID_POINT)
    (hretry : ext.track_point_from_seed matrices
        (recover_tracking_data ext settings_ matrices
          (first_validation ext settings_ matrices p)) = ext.INVALID_POINT) :
    update_tracked_point ext settings_ matrices p = first_validation ext settings_ matrices p ∧
    (update_tracked_point ext settings_ matrices p).failedTestCount ≤ p.failedTestCount + 1 ∧
    (update_tracked_point ext settings_ matrices p).probationFrameCount
      ≤ p.probationFrameCount + 1 ∧
    (update_tracked_point ext settings_ matrices p).isInProbation
      = (first_validation ext settings_ matrices p).isInProbation ∧
    (update_tracked_point ext settings_ matrices p).trackingStatus
      = (first_validation ext settings_ matrices p).trackingStatus ∧
    (∀ q : tracked_point,
      ((first_validation ext settings_ matrices q).trackingStatus = tracking_status.tracking ∨
        ext.track_point_from_seed matrices (update_tracking_data q) ≠ ext.INVALID_POINT ∨
        ext.norm (xyDelta (first_validation ext settings_ matrices q))
          ≤ settings_.secondChanceMinDistance) →
      (update_tracked_point_requests ext settings_ matrices q).length = 1 ∧
      update_tracked_point ext settings_ matrices q
        = first_validation ext settings_ matrices q) ∧
    (∀ q : tracked_point,
      ¬ ((first_validation ext settings_ matrices q).trackingStatus = tracking_status.tracking ∨
        ext.track_point_from_seed matrices (update_tracking_data q) ≠ ext.INVALID_POINT ∨
        ext.norm (xyDelta (first_validation ext settings_ matrices q))
          ≤ settings_.secondChanceMinDistance) →
      (update_tracked_point_requests ext settings_ matrices q).length = 2) := by
  have hres : update_tracked_point ext settings_ matrices p
      = first_validation ext settings_ matrices p := by
    rw [update_tracked_point_eq]
    split_ifs with h1 h2
    · exact absurd hretry h2
    · rfl
    · rfl
  have hb := validate_counts_bound ext settings_ matrices
    { p with inactiveFrameCount := p.inactiveFrameCount + 1 }
    (ext.track_point_from_seed matrices (update_tracking_data p))
  refine ⟨hres, ?_, ?_, by rw [hres], by rw [hres], ?_, ?_⟩
  · rw [hres]; exact hb.1
  · rw [hres]; exact hb.2
  · intro q hq
    have hc : ¬ ((first_validation ext settings_ matrices q).trackingStatus
          ≠ tracking_status.tracking ∧
        ext.track_point_from_seed matrices (update_tracking_data q) = ext.INVALID_POINT ∧
        ext.norm (xyDelta (first_validation ext settings_ matrices q))
          > settings_.secondChanceMinDistance) := by
      rintro ⟨h1, h2, h3⟩
      rcases hq with h | h | h
      · exact h1 h
      · exact h h2
      · exact absurd h3 (not_lt.mpr h)
    constructor
    · rw [update_tracked_point_requests_eq, if_neg hc]; rfl
    · rw [update_tracked_point_eq, if_neg hc]
  · intro q hq
    have hc : (first_validation ext settings_ matrices q).trackingStatus
          ≠ tracking_status.tracking ∧
        ext.track_point_from_seed matrices (update_tracking_data q) = ext.INVALID_POINT ∧
        ext.norm (xyDelta (first_validation ext settings_ matrices q))
          > settings_.secondChanceMinDistance := by
      simp only [not_or, not_not, not_le] at hq
      exact ⟨hq.1, hq.2.1, hq.2.2⟩
    rw [update_tracked_point_requests_eq, if_pos hc]; rfl

/-- Witness of C25: the lost sample point in a frame where every seed growth fails. -/
theorem C25_failed_second_chance_witness :
    update_tracked_point sample_externals sample_settings sample_matrices lost_sample_point
      = first_validation sample_externals sample_settings sample_matrices lost_sample_point :=
  (C25_failed_second_chance sample_externals sample_settings sample_matrices
    lost_sample_point rfl rfl).1

end second_chance

/-! ## Distinct ids after merge and eviction -/

/-- C27: `remove_duplicate_points` preserves the pairwise distinctness of the tracking
ids of the non-dead points, and after the following `remove_stale_or_dead_points` pass
all points in the list have pairwise distinct tracking ids. -/
theorem C27_distinct_ids_after_merge_and_eviction (ext : externals)
    (settings_ : point_processor_settings) (pp : point_processor)
    (h : live_ids_distinct pp.trackedPoints_) :
    live_ids_distinct (remove_duplicate_points ext settings_ pp).trackedPoints_ ∧
    ((remove_stale_or_dead_points settings_
        (remove_duplicate_points ext settings_ pp)).trackedPoints_.map
      (fun p => p.trackingId)).Nodup := by
  have h1 : live_ids_distinct (remove_duplicate_points ext settings_ pp).trackedPoints_ := by
    show live_ids_distinct (remove_duplicate_points_list ext settings_ pp.trackedPoints_)
    rw [remove_duplicate_points_list_eq]
    exact live_ids_distinct_of_distinct_live _
      (merge_pairs_distinct_live ext settings_ _ _ (distinct_live_of_live_ids_distinct _ h))
  refine ⟨h1, ?_⟩
  have h2 : live_ids_distinct
      (remove_stale_or_dead_points settings_
        (remove_duplicate_points ext settings_ pp)).trackedPoints_ :=
    List.Pairwise.sublist (remove_stale_loop_sublist settings_ _ _) h1
  have h3 := (C11_eviction_removes_stale_and_dead settings_
    (remove_duplicate_points ext settings_ pp)).2.1
  unfold live_ids_distinct at h2
  rw [List.Nodup, List.pairwise_map]
  exact h2.imp_of_mem (fun ha hb hab => hab (h3 _ ha) (h3 _ hb))

/-- Witness of C27 on the processor with the candidate listed before the active point. -/
theorem C27_distinct_ids_after_merge_and_eviction_witness :
    live_ids_distinct
      (remove_duplicate_points sample_externals sample_settings
        candidate_first_processor).trackedPoints_ ∧
    ((remove_stale_or_dead_points sample_settings
        (remove_duplicate_points sample_externals sample_settings
          candidate_first_processor)).trackedPoints_.map
      (fun p => p.trackingId)).Nodup :=
  C27_distinct_ids_after_merge_and_eviction sample_externals sample_settings
    candidate_first_processor (by unfold live_ids_distinct; decide)

/-! ## Failed tests are counted only in probation -/

section clean

variable (ext : externals) (settings_ : point_processor_settings) (matrices : tracking_matrices)

theorem probation_check_clean (p : tracked_point) (h : probation_clean p) :
    probation_clean (probation_check settings_ p) := by
  cases hin : p.isInProbation
  · rw [probation_check_not_in settings_ p hin]; exact h
  · by_cases hf : probation_failed settings_ p
    · rw [probation_check_failed settings_ p hin hf]; exact fun _ => rfl
    · by_cases hc : (p.probationFrameCount : Int) + 1 ≤ settings_.probationFrameCount
      · rw [probation_check_continue settings_ p hin hf hc]
        intro h2
        simp only at h2
        rw [hin] at h2; cases h2
      · rw [probation_check_expired settings_ p hin hf (by omega)]; exact fun _ => rfl

theorem after_range_test_clean (v : Bool) (p : tracked_point) (h : probation_clean p) :
    probation_clean (after_range_test v p) := by
  unfold probation_clean at h ⊢
  unfold after_range_test start_probation
  cases v <;> cases hin : p.isInProbation <;> simp [hin] at h ⊢
  · split_ifs <;> simp [h]
  · split_ifs <;> simp

theorem validate_clean (p : tracked_point) (t : cv.Point) (h : probation_clean p) :
    probation_clean (validate_and_update_tracked_point ext settings_ matrices p t) := by
  by_cases hd : p.trackingStatus = tracking_status.dead
  · unfold validate_and_update_tracked_point
    rw [if_pos hd]; exact h
  · rw [validate_eq ext settings_ matrices p t hd]
    split_ifs
    · have := probation_check_clean settings_ _ (after_range_test_clean true p h)
      unfold probation_clean at this ⊢
      simpa using this
    · exact probation_check_clean settings_ _ (after_range_test_clean false p h)

theorem update_tracked_point_clean (p : tracked_point) (h : probation_clean p) :
    probation_clean (update_tracked_point ext settings_ matrices p) := by
  have h1 : probation_clean (first_validation ext settings_ matrices p) :=
    validate_clean ext settings_ matrices _ _ h
  rw [update_tracked_point_eq]
  split_ifs
  · exact validate_clean ext settings_ matrices _ _ h1
  · exact h1
  · exact h1

theorem update_trajectories_loop_clean :
    ∀ (l : List tracked_point) (tr : List (Int × trajectory_analyzer)),
      (∀ p ∈ l, probation_clean p) →
      ∀ p ∈ (update_trajectories_loop ext l tr).1, probation_clean p := by
  intro l
  induction l with
  | nil => intro tr _ p hp; cases hp
  | cons q rest ih =>
    intro tr h
    have hq := h q (List.mem_cons_self _ _)
    have hrest := fun tr2 => ih tr2 (fun p hp => h p (List.mem_cons_of_mem _ hp))
    unfold update_trajectories_loop
    dsimp only
    split
    · intro p hp
      rcases List.mem_cons.mp hp with rfl | hp
      · exact hq
      · exact hrest _ p hp
    · intro p hp
      rcases List.mem_cons.mp hp with rfl | hp
      · split_ifs
        · exact fun _ => rfl
        · exact hq
      · exact hrest _ p hp

theorem absorb_probation (a b : tracked_point) :
    (absorb a b).isInProbation = a.isInProbation ∧
    (absorb a b).failedTestCount = a.failedTestCount := by
  unfold absorb; dsimp only; split_ifs <;> exact ⟨rfl, rfl⟩

theorem merge_step_probation_from (l : List tracked_point) (i j : Nat) :
    probation_from l (merge_step ext settings_ l i j) := by
  rcases merge_step_cases ext settings_ l i j with ⟨h, _⟩ | ⟨a, b, hi, hj, _, _, _, _, _, h⟩
  · rw [h]; exact fun p hp => ⟨p, hp, rfl, rfl⟩
  · rw [h]
    have ha : a ∈ l := List.getElem?_mem hi
    have hb : b ∈ l := List.getElem?_mem hj
    intro p hp
    rcases List.mem_or_eq_of_mem_set hp with hp | rfl
    · rcases List.mem_or_eq_of_mem_set hp with hp | rfl
      · exact ⟨p, hp, rfl, rfl⟩
      · exact ⟨a, ha, (absorb_probation a b).1, (absorb_probation a b).2⟩
    · exact ⟨b, hb, rfl, rfl⟩

theorem merge_pairs_clean (ps : List (Nat × Nat)) :
    ∀ l : List tracked_point, (∀ p ∈ l, probation_clean p) →
      ∀ p ∈ merge_pairs ext settings_ l ps, probation_clean p := by
  induction ps with
  | nil => intro l h; exact h
  | cons x rest ih =>
    intro l h
    simp only [merge_pairs, List.foldl_cons]
    refine ih _ ?_
    intro p hp
    obtain ⟨q, hq, e1, e2⟩ := merge_step_probation_from ext settings_ l x.1 x.2 p hp
    have := h q hq
    unfold probation_clean at this ⊢
    rw [e1, e2]; exact this

theorem match_existing_loop_clean (targetPoint : cv.Point) (worldPosition : cv.Point3f) :
    ∀ l : List tracked_point, (∀ p ∈ l, probation_clean p) →
      ∀ p ∈ (match_existing_loop ext settings_ matrices targetPoint worldPosition l).1,
        probation_clean p := by
  intro l
  induction l with
  | nil => intro _ p hp; cases hp
  | cons q rest ih =>
    intro h
    have hq := h q (List.mem_cons_self _ _)
    have hrest := ih (fun p hp => h p (List.mem_cons_of_mem _ hp))
    have hm : ∀ x : tracked_point, probation_clean x →
        probation_clean { start_probation x with trackingStatus := tracking_status.tracking } := by
      intro x hx
      unfold probation_clean at hx ⊢
      unfold start_probation
      split_ifs <;> simp_all
    unfold match_existing_loop
    dsimp only
    split_ifs
    all_goals
      intro p hp
      rcases List.mem_cons.mp hp with rfl | hp
      · first
          | exact hq
          | exact hm _ hq
      · first
          | exact hrest p hp
          | exact h p (List.mem_cons_of_mem _ hp)

/-- C28: the invariant that a point not in probation has `failedTestCount = 0` is
preserved by `validate_and_update_tracked_point` and `update_tracked_point` on a point,
and by `update_trajectories`, `remove_duplicate_points` and the create cycle on every
point of the list (the `tracked_point` constructor is assumed to return a point that
satisfies the invariant). -/
theorem C28_failed_tests_only_in_probation (pp : point_processor) (seedPosition : cv.Point)
    (p : tracked_point) (t : cv.Point)
    (hp : probation_clean p)
    (hl : ∀ q ∈ pp.trackedPoints_, probation_clean q)
    (hctor : ∀ t w i, probation_clean (ext.new_tracked_point t w i)) :
    probation_clean (validate_and_update_tracked_point ext settings_ matrices p t) ∧
    probation_clean (update_tracked_point ext settings_ matrices p) ∧
    (∀ q ∈ (update_trajectories ext pp).trackedPoints_, probation_clean q) ∧
    (∀ q ∈ (remove_duplicate_points ext settings_ pp).trackedPoints_, probation_clean q) ∧
    (∀ q ∈ (update_tracked_or_create_new_point_from_seed ext settings_ matrices pp
        seedPosition).trackedPoints_, probation_clean q) := by
  refine ⟨validate_clean ext settings_ matrices p t hp,
    update_tracked_point_clean ext settings_ matrices p hp,
    update_trajectories_loop_clean ext _ _ hl, ?_, ?_⟩
  · show ∀ q ∈ remove_duplicate_points_list ext settings_ pp.trackedPoints_, _
    rw [remove_duplicate_points_list_eq]
    exact merge_pairs_clean ext settings_ _ _ hl
  · have hm := match_existing_loop_clean ext settings_ matrices
      (create_target ext matrices seedPosition) (create_world ext matrices seedPosition)
      pp.trackedPoints_ hl
    unfold create_world create_target at hm
    unfold update_tracked_or_create_new_point_from_seed
    dsimp only
    split_ifs
    · exact hl
    · exact hl
    · intro q hq
      rcases List.mem_append.mp hq with hq | hq
      · exact hm q hq
      · rw [List.mem_singleton] at hq
        rw [hq]
        exact hctor _ _ _
    · exact hm

/-- Witness of C28 on the sample point, the sample processor and the seed (100, 0). -/
theorem C28_failed_tests_only_in_probation_witness :
    probation_clean
      (validate_and_update_tracked_point recovering_externals sample_settings sample_matrices
        sample_point ⟨-1, -1⟩) :=
  (C28_failed_tests_only_in_probation recovering_externals sample_settings sample_matrices
    sample_processor ⟨100, 0⟩ sample_point ⟨-1, -1⟩ (fun _ => rfl)
    (by unfold probation_clean; decide) (fun _ _ _ _ => rfl)).1

end clean

/-! ## The order of updates in one frame -/

section update_order

variable (ext : externals) (settings_ : point_processor_settings) (matrices : tracking_matrices)

theorem update_tracked_point_pointType (p : tracked_point) :
    (update_tracked_point ext settings_ matrices p).pointType = p.pointType := by
  have hv : ∀ (q : tracked_point) (t : cv.Point),
      (validate_and_update_tracked_point ext settings_ matrices q t).pointType = q.pointType := by
    intro q t
    by_cases hd : q.trackingStatus = tracking_status.dead
    · unfold validate_and_update_tracked_point; rw [if_pos hd]
    · rw [validate_eq ext settings_ matrices q t hd]
      have key : ∀ v, (probation_check settings_ (after_range_test v q)).pointType
          = q.pointType := by
        intro v
        rw [probation_check_frame settings_ (after_range_test v q)]
        dsimp only
        rw [after_range_test_frame v q]
      split_ifs
      · simpa using key true
      · exact key false
  have h1 : (first_validation ext settings_ matrices p).pointType = p.pointType := hv _ _
  rw [update_tracked_point_eq]
  split_ifs
  · rw [hv, h1]
  · exact h1
  · exact h1

theorem mem_indices_where (P : tracked_point → Bool) :
    ∀ (l : List tracked_point) (k j : Nat),
      j ∈ indices_where P k l ↔
        ∃ (i : Nat) (p : tracked_point), j = k + i ∧ l[i]? = some p ∧ P p = true := by
  intro l
  induction l with
  | nil => intro k j; simp [indices_where]
  | cons q rest ih =>
    intro k j
    unfold indices_where
    constructor
    · intro h
      by_cases hq : P q = true
      · rw [if_pos hq] at h
        rcases List.mem_cons.mp h with rfl | h
        · exact ⟨0, q, rfl, by simp, hq⟩
        · obtain ⟨i, p, e, hp, hP⟩ := (ih (k + 1) j).mp h
          exact ⟨i + 1, p, by omega, by simpa using hp, hP⟩
      · rw [if_neg hq] at h
        obtain ⟨i, p, e, hp, hP⟩ := (ih (k + 1) j).mp h
        exact ⟨i + 1, p, by omega, by simpa using hp, hP⟩
    · rintro ⟨i, p, e, hp, hP⟩
      cases i with
      | zero =>
        simp only [List.getElem?_cons_zero, Option.some.injEq] at hp
        subst hp
        rw [if_pos hP, e]
        exact List.mem_cons_self _ _
      | succ n =>
        simp only [List.getElem?_cons_succ] at hp
        have hm : j ∈ indices_where P (k + 1) rest :=
          (ih (k + 1) j).mpr ⟨n, p, by omega, hp, hP⟩
        split_ifs
        · exact List.mem_cons_of_mem _ hm
        · exact hm

theorem indices_where_sorted (P : tracked_point → Bool) :
    ∀ (l : List tracked_point) (k : Nat), (indices_where P k l).Pairwise (· < ·) := by
  intro l
  induction l with
  | nil => intro k; exact List.Pairwise.nil
  | cons q rest ih =>
    intro k
    unfold indices_where
    split_ifs
    · refine List.Pairwise.cons ?_ (ih _)
      intro j hj
      obtain ⟨i, _, e, _, _⟩ := (mem_indices_where P rest (k + 1) j).mp hj
      omega
    · exact ih _

/-- The first loop invokes the update exactly on the active points, in list order. -/
theorem update_active_loop_log :
    ∀ (l : List tracked_point) (k : Nat),
      (update_active_loop ext settings_ matrices k l).2 = indices_where is_active k l := by
  intro l
  induction l with
  | nil => intro k; rfl
  | cons q rest ih =>
    intro k
    unfold update_active_loop indices_where is_active
    dsimp only
    by_cases hq : q.pointType = tracked_point_type.active_point
    · simp only [hq, if_true, decide_True]
      rw [ih]; rfl
    · simp only [hq, if_false, decide_False, Bool.false_eq_true]
      rw [ih]; rfl

/-- The first loop replaces every active point by its update and keeps the others. -/
theorem update_active_loop_points :
    ∀ (l : List tracked_point) (k : Nat),
      (update_active_loop ext settings_ matrices k l).1 =
        l.map (fun p => if is_active p = true then update_tracked_point ext settings_ matrices p
          else p) := by
  intro l
  induction l with
  | nil => intro k; rfl
  | cons q rest ih =>
    intro k
    unfold update_active_loop is_active
    dsimp only
    by_cases hq : q.pointType = tracked_point_type.active_point
    · simp only [hq, if_true, decide_True, List.map_cons]
      rw [ih]; rfl
    · simp only [hq, if_false, decide_False, Bool.false_eq_true, List.map_cons]
      rw [ih]; rfl

/-- The second loop invokes the update only on non-active points, in list order, and
the resulting list holds the update at exactly the logged positions. -/
theorem update_candidate_loop_spec :
    ∀ (l : List tracked_point) (k : Nat) (n : Int),
      List.Sublist (update_candidate_loop ext settings_ matrices k n l).2
        (indices_where (fun p => !is_active p) k l) ∧
      ∀ (i : Nat) (p : tracked_point), l[i]? = some p →
        (update_candidate_loop ext settings_ matrices k n l).1[i]? =
          some (if k + i ∈ (update_candidate_loop ext settings_ matrices k n l).2 then
            update_tracked_point ext settings_ matrices p else p) := by
  intro l
  induction l with
  | nil => intro k n; exact ⟨List.Sublist.slnil, fun i p h => by simp at h⟩
  | cons q rest ih =>
    intro k n
    obtain ⟨ih1, ih2⟩ := ih (k + 1) (n + 1)
    have hge : ∀ j ∈ (update_candidate_loop ext settings_ matrices (k + 1) (n + 1) rest).2,
        k + 1 ≤ j := by
      intro j hj
      obtain ⟨i, _, e, _, _⟩ := (mem_indices_where _ rest (k + 1) j).mp (ih1.subset hj)
      omega
    unfold update_candidate_loop indices_where is_active
    dsimp only
    by_cases hq : q.pointType = tracked_point_type.active_point
    · simp only [hq, ne_eq, not_true_eq_false, if_false, decide_True, Bool.not_true,
        Bool.false_eq_true, List.nil_append]
      split_ifs with hcap
      · refine ⟨List.nil_sublist _, ?_⟩
        intro i p hp
        simp only [List.not_mem_nil, if_false]
        exact hp
      · refine ⟨ih1, ?_⟩
        intro i p hp
        cases i with
        | zero =>
          simp only [List.getElem?_cons_zero, Option.some.injEq] at hp ⊢
          subst hp
          rw [if_neg]
          intro hmem
          have := hge _ hmem
          omega
        | succ m =>
          simp only [List.getElem?_cons_succ] at hp ⊢
          rw [ih2 m p hp]
          have e : k + 1 + m = k + (m + 1) := by omega
          rw [e]
    · simp only [hq, ne_eq, not_false_eq_true, if_true, decide_False, Bool.not_false]
      split_ifs with hcap
      · refine ⟨List.Sublist.cons₂ _ (List.nil_sublist _), ?_⟩
        intro i p hp
        cases i with
        | zero =>
          simp only [List.getElem?_cons_zero, Option.some.injEq] at hp ⊢
          subst hp
          simp
        | succ m =>
          simp only [List.getElem?_cons_succ] at hp ⊢
          rw [hp]
          simp only [List.mem_singleton]
          rw [if_neg (by omega)]
      · refine ⟨List.Sublist.cons₂ _ ih1, ?_⟩
        intro i p hp
        cases i with
        | zero =>
          simp only [List.getElem?_cons_zero, Option.some.injEq] at hp ⊢
          subst hp
          simp
        | succ m =>
          simp only [List.getElem?_cons_succ] at hp ⊢
          rw [ih2 m p hp]
          have e : k + 1 + m = k + (m + 1) := by omega
          rw [e]
          have hiff : k + (m + 1) ∈
              [k] ++ (update_candidate_loop ext settings_ matrices (k + 1) (n + 1) rest).2 ↔
              k + (m + 1) ∈
                (update_candidate_loop ext settings_ matrices (k + 1) (n + 1) rest).2 := by
            simp only [List.singleton_append, List.mem_cons]
            constructor
            · rintro (h | h)
              · omega
              · exact h
            · exact Or.inr
          simp only [hiff]

/-- C22: in one `update_tracked_points` call the log of invocations of
`update_tracked_point` consists of the positions of the active points followed by
positions of non-active points; every active point is invoked exactly once, no position
occurs twice, and the resulting list holds the update of a point exactly at the logged
positions.  No assumption is made on `maxhandpointUpdatesPerFrame`. -/
theorem C22_active_points_updated_first (l : List tracked_point) :
    (∀ (i : Nat) (p : tracked_point), l[i]? = some p →
      p.pointType = tracked_point_type.active_point →
      (update_tracked_points_traced ext settings_ matrices l).2.count i = 1) ∧
    (update_tracked_points_traced ext settings_ matrices l).2.Nodup ∧
    (∃ la lc : List Nat,
      (update_tracked_points_traced ext settings_ matrices l).2 = la ++ lc ∧
      (∀ i ∈ la, ∃ p : tracked_point, l[i]? = some p ∧
        p.pointType = tracked_point_type.active_point) ∧
      (∀ i ∈ lc, ∃ p : tracked_point, l[i]? = some p ∧
        p.pointType ≠ tracked_point_type.active_point)) ∧
    (∀ (i : Nat) (p : tracked_point), l[i]? = some p →
      (update_tracked_points_traced ext settings_ matrices l).1[i]? =
        some (if i ∈ (update_tracked_points_traced ext settings_ matrices l).2 then
          update_tracked_point ext settings_ matrices p else p)) := by
  have ha2 := update_active_loop_log ext settings_ matrices l 0
  have ha1 := update_active_loop_points ext settings_ matrices l 0
  obtain ⟨hc2, hc1⟩ := update_candidate_loop_spec ext settings_ matrices
    (update_active_loop ext settings_ matrices 0 l).1 0 0
  -- membership in the two parts of the log
  have hla : ∀ i, i ∈ (update_active_loop ext settings_ matrices 0 l).2 ↔
      ∃ p : tracked_point, l[i]? = some p ∧ p.pointType = tracked_point_type.active_point := by
    intro i
    rw [ha2, mem_indices_where]
    constructor
    · rintro ⟨j, p, e, hp, hP⟩
      have : i = j := by omega
      subst this
      exact ⟨p, hp, by simpa [is_active] using hP⟩
    · rintro ⟨p, hp, hP⟩
      exact ⟨i, p, by omega, hp, by simpa [is_active] using hP⟩
  have hlc : ∀ i, i ∈ (update_candidate_loop ext settings_ matrices 0 0
      (update_active_loop ext settings_ matrices 0 l).1).2 →
      ∃ p : tracked_point, l[i]? = some p ∧ p.pointType ≠ tracked_point_type.active_point := by
    intro i hi
    obtain ⟨j, q, e, hq, hP⟩ := (mem_indices_where _ _ 0 i).mp (hc2.subset hi)
    have : i = j := by omega
    subst this
    rw [ha1, List.getElem?_map] at hq
    cases hp : l[i]? with
    | none => rw [hp] at hq; simp at hq
    | some p =>
      rw [hp] at hq
      simp only [Option.map_some', Option.some.injEq] at hq
      refine ⟨p, rfl, ?_⟩
      intro hact
      have hq2 : q.pointType = tracked_point_type.active_point := by
        rw [← hq]
        split_ifs
        · rw [update_tracked_point_pointType]; exact hact
        · exact hact
      simp [is_active, hq2] at hP
  have hnda : (update_active_loop ext settings_ matrices 0 l).2.Nodup := by
    rw [ha2]
    exact (indices_where_sorted is_active l 0).imp (fun h => Nat.ne_of_lt h)
  have hndc : (update_candidate_loop ext settings_ matrices 0 0
      (update_active_loop ext settings_ matrices 0 l).1).2.Nodup :=
    List.Nodup.sublist hc2
      ((indices_where_sorted _ _ 0).imp (fun h => Nat.ne_of_lt h))
  have hdisj : ∀ i, i ∈ (update_active_loop ext settings_ matrices 0 l).2 →
      i ∈ (update_candidate_loop ext settings_ matrices 0 0
        (update_active_loop ext settings_ matrices 0 l).1).2 → False := by
    intro i h1 h2
    obtain ⟨p, hp, hact⟩ := (hla i).mp h1
    obtain ⟨q, hq, hnact⟩ := hlc i h2
    rw [hp] at hq
    injection hq with hq
    subst hq
    exact hnact hact
  refine ⟨?_, ?_, ⟨_, _, rfl, fun i hi => (hla i).mp hi, hlc⟩, ?_⟩
  · intro i p hp hact
    show List.count i (_ ++ _) = 1
    rw [List.count_append, List.count_eq_one_of_mem hnda ((hla i).mpr ⟨p, hp, hact⟩),
      List.count_eq_zero_of_not_mem (fun h => hdisj i ((hla i).mpr ⟨p, hp, hact⟩) h)]
  · show (_ ++ _ : List Nat).Nodup
    rw [List.nodup_append]
    exact ⟨hnda, hndc, fun i h1 h2 => hdisj i h1 h2⟩
  · intro i p hp
    show (update_candidate_loop ext settings_ matrices 0 0
      (update_active_loop ext settings_ matrices 0 l).1).1[i]? = some (if i ∈ _ ++ _ then _ else _)
    have hai : (update_active_loop ext settings_ matrices 0 l).1[i]? =
        some (if is_active p = true then update_tracked_point ext settings_ matrices p else p) := by
      rw [ha1, List.getElem?_map, hp]; rfl
    rw [hc1 i _ hai]
    simp only [Nat.zero_add, List.mem_append]
    by_cases hact : p.pointType = tracked_point_type.active_point
    · have h1 : i ∈ (update_active_loop ext settings_ matrices 0 l).2 :=
        (hla i).mpr ⟨p, hp, hact⟩
      have h2 : i ∉ (update_candidate_loop ext settings_ matrices 0 0
          (update_active_loop ext settings_ matrices 0 l).1).2 := fun h => hdisj i h1 h
      simp [h1, h2, is_active, hact]
    · have h1 : i ∉ (update_active_loop ext settings_ matrices 0 l).2 := by
        intro h
        obtain ⟨q, hq, hq2⟩ := (hla i).mp h
        rw [hp] at hq; injection hq with hq; subst hq
        exact hact hq2
      simp [h1, is_active, hact]

end update_order

/-! ## Stream reader listeners -/

/-- C30 fails on the code: after `addListener(0)`, a notification in which listener 0
calls `addListener(1)`, and two further notifications, `listeners_` is `[0, 1, 1]` and
listener 1 receives `on_frame_ready` twice in the third notification:
`notify_listeners` appends `addedListeners_` to `listeners_` on every call and never
clears it. -/
theorem C30_listener_notified_twice :
    ((((new_reader_ref.addListener 0).notify_listeners registering_listener).1.notify_listeners
        registering_listener).1.notify_listeners registering_listener).1.listeners_
      = [0, 1, 1] ∧
    ((((new_reader_ref.addListener 0).notify_listeners registering_listener).1.notify_listeners
        registering_listener).1.notify_listeners registering_listener).2 = [0, 1, 1] ∧
    (((new_reader_ref.addListener 0).notify_listeners registering_listener).1.notify_listeners
        registering_listener).2 = [0, 1] ∧
    (((new_reader_ref.addListener 0).notify_listeners registering_listener).1.notify_listeners
        registering_listener).1.addedListeners_ = [1] := by
  decide

/-! ## The logged merge -/

section merge_log

variable (ext : externals) (settings_ : point_processor_settings)

theorem merge_fires_false (l : List tracked_point) (i j : Nat)
    (h : merge_fires ext settings_ l i j = false) : merge_step ext settings_ l i j = l := by
  rcases merge_step_cases ext settings_ l i j with ⟨h1, _⟩ | ⟨a, b, hi, hj, _, hid, hda, hdb, hn, _⟩
  · exact h1
  · exfalso
    unfold merge_fires at h
    rw [hi, hj] at h
    simp only [decide_eq_false_iff_not] at h
    exact h ⟨hid, ⟨hda, hdb⟩, hn⟩

theorem merge_fires_true (l : List tracked_point) (i j : Nat)
    (h : merge_fires ext settings_ l i j = true) :
    ∃ a b : tracked_point, l[i]? = some a ∧ l[j]? = some b ∧ i ≠ j ∧
      a.trackingStatus ≠ tracking_status.dead ∧ b.trackingStatus ≠ tracking_status.dead ∧
      near ext settings_ a b ∧
      merge_step ext settings_ l i j =
        (l.set i (absorb a b)).set j { b with trackingStatus := tracking_status.dead } := by
  rcases merge_step_cases ext settings_ l i j with ⟨_, hno⟩ | ⟨a, b, hi, hj, hij, _, hda, hdb, hn, hs⟩
  · exfalso
    unfold merge_fires at h
    cases hi : l[i]? with
    | none => rw [hi] at h; simp at h
    | some a =>
      cases hj : l[j]? with
      | none => rw [hi, hj] at h; simp at h
      | some b =>
        rw [hi, hj] at h
        simp only [decide_eq_true_eq] at h
        exact hno a b hi hj h
  · exact ⟨a, b, hi, hj, hij, hda, hdb, hn, hs⟩

/-- Reading the list after a fired loop body. -/
theorem fired_lookup (l : List tracked_point) (i j k : Nat) (x y : tracked_point)
    (hi : i < l.length) (hj : j < l.length) :
    ((l.set i x).set j y)[k]? =
      if j = k then some y else if i = k then some x else l[k]? := by
  by_cases hjk : j = k
  · subst hjk
    rw [if_pos rfl, List.getElem?_set_self (by simpa using hj)]
  · rw [if_neg hjk, List.getElem?_set_ne hjk]
    by_cases hik : i = k
    · subst hik
      rw [if_pos rfl, List.getElem?_set_self hi]
    · rw [if_neg hik, List.getElem?_set_ne hik]

theorem merge_run_fst (ps : List (Nat × Nat)) :
    ∀ st : List tracked_point × List (Nat × Nat),
      (ps.foldl (merge_run_step ext settings_) st).1 = merge_pairs ext settings_ st.1 ps := by
  induction ps with
  | nil => intro st; rfl
  | cons x rest ih =>
    intro st
    simp only [List.foldl_cons, merge_pairs]
    rw [ih]
    rfl

theorem merge_run_points (l : List tracked_point) (ps : List (Nat × Nat)) :
    (merge_run ext settings_ l ps).1 = merge_pairs ext settings_ l ps :=
  merge_run_fst ext settings_ ps (l, [])

theorem merge_run_snoc (l : List tracked_point) (ps : List (Nat × Nat)) (x : Nat × Nat) :
    merge_run ext settings_ l (ps ++ [x]) =
      merge_run_step ext settings_ (merge_run ext settings_ l ps) x := by
  unfold merge_run
  rw [List.foldl_append]
  rfl

theorem mem_all_pairs_iff (n : Nat) (x : Nat × Nat) :
    x ∈ all_pairs n ↔ x.1 < n ∧ x.2 < n := by
  unfold all_pairs
  simp only [List.mem_flatMap, List.mem_range, List.mem_map]
  constructor
  · rintro ⟨i, hi, j, hj, rfl⟩
    exact ⟨hi, hj⟩
  · rintro ⟨h1, h2⟩
    exact ⟨x.1, h1, x.2, h2, rfl⟩

/-- The nested loops visit the pairs in lexicographic order. -/
theorem all_pairs_ordered (n : Nat) : (all_pairs n).Pairwise pair_before := by
  unfold all_pairs
  rw [List.pairwise_flatMap]
  constructor
  · intro i _
    rw [List.pairwise_map]
    exact (List.pairwise_lt_range n).imp (fun h => Or.inr ⟨rfl, h⟩)
  · refine (List.pairwise_lt_range n).imp ?_
    intro a b hab x hx y hy
    simp only [List.mem_map, List.mem_range] at hx hy
    obtain ⟨_, _, rfl⟩ := hx
    obtain ⟨_, _, rfl⟩ := hy
    exact Or.inl hab

/-- In a prefix of the visiting order that ends with `x`: every earlier pair comes
before `x`, and if `x = (i, j)` with `j < i` then `(j, i)` was visited earlier. -/
theorem prefix_order (n : Nat) (ps : List (Nat × Nat)) (x : Nat × Nat)
    (hpre : ps ++ [x] <+: all_pairs n) :
    (∀ y ∈ ps, pair_before y x) ∧ (x.2 < x.1 → (x.2, x.1) ∈ ps) := by
  obtain ⟨t, ht⟩ := hpre
  have hord := all_pairs_ordered n
  rw [← ht, List.pairwise_append] at hord
  obtain ⟨h1, _, h3⟩ := hord
  rw [List.pairwise_append] at h1
  refine ⟨fun y hy => h1.2.2 y hy x (List.mem_singleton_self x), ?_⟩
  intro hlt
  have hx : x ∈ all_pairs n := by
    rw [← ht]; simp
  have hb := (mem_all_pairs_iff n x).mp hx
  have hm : (x.2, x.1) ∈ all_pairs n := (mem_all_pairs_iff n _).mpr ⟨hb.2, hb.1⟩
  rw [← ht] at hm
  rcases List.mem_append.mp hm with hm | hm
  · rcases List.mem_append.mp hm with hm | hm
    · exact hm
    · rw [List.mem_singleton] at hm
      have := congrArg Prod.fst hm
      simp only at this
      omega
  · have := h3 x (by simp) _ hm
    unfold pair_before at this
    simp only at this
    omega

theorem absorb_inactiveFrameCount (a b : tracked_point) :
    (absorb a b).inactiveFrameCount = min a.inactiveFrameCount b.inactiveFrameCount := by
  unfold absorb; dsimp only; split_ifs <;> rfl

theorem absorb_active_of_other (a b : tracked_point)
    (h : b.pointType = tracked_point_type.active_point) :
    (absorb a b).pointType = tracked_point_type.active_point := by
  unfold absorb
  dsimp only
  by_cases ha : a.pointType = tracked_point_type.active_point
  · simp [ha]
  · simp [h, ha]

theorem absorb_active_of_self (a b : tracked_point)
    (h : a.pointType = tracked_point_type.active_point) :
    (absorb a b).pointType = tracked_point_type.active_point := by
  unfold absorb
  dsimp only
  simp [h]

theorem filter_first_eq_nil (log : List (Nat × Nat)) (k : Nat) (h : ∀ x ∈ log, x.1 ≠ k) :
    log.filter (fun x => decide (x.1 = k)) = [] := by
  rw [List.filter_eq_nil_iff]
  intro x hx
  simpa using h x hx

/-- One fired loop body preserves `merge_inv`. -/
theorem merge_inv_fire (l0 l1 : List tracked_point) (log ps : List (Nat × Nat))
    (x : Nat × Nat)
    (hsym : ∀ a b : tracked_point, near ext settings_ a b → near ext settings_ b a)
    (hev : evolves l0 l1)
    (hsub : ∀ y ∈ log, y ∈ ps)
    (hinv : merge_inv ext settings_ l0 l1 log)
    (hbefore : ∀ y ∈ ps, pair_before y x)
    (hsep : x.2 < x.1 → separated ext settings_ l1 x.2 x.1)
    (hfire : merge_fires ext settings_ l1 x.1 x.2 = true) :
    merge_inv ext settings_ l0 (merge_step ext settings_ l1 x.1 x.2) (log ++ [x]) := by
  obtain ⟨a, b, hi, hj, hij, hda, hdb, hn, hstep⟩ :=
    merge_fires_true ext settings_ l1 x.1 x.2 hfire
  obtain ⟨I1, I2, I2t, I3, I5, I4⟩ := hinv
  have hilen : x.1 < l1.length := (List.getElem?_eq_some_iff.mp hi).1
  have hjlen : x.2 < l1.length := (List.getElem?_eq_some_iff.mp hj).1
  have hlt : x.1 < x.2 := by
    by_contra hnot
    have hback : x.2 < x.1 := by omega
    rcases hsep hback b a hj hi with h | h | h
    · exact hdb h
    · exact hda h
    · exact h (hsym a b hn)
  have hnoj : ∀ y ∈ log, y.1 ≠ x.2 := by
    intro y hy
    have := hbefore y (hsub y hy)
    unfold pair_before at this
    omega
  have hL : ∀ k, (merge_step ext settings_ l1 x.1 x.2)[k]? =
      if x.2 = k then some { b with trackingStatus := tracking_status.dead }
      else if x.1 = k then some (absorb a b) else l1[k]? := by
    intro k
    rw [hstep]
    exact fired_lookup l1 x.1 x.2 k _ _ hilen hjlen
  obtain ⟨b0, hb0, _, _⟩ := evolves_back hev x.2 b hj
  have hbcount : b.inactiveFrameCount = b0.inactiveFrameCount := by
    have := I2 x.2 b0 b hb0 hj
    rw [filter_first_eq_nil log x.2 hnoj] at this
    simpa using this
  have hbtype : b.pointType = b0.pointType := I2t x.2 b0 b hb0 hj hnoj
  have hxeta : x = (x.1, x.2) := rfl
  refine ⟨?_, ?_, ?_, ?_, ?_, ?_⟩
  · -- logged pairs go forward
    intro y hy
    rcases List.mem_append.mp hy with hy | hy
    · exact I1 y hy
    · rw [List.mem_singleton] at hy
      rw [hy]; exact hlt
  · -- inactivity counts
    intro k a0 a1 h0 h1
    rw [hL k] at h1
    rw [List.filter_append]
    by_cases hjk : x.2 = k
    · rw [if_pos hjk] at h1
      injection h1 with h1
      subst h1
      have hx : ([x].filter (fun y => decide (y.1 = k))) = [] := by
        rw [List.filter_eq_nil_iff]
        intro y hy
        rw [List.mem_singleton] at hy
        simp only [decide_eq_true_eq]
        rw [hy]; omega
      rw [hx, List.append_nil]
      rw [← hjk] at h0 ⊢
      exact I2 x.2 a0 b h0 hj
    · rw [if_neg hjk] at h1
      by_cases hik : x.1 = k
      · rw [if_pos hik] at h1
        injection h1 with h1
        subst h1
        have hx : ([x].filter (fun y => decide (y.1 = k))) = [x] := by
          rw [List.filter_eq_self]
          intro y hy
          rw [List.mem_singleton] at hy
          simp only [decide_eq_true_eq]
          rw [hy]; exact hik
        rw [hx, List.map_append, List.foldl_append]
        simp only [List.map_cons, List.map_nil, List.foldl_cons, List.foldl_nil]
        rw [← hik] at h0 ⊢
        rw [← I2 x.1 a0 a h0 hi]
        unfold min_with_count
        rw [hb0, absorb_inactiveFrameCount, hbcount]
      · rw [if_neg hik] at h1
        have hx : ([x].filter (fun y => decide (y.1 = k))) = [] := by
          rw [List.filter_eq_nil_iff]
          intro y hy
          rw [List.mem_singleton] at hy
          simp only [decide_eq_true_eq]
          rw [hy]; exact hik
        rw [hx, List.append_nil]
        exact I2 k a0 a1 h0 h1
  · -- point types of positions that never absorbed
    intro k a0 a1 h0 h1 hno
    have hik : x.1 ≠ k := hno x (List.mem_append_right _ (List.mem_singleton_self x))
    have hno2 : ∀ y ∈ log, y.1 ≠ k := fun y hy => hno y (List.mem_append_left _ hy)
    rw [hL k] at h1
    by_cases hjk : x.2 = k
    · rw [if_pos hjk] at h1
      injection h1 with h1
      subst h1
      rw [← hjk] at h0
      show b.pointType = a0.pointType
      exact I2t x.2 a0 b h0 hj hnoj
    · rw [if_neg hjk, if_neg hik] at h1
      exact I2t k a0 a1 h0 h1 hno2
  · -- absorbers are alive
    intro y hy a1 h1
    rw [hL y.1] at h1
    have hyj : x.2 ≠ y.1 := by
      rcases List.mem_append.mp hy with hy | hy
      · exact fun e => hnoj y hy e.symm
      · rw [List.mem_singleton] at hy
        rw [hy]; omega
    rw [if_neg hyj] at h1
    by_cases hik : x.1 = y.1
    · rw [if_pos hik] at h1
      injection h1 with h1
      subst h1
      rw [absorb_trackingStatus]; exact hda
    · rw [if_neg hik] at h1
      rcases List.mem_append.mp hy with hy | hy
      · exact I3 y hy a1 h1
      · rw [List.mem_singleton] at hy
        exact absurd (by rw [hy]) hik
  · -- absorbed positions are dead
    intro y hy b1 h1
    rw [hL y.2] at h1
    by_cases hjk : x.2 = y.2
    · rw [if_pos hjk] at h1
      injection h1 with h1
      subst h1
      rfl
    · rw [if_neg hjk] at h1
      rcases List.mem_append.mp hy with hy | hy
      · by_cases hik : x.1 = y.2
        · exfalso
          have := I5 y hy a (by rw [← hik]; exact hi)
          exact hda this
        · rw [if_neg hik] at h1
          exact I5 y hy b1 h1
      · rw [List.mem_singleton] at hy
        exact absurd (by rw [hy]) hjk
  · -- every point that died has a live absorber
    intro j2 c0 c1 h0 hal h1 hdead
    rw [hL j2] at h1
    by_cases hjk : x.2 = j2
    · rw [if_pos hjk] at h1
      injection h1 with h1
      subst h1
      rw [← hjk] at h0
      rw [hb0] at h0
      injection h0 with h0
      subst h0
      refine ⟨x.1, absorb a b, ?_, ?_, ?_, ?_⟩
      · rw [← hjk]
        exact List.mem_append_right _ (List.mem_singleton_self x)
      · rw [hL x.1, if_neg (fun e => hij e.symm), if_pos rfl]
      · unfold near at hn ⊢
        rw [absorb_worldPosition]; exact hn
      · intro hact
        exact absorb_active_of_other a b (hbtype.trans hact)
    · rw [if_neg hjk] at h1
      by_cases hik : x.1 = j2
      · rw [if_pos hik] at h1
        injection h1 with h1
        subst h1
        rw [absorb_trackingStatus] at hdead
        exact absurd hdead hda
      · rw [if_neg hik] at h1
        obtain ⟨i2, a2, hmem, hl, hnear, htype⟩ := I4 j2 c0 c1 h0 hal h1 hdead
        have hi2j : x.2 ≠ i2 := fun e => hnoj (i2, j2) hmem e.symm
        by_cases hi2 : x.1 = i2
        · refine ⟨i2, absorb a b, List.mem_append_left _ hmem, ?_, ?_, ?_⟩
          · rw [hL i2, if_neg hi2j, if_pos hi2]
          · rw [← hi2, hi] at hl
            injection hl with hl
            subst hl
            unfold near at hnear ⊢
            rw [absorb_worldPosition]; exact hnear
          · intro hact
            rw [← hi2, hi] at hl
            injection hl with hl
            subst hl
            exact absorb_active_of_self a b (htype hact)
        · refine ⟨i2, a2, List.mem_append_left _ hmem, ?_, hnear, htype⟩
          rw [hL i2, if_neg hi2j, if_neg hi2]; exact hl

theorem merge_inv_start (l0 : List tracked_point) : merge_inv ext settings_ l0 l0 [] := by
  refine ⟨?_, ?_, ?_, ?_, ?_, ?_⟩
  · intro x hx; cases hx
  · intro k a0 a1 h0 h1
    rw [h0] at h1
    injection h1 with h1
    subst h1
    rfl
  · intro k a0 a1 h0 h1 _
    rw [h0] at h1
    injection h1 with h1
    subst h1
    rfl
  · intro x hx; cases hx
  · intro x hx; cases hx
  · intro j b0 b1 h0 hal h1 hdead
    rw [h0] at h1
    injection h1 with h1
    subst h1
    exact absurd hdead hal

/-- The invariant `merge_inv` holds along every prefix of the visiting order. -/
theorem merge_run_inv (l0 : List tracked_point) (hd : distinct_live l0)
    (hsym : ∀ a b : tracked_point, near ext settings_ a b → near ext settings_ b a) :
    ∀ ps : List (Nat × Nat), ps <+: all_pairs l0.length →
      (∀ y ∈ (merge_run ext settings_ l0 ps).2, y ∈ ps) ∧
      merge_inv ext settings_ l0 (merge_pairs ext settings_ l0 ps)
        (merge_run ext settings_ l0 ps).2 := by
  intro ps
  induction ps using List.reverseRecOn with
  | nil =>
    intro _
    refine ⟨?_, merge_inv_start ext settings_ l0⟩
    intro y hy
    cases hy
  | append_singleton ps x ih =>
    intro hpre
    have hpre2 : ps <+: all_pairs l0.length := (List.prefix_append ps [x]).trans hpre
    obtain ⟨hsub, hinv⟩ := ih hpre2
    obtain ⟨hbefore, hback⟩ := prefix_order l0.length ps x hpre
    have hpts : merge_pairs ext settings_ l0 (ps ++ [x]) =
        merge_step ext settings_ (merge_pairs ext settings_ l0 ps) x.1 x.2 := by
      unfold merge_pairs
      rw [List.foldl_append]
      rfl
    have hlog : (merge_run ext settings_ l0 (ps ++ [x])).2 =
        if merge_fires ext settings_ (merge_pairs ext settings_ l0 ps) x.1 x.2 = true
        then (merge_run ext settings_ l0 ps).2 ++ [x] else (merge_run ext settings_ l0 ps).2 := by
      rw [merge_run_snoc]
      unfold merge_run_step
      rw [merge_run_points]
    rw [hlog, hpts]
    by_cases hfire : merge_fires ext settings_ (merge_pairs ext settings_ l0 ps) x.1 x.2 = true
    · rw [if_pos hfire]
      refine ⟨?_, ?_⟩
      · intro y hy
        rcases List.mem_append.mp hy with hy | hy
        · exact List.mem_append_left _ (hsub y hy)
        · exact List.mem_append_right _ hy
      · refine merge_inv_fire ext settings_ l0 _ _ ps x hsym
          (merge_pairs_evolves ext settings_ ps l0) hsub hinv hbefore ?_ hfire
        intro hlt
        have := merge_pairs_separates ext settings_ ps l0 hd (x.2, x.1) (hback hlt)
        exact this (by dsimp only; omega)
    · rw [if_neg hfire]
      rw [merge_fires_false ext settings_ _ x.1 x.2 (by simpa using hfire)]
      exact ⟨fun y hy => List.mem_append_left _ (hsub y hy), hinv⟩

/-- The invariant at the end of `remove_duplicate_points_list`. -/
theorem remove_duplicate_points_list_inv (l0 : List tracked_point) (hd : distinct_live l0)
    (hsym : ∀ u v : cv.Point3f, ext.norm (u.sub v) = ext.norm (v.sub u)) :
    merge_inv ext settings_ l0 (remove_duplicate_points_list ext settings_ l0)
      (merge_run ext settings_ l0 (all_pairs l0.length)).2 := by
  rw [remove_duplicate_points_list_eq]
  refine (merge_run_inv ext settings_ l0 hd ?_ _ (List.prefix_refl _)).2
  intro a b h
  unfold near at h ⊢
  rw [hsym]; exact h

theorem axis_norm_symm (u v : cv.Point3f) : axis_norm (u.sub v) = axis_norm (v.sub u) := by
  unfold axis_norm cv.Point3f.sub
  dsimp only
  rw [abs_sub_comm u.x, abs_sub_comm u.y, abs_sub_comm u.z]

theorem mem_absorbed_by (l : List tracked_point) (i j : Nat) :
    j ∈ absorbed_by ext settings_ l i ↔
      (i, j) ∈ (merge_run ext settings_ l (all_pairs l.length)).2 := by
  unfold absorbed_by
  simp only [List.mem_map, List.mem_filter, decide_eq_true_eq]
  constructor
  · rintro ⟨x, ⟨hx, hxi⟩, hxj⟩
    have : x = (i, j) := Prod.ext hxi hxj
    rw [← this]; exact hx
  · intro h
    exact ⟨(i, j), ⟨h, rfl⟩, rfl⟩

/-- C21: for a tracked-point list with pairwise distinct trackingIds (and a norm that
does not depend on the order of the two positions), after `remove_duplicate_points` the
inactiveFrameCount of the point at every index is the minimum of its own count before
the call and the before-call counts of the points that were merged into it. Those
points sit later in the list and are dead at the end of the call, and every point that
the call marked dead was merged into some point. -/
theorem C21_survivor_holds_minimum_count (pp : point_processor)
    (hnd : (pp.trackedPoints_.map (fun p => p.trackingId)).Nodup)
    (hsym : ∀ u v : cv.Point3f, ext.norm (u.sub v) = ext.norm (v.sub u))
    (i : Nat) (a0 a1 : tracked_point)
    (h0 : pp.trackedPoints_[i]? = some a0)
    (h1 : (remove_duplicate_points ext settings_ pp).trackedPoints_[i]? = some a1) :
    a1.inactiveFrameCount =
      (absorbed_by ext settings_ pp.trackedPoints_ i).foldl
        (min_with_count pp.trackedPoints_) a0.inactiveFrameCount ∧
    (∀ j ∈ absorbed_by ext settings_ pp.trackedPoints_ i, i < j ∧
      ∀ b1 : tracked_point,
        (remove_duplicate_points ext settings_ pp).trackedPoints_[j]? = some b1 →
        b1.trackingStatus = tracking_status.dead) ∧
    (a0.trackingStatus ≠ tracking_status.dead → a1.trackingStatus = tracking_status.dead →
      ∃ k : Nat, i ∈ absorbed_by ext settings_ pp.trackedPoints_ k) := by
  obtain ⟨I1, I2, _, _, I5, I4⟩ := remove_duplicate_points_list_inv ext settings_
    pp.trackedPoints_ (distinct_live_of_nodup pp.trackedPoints_ hnd) hsym
  have h1b : (remove_duplicate_points_list ext settings_ pp.trackedPoints_)[i]? = some a1 := h1
  refine ⟨I2 i a0 a1 h0 h1b, ?_, ?_⟩
  · intro j hj
    rw [mem_absorbed_by] at hj
    exact ⟨I1 (i, j) hj, fun b1 hb1 => I5 (i, j) hj b1 hb1⟩
  · intro hal hdead
    obtain ⟨k, _, hmem, _⟩ := I4 i a0 a1 h0 hal h1b hdead
    exact ⟨k, (mem_absorbed_by ext settings_ pp.trackedPoints_ k i).mpr hmem⟩

/-- Witness of C21 on the sample processor: the candidate at index 0 absorbs the active
point at index 1. -/
theorem C21_survivor_holds_minimum_count_witness :
    merged_sample_point.inactiveFrameCount =
      (absorbed_by sample_externals sample_settings sample_processor.trackedPoints_ 0).foldl
        (min_with_count sample_processor.trackedPoints_) sample_point.inactiveFrameCount ∧
    (∀ j ∈ absorbed_by sample_externals sample_settings sample_processor.trackedPoints_ 0,
      0 < j ∧
      ∀ b1 : tracked_point,
        (remove_duplicate_points sample_externals sample_settings
          sample_processor).trackedPoints_[j]? = some b1 →
        b1.trackingStatus = tracking_status.dead) ∧
    (sample_point.trackingStatus ≠ tracking_status.dead →
      merged_sample_point.trackingStatus = tracking_status.dead →
      ∃ k : Nat, 0 ∈ absorbed_by sample_externals sample_settings
        sample_processor.trackedPoints_ k) :=
  C21_survivor_holds_minimum_count sample_externals sample_settings sample_processor
    (by decide) axis_norm_symm 0 sample_point merged_sample_point (by decide) (by decide!)

/-- C26: for a tracked-point list with pairwise distinct trackingIds (and a norm that
does not depend on the order of the two positions), every point that was not dead before
`remove_duplicate_points` and is dead after it has, in the list at the end of the call, a
non-dead point whose world position is closer than mergePointDistance to its own; and
if the point marked dead was an active point, that non-dead point is an active point. -/
theorem C26_merged_point_has_live_neighbour (pp : point_processor)
    (hnd : (pp.trackedPoints_.map (fun p => p.trackingId)).Nodup)
    (hsym : ∀ u v : cv.Point3f, ext.norm (u.sub v) = ext.norm (v.sub u))
    (j : Nat) (b0 b1 : tracked_point)
    (h0 : pp.trackedPoints_[j]? = some b0)
    (hal : b0.trackingStatus ≠ tracking_status.dead)
    (h1 : (remove_duplicate_points ext settings_ pp).trackedPoints_[j]? = some b1)
    (hdead : b1.trackingStatus = tracking_status.dead) :
    ∃ a ∈ (remove_duplicate_points ext settings_ pp).trackedPoints_,
      a.trackingStatus ≠ tracking_status.dead ∧
      ext.norm (a.worldPosition.sub b1.worldPosition) < settings_.mergePointDistance ∧
      (b0.pointType = tracked_point_type.active_point →
        a.pointType = tracked_point_type.active_point) := by
  obtain ⟨_, _, _, I3, _, I4⟩ := remove_duplicate_points_list_inv ext settings_
    pp.trackedPoints_ (distinct_live_of_nodup pp.trackedPoints_ hnd) hsym
  have h1b : (remove_duplicate_points_list ext settings_ pp.trackedPoints_)[j]? = some b1 := h1
  obtain ⟨i, a, hmem, hl, hnear, htype⟩ := I4 j b0 b1 h0 hal h1b hdead
  exact ⟨a, List.getElem?_mem hl, I3 (i, j) hmem a hl, hnear, htype⟩

/-- Witness of C26 on the sample processor: the active point at index 1 is marked dead
and the point at index 0 survives as an active point at distance 0. -/
theorem C26_merged_point_has_live_neighbour_witness :
    ∃ a ∈ (remove_duplicate_points sample_externals sample_settings
        sample_processor).trackedPoints_,
      a.trackingStatus ≠ tracking_status.dead ∧
      sample_externals.norm (a.worldPosition.sub second_sample_point.worldPosition)
        < sample_settings.mergePointDistance ∧
      (second_sample_point.pointType = tracked_point_type.active_point →
        a.pointType = tracked_point_type.active_point) :=
  C26_merged_point_has_live_neighbour sample_externals sample_settings sample_processor
    (by decide) axis_norm_symm 1 second_sample_point
    { second_sample_point with trackingStatus := tracking_status.dead }
    (by decide) (by decide) (by decide!) rfl

end merge_log

/-! ## Bounds of the smoothing factor -/

theorem smooth_world_positions_eq (ext : externals) (settings_ : point_processor_settings)
    (oldWorldPosition newWorldPosition : cv.Point3f) :
    smooth_world_positions ext settings_ oldWorldPosition newWorldPosition =
      (oldWorldPosition.scale
          (1 - effective_smoothing_factor settings_.pointSmoothingFactor
            settings_.pointDeadBandSmoothingFactor settings_.pointSmoothingDeadZone
            (ext.norm (newWorldPosition.sub oldWorldPosition)))).add
        (newWorldPosition.scale
          (effective_smoothing_factor settings_.pointSmoothingFactor
            settings_.pointDeadBandSmoothingFactor settings_.pointSmoothingDeadZone
            (ext.norm (newWorldPosition.sub oldWorldPosition)))) := by
  unfold smooth_world_positions effective_smoothing_factor
  rfl

/-- In the ramp the factor is the dead-band factor plus the gap between the two factors
scaled with the fraction of the dead zone covered. -/
theorem effective_smoothing_factor_ramp {K : Type} [LinearOrderedField K]
    (psf pdb dz delta : K) (hlt : delta < dz) :
    effective_smoothing_factor psf pdb dz delta = pdb + (psf - pdb) * (delta / dz) := by
  unfold effective_smoothing_factor
  rw [if_pos hlt]
  ring

theorem effective_smoothing_factor_le {K : Type} [LinearOrderedField K]
    (psf pdb dz delta : K) (hdz : 0 < dz) (h1 : pdb ≤ psf) :
    effective_smoothing_factor psf pdb dz delta ≤ psf := by
  by_cases hlt : delta < dz
  · rw [effective_smoothing_factor_ramp psf pdb dz delta hlt]
    have hq : delta / dz ≤ 1 := le_of_lt ((div_lt_one hdz).mpr hlt)
    have := mul_le_mul_of_nonneg_left hq (sub_nonneg.mpr h1)
    linarith
  · unfold effective_smoothing_factor
    rw [if_neg hlt]

theorem effective_smoothing_factor_ge {K : Type} [LinearOrderedField K]
    (psf pdb dz delta : K) (hdz : 0 < dz) (h1 : pdb ≤ psf) (hd : 0 ≤ delta) :
    pdb ≤ effective_smoothing_factor psf pdb dz delta := by
  by_cases hlt : delta < dz
  · rw [effective_smoothing_factor_ramp psf pdb dz delta hlt]
    have hq : 0 ≤ delta / dz := div_nonneg hd (le_of_lt hdz)
    have := mul_nonneg (sub_nonneg.mpr h1) hq
    linarith
  · unfold effective_smoothing_factor
    rw [if_neg hlt]
    exact h1

theorem effective_smoothing_factor_mono {K : Type} [LinearOrderedField K]
    (psf pdb dz d1 d2 : K) (hdz : 0 < dz) (h1 : pdb ≤ psf) (hd : d1 ≤ d2) :
    effective_smoothing_factor psf pdb dz d1 ≤ effective_smoothing_factor psf pdb dz d2 := by
  by_cases h2 : d2 < dz
  · have hlt1 : d1 < dz := lt_of_le_of_lt hd h2
    rw [effective_smoothing_factor_ramp psf pdb dz d1 hlt1,
      effective_smoothing_factor_ramp psf pdb dz d2 h2]
    have hq : d1 / dz ≤ d2 / dz := div_le_div_of_nonneg_right hd (le_of_lt hdz)
    have := mul_le_mul_of_nonneg_left hq (sub_nonneg.mpr h1)
    linarith
  · have e2 : effective_smoothing_factor psf pdb dz d2 = psf := by
      unfold effective_smoothing_factor
      rw [if_neg h2]
    rw [e2]
    exact effective_smoothing_factor_le psf pdb dz d1 hdz h1

/-- An interpolation `a * (1 - f) + b * f` with `f` in `[0, 1]` lies between `a` and `b`. -/
theorem interpolation_between (a b f : ℚ) (hf0 : 0 ≤ f) (hf1 : f ≤ 1) :
    min a b ≤ a * (1 - f) + b * f ∧ a * (1 - f) + b * f ≤ max a b := by
  have hg : 0 ≤ 1 - f := by linarith
  rcases le_total a b with h | h
  · rw [min_eq_left h, max_eq_right h]
    have := mul_le_mul_of_nonneg_right h hf0
    have := mul_le_mul_of_nonneg_right h hg
    constructor <;> linarith
  · rw [min_eq_right h, max_eq_left h]
    have := mul_le_mul_of_nonneg_right h hf0
    have := mul_le_mul_of_nonneg_right h hg
    constructor <;> linarith

/-- C31: over every linearly ordered field (in particular the reals), for a dead zone
`dz > 0` and factors `0 <= pdb <= psf <= 1`, the effective smoothing factor of
`smooth_world_positions` is non-decreasing in the movement magnitude and, for a
magnitude `>= 0`, lies in `[pdb, psf]` and hence in `[0, 1]`; so for settings with
these bounds and a non-negative norm each coordinate of
`smooth_world_positions(old, new)` lies between the corresponding coordinates of `old`
and `new`; and `smooth_world_positions(p, p) = p` for every `p`. -/
theorem C31_smoothing_factor_monotone_and_bounded {K : Type} [LinearOrderedField K]
    (ext : externals) (settings_ : point_processor_settings)
    (oldWorldPosition newWorldPosition : cv.Point3f) (psf pdb dz : K)
    (hdz : 0 < dz) (h0 : 0 ≤ pdb) (h1 : pdb ≤ psf) (h2 : psf ≤ 1)
    (hsdz : 0 < settings_.pointSmoothingDeadZone)
    (hs0 : 0 ≤ settings_.pointDeadBandSmoothingFactor)
    (hs1 : settings_.pointDeadBandSmoothingFactor ≤ settings_.pointSmoothingFactor)
    (hs2 : settings_.pointSmoothingFactor ≤ 1)
    (hnorm : 0 ≤ ext.norm (newWorldPosition.sub oldWorldPosition)) :
    (∀ d1 d2 : K, d1 ≤ d2 →
      effective_smoothing_factor psf pdb dz d1 ≤ effective_smoothing_factor psf pdb dz d2) ∧
    (∀ d : K, 0 ≤ d →
      pdb ≤ effective_smoothing_factor psf pdb dz d ∧
      effective_smoothing_factor psf pdb dz d ≤ psf ∧
      0 ≤ effective_smoothing_factor psf pdb dz d ∧
      effective_smoothing_factor psf pdb dz d ≤ 1) ∧
    (min oldWorldPosition.x newWorldPosition.x
        ≤ (smooth_world_positions ext settings_ oldWorldPosition newWorldPosition).x ∧
      (smooth_world_positions ext settings_ oldWorldPosition newWorldPosition).x
        ≤ max oldWorldPosition.x newWorldPosition.x) ∧
    (min oldWorldPosition.y newWorldPosition.y
        ≤ (smooth_world_positions ext settings_ oldWorldPosition newWorldPosition).y ∧
      (smooth_world_positions ext settings_ oldWorldPosition newWorldPosition).y
        ≤ max oldWorldPosition.y newWorldPosition.y) ∧
    (min oldWorldPosition.z newWorldPosition.z
        ≤ (smooth_world_positions ext settings_ oldWorldPosition newWorldPosition).z ∧
      (smooth_world_positions ext settings_ oldWorldPosition newWorldPosition).z
        ≤ max oldWorldPosition.z newWorldPosition.z) ∧
    (∀ p : cv.Point3f, smooth_world_positions ext settings_ p p = p) := by
  have hf0 := le_trans hs0 (effective_smoothing_factor_ge settings_.pointSmoothingFactor
    settings_.pointDeadBandSmoothingFactor settings_.pointSmoothingDeadZone
    (ext.norm (newWorldPosition.sub oldWorldPosition)) hsdz hs1 hnorm)
  have hf1 := le_trans (effective_smoothing_factor_le settings_.pointSmoothingFactor
    settings_.pointDeadBandSmoothingFactor settings_.pointSmoothingDeadZone
    (ext.norm (newWorldPosition.sub oldWorldPosition)) hsdz hs1) hs2
  refine ⟨?_, ?_, ?_, ?_, ?_, ?_⟩
  · intro d1 d2 hd
    exact effective_smoothing_factor_mono psf pdb dz d1 d2 hdz h1 hd
  · intro d hd
    have hge := effective_smoothing_factor_ge psf pdb dz d hdz h1 hd
    have hle := effective_smoothing_factor_le psf pdb dz d hdz h1
    exact ⟨hge, hle, le_trans h0 hge, le_trans hle h2⟩
  · rw [smooth_world_positions_eq]
    exact interpolation_between oldWorldPosition.x newWorldPosition.x _ hf0 hf1
  · rw [smooth_world_positions_eq]
    exact interpolation_between oldWorldPosition.y newWorldPosition.y _ hf0 hf1
  · rw [smooth_world_positions_eq]
    exact interpolation_between oldWorldPosition.z newWorldPosition.z _ hf0 hf1
  · intro p
    rw [smooth_world_positions_eq]
    unfold cv.Point3f.add cv.Point3f.scale
    dsimp only
    cases p
    dsimp only
    congr 1 <;> ring

/-- Witness of C31 over the rationals with the sample settings: the x coordinate of the
smoothed position between `(0, 0, 1)` and `(5, 0, 1)` lies between 0 and 5. -/
theorem C31_smoothing_factor_monotone_and_bounded_witness :
    min (0 : ℚ) 5
        ≤ (smooth_world_positions sample_externals sample_settings ⟨0, 0, 1⟩ ⟨5, 0, 1⟩).x ∧
      (smooth_world_positions sample_externals sample_settings ⟨0, 0, 1⟩ ⟨5, 0, 1⟩).x
        ≤ max (0 : ℚ) 5 :=
  (C31_smoothing_factor_monotone_and_bounded sample_externals sample_settings ⟨0, 0, 1⟩
    ⟨5, 0, 1⟩ (3 / 4 : ℚ) (1 / 4) 10 (by norm_num) (by norm_num) (by norm_num) (by norm_num)
    (by decide!) (by decide!) (by decide!) (by decide!) (by decide!)).2.2.1

/-! ## The seed of the second-chance retry -/

/-- The search for the spacing ends within the doublings allowed. -/
theorem float_spacing_reaches (a : Nat) :
    ∀ fuel s : Nat, a < 2 ^ 24 * s * 2 ^ fuel → a < 2 ^ 24 * float_spacing fuel s a := by
  intro fuel
  induction fuel with
  | zero =>
    intro s h
    simpa [float_spacing] using h
  | succ f ih =>
    intro s h
    unfold float_spacing
    by_cases hlt : a < 2 ^ 24 * s
    · rw [if_pos hlt]; exact hlt
    · rw [if_neg hlt]
      apply ih
      have e : 2 ^ 24 * (2 * s) * 2 ^ f = 2 ^ 24 * s * 2 ^ (f + 1) := by ring
      rw [e]; exact h

/-- With the magnitude itself as the number of doublings allowed, the spacing found
puts the magnitude below `2 ^ 24` spacings: the search never stops early. -/
theorem float_spacing_total (a : Nat) : a < 2 ^ 24 * float_spacing a 1 a := by
  apply float_spacing_reaches
  have h1 : a < 2 ^ a := Nat.lt_two_pow a
  have h2 : 2 ^ a ≤ 2 ^ 24 * 1 * 2 ^ a := by
    have : 1 ≤ 2 ^ 24 * 1 := by norm_num
    calc 2 ^ a = 1 * 2 ^ a := (one_mul _).symm
      _ ≤ 2 ^ 24 * 1 * 2 ^ a := Nat.mul_le_mul_right _ this
  exact lt_of_lt_of_le h1 h2

/-- Integers up to `2 ^ 24` are `float` values. -/
theorem float_of_nat_exact (a : Nat) (h : a ≤ 2 ^ 24) : float_of_nat a = a := by
  rcases Nat.lt_or_eq_of_le h with hlt | heq
  · have hs : float_spacing a 1 a = 1 := by
      cases a with
      | zero => rfl
      | succ b =>
        unfold float_spacing
        rw [if_pos (by simpa using hlt)]
    unfold float_of_nat
    simp [hs, Nat.mod_one]
  · rw [heq]
    decide

theorem float_of_int_exact (n : Int) (h0 : 0 ≤ n) (h : n ≤ 2 ^ 24) : float_of_int n = n := by
  unfold float_of_int
  rw [if_pos h0]
  have hn : n.toNat ≤ 2 ^ 24 := by omega
  rw [float_of_nat_exact n.toNat hn]
  exact Int.toNat_of_nonneg h0

/-- The clamp `MAX(0, MIN(b, n))` of an integer `n` against an integer bound `b >= 0`,
stored into an `int`, lies in `[0, b]`. -/
theorem clamp_int_bounds (b : Int) (hb : 0 ≤ b) (n : Int) :
    0 ≤ static_cast_int (MAX 0 (MIN (b : ℚ) (n : ℚ))) ∧
    static_cast_int (MAX 0 (MIN (b : ℚ) (n : ℚ))) ≤ b := by
  obtain ⟨k, hk, hk0, hk1⟩ : ∃ k : Int,
      MAX 0 (MIN (b : ℚ) (n : ℚ)) = (k : ℚ) ∧ 0 ≤ k ∧ k ≤ b := by
    unfold MAX MIN
    by_cases hlt : (b : ℚ) < (n : ℚ)
    · rw [if_pos hlt]
      by_cases hneg : (0 : ℚ) > (b : ℚ)
      · rw [if_pos hneg]
        exact ⟨0, by simp, le_refl 0, hb⟩
      · rw [if_neg hneg]
        exact ⟨b, rfl, hb, le_refl _⟩
    · rw [if_neg hlt]
      by_cases hneg : (0 : ℚ) > (n : ℚ)
      · rw [if_pos hneg]
        exact ⟨0, by simp, le_refl 0, hb⟩
      · rw [if_neg hneg]
        have h1 : n ≤ b := by
          have := not_lt.mp hlt
          exact_mod_cast this
        have h2 : 0 ≤ n := by
          have := not_lt.mp hneg
          exact_mod_cast this
        exact ⟨n, rfl, h2, h1⟩
  have hs : static_cast_int (k : ℚ) = k := by
    unfold static_cast_int
    split_ifs
    · exact Int.floor_intCast k
    · exact Int.ceil_intCast k
  rw [hk, hs]
  exact ⟨hk0, hk1⟩

/-- For a dimension up to `2 ^ 24` the `float` bound `width - 1` is exact and the
clamped coordinate lies in the buffer. -/
theorem clamp_seed_bounds (bound : Int) (hb : 1 ≤ bound) (hmax : bound ≤ 2 ^ 24) (v : ℚ) :
    0 ≤ clamp_seed bound v ∧ clamp_seed bound v ≤ bound - 1 := by
  have h1 : float_of_int bound = bound := float_of_int_exact bound (by omega) hmax
  have h2 : float_of_int (bound - 1) = bound - 1 :=
    float_of_int_exact (bound - 1) (by omega) (by omega)
  unfold clamp_seed
  dsimp only
  rw [h1, h2]
  exact clamp_int_bounds (bound - 1) (by omega) _

/-- C32 fails as stated: for a buffer of 16777219 columns the `float` width is
16777220 and `width - 1` rounds to 16777220 again, so the retry seed of a lost point
whose estimated pixel lies at x = 16777220 is clamped to x = 16777220, beyond
`cols - 1 = 16777218`, and the second-chance retry is attempted with that seed; the
estimated coordinate 2000000000 is clamped to the same value. -/
theorem C32_counterexample :
    1 ≤ wide_matrices.cols ∧ 1 ≤ wide_matrices.rows ∧
    float_of_int wide_matrices.cols = 16777220 ∧
    float_of_int (float_of_int wide_matrices.cols - 1) = 16777220 ∧
    (recover_tracking_data sample_externals sample_settings wide_matrices
      far_lost_point).seedPosition.x = 16777220 ∧
    ¬ ((recover_tracking_data sample_externals sample_settings wide_matrices
      far_lost_point).seedPosition.x ≤ wide_matrices.cols - 1) ∧
    (update_tracked_point_requests sample_externals sample_settings wide_matrices
      far_lost_point).map (fun r => r.seedPosition) = [⟨0, 0⟩, ⟨16777220, 0⟩] ∧
    clamp_seed wide_matrices.cols 2000000000 = 16777220 := by
  decide!

/-- C32 (amended): for a depth buffer with `1 <= cols <= 2 ^ 24` and
`1 <= rows <= 2 ^ 24`, the seed pixel of the second-chance retry of
`update_tracked_point` (the seed of every request after the first one handed to the
seed-growing primitive) satisfies `0 <= x <= cols - 1` and `0 <= y <= rows - 1`, for
every world-to-depth conversion and every point; the clamp yields a value in the
buffer for every estimated coordinate. -/
theorem C32_second_chance_seed_in_bounds (ext : externals)
    (settings_ : point_processor_settings) (matrices : tracking_matrices)
    (trackedPoint : tracked_point)
    (hw : 1 ≤ matrices.cols) (hwmax : matrices.cols ≤ 2 ^ 24)
    (hh : 1 ≤ matrices.rows) (hhmax : matrices.rows ≤ 2 ^ 24) :
    (∀ r ∈ (update_tracked_point_requests ext settings_ matrices trackedPoint).drop 1,
      0 ≤ r.seedPosition.x ∧ r.seedPosition.x ≤ matrices.cols - 1 ∧
      0 ≤ r.seedPosition.y ∧ r.seedPosition.y ≤ matrices.rows - 1) ∧
    (∀ q : tracked_point,
      0 ≤ (recover_tracking_data ext settings_ matrices q).seedPosition.x ∧
      (recover_tracking_data ext settings_ matrices q).seedPosition.x ≤ matrices.cols - 1 ∧
      0 ≤ (recover_tracking_data ext settings_ matrices q).seedPosition.y ∧
      (recover_tracking_data ext settings_ matrices q).seedPosition.y ≤ matrices.rows - 1) ∧
    (∀ v : ℚ, 0 ≤ clamp_seed matrices.cols v ∧ clamp_seed matrices.cols v ≤ matrices.cols - 1 ∧
      0 ≤ clamp_seed matrices.rows v ∧ clamp_seed matrices.rows v ≤ matrices.rows - 1) := by
  have hrec : ∀ q : tracked_point,
      0 ≤ (recover_tracking_data ext settings_ matrices q).seedPosition.x ∧
      (recover_tracking_data ext settings_ matrices q).seedPosition.x ≤ matrices.cols - 1 ∧
      0 ≤ (recover_tracking_data ext settings_ matrices q).seedPosition.y ∧
      (recover_tracking_data ext settings_ matrices q).seedPosition.y ≤ matrices.rows - 1 := by
    intro q
    unfold recover_tracking_data
    dsimp only
    exact ⟨(clamp_seed_bounds _ hw hwmax _).1, (clamp_seed_bounds _ hw hwmax _).2,
      (clamp_seed_bounds _ hh hhmax _).1, (clamp_seed_bounds _ hh hhmax _).2⟩
  refine ⟨?_, hrec, ?_⟩
  · intro r hr
    rw [update_tracked_point_requests_eq] at hr
    split_ifs at hr
    · simp only [List.drop_succ_cons, List.drop_zero, List.mem_singleton] at hr
      rw [hr]
      exact hrec _
    · simp at hr
  · intro v
    exact ⟨(clamp_seed_bounds _ hw hwmax v).1, (clamp_seed_bounds _ hw hwmax v).2,
      (clamp_seed_bounds _ hh hhmax v).1, (clamp_seed_bounds _ hh hhmax v).2⟩

/-- Witness of C32 (amended) on the 4 by 4 sample frame: the retry seed of the lost
sample point and the clamp of the estimated coordinates -7 and 1000 lie in the buffer. -/
theorem C32_second_chance_seed_in_bounds_witness :
    (0 ≤ (recover_tracking_data sample_externals sample_settings sample_matrices
        lost_sample_point).seedPosition.x ∧
      (recover_tracking_data sample_externals sample_settings sample_matrices
        lost_sample_point).seedPosition.x ≤ sample_matrices.cols - 1 ∧
      0 ≤ (recover_tracking_data sample_externals sample_settings sample_matrices
        lost_sample_point).seedPosition.y ∧
      (recover_tracking_data sample_externals sample_settings sample_matrices
        lost_sample_point).seedPosition.y ≤ sample_matrices.rows - 1) ∧
    clamp_seed sample_matrices.cols (-7) = 0 ∧
    clamp_seed sample_matrices.cols 1000 = 3 :=
  ⟨(C32_second_chance_seed_in_bounds sample_externals sample_settings sample_matrices
    lost_sample_point (by decide) (by decide) (by decide) (by decide)).2.1 lost_sample_point,
    by decide!, by decide!⟩

end astra
